import Mathlib

/-!
Shallow embedding of the cloud-provider-integration convergence engine of the
mongodb-atlas-kubernetes operator (package `atlasproject`, file
`cloud_provider_integration.go`) and of the data-federation private-endpoint
sync (package `atlasdatafederation`, file `private_endpoint.go`).

Go's in-place mutation of status slices is embedded as explicit value passing;
remote API calls are embedded as a client record of state-passing functions
returning `Except`; fallible JSON unmarshalling of the last-applied annotation
is embedded as an `Except` value carried on the project.
-/

namespace AtlasKube

/-- Remote feature usage entry (`mongodbatlas.FeatureUsage`): `FeatureID` is an
`interface\x7b\x7d` in Go that is either absent (nil) or a string, embedded as
`Option String`. -/
structure AtlasFeatureUsage where
  featureID : Option String
  featureType : String
deriving DecidableEq, Repr

/-- Remote item `mongodbatlas.CloudProviderAccessRole` (the fields the engine
reads). `featureUsages` holds possibly-nil pointers, hence `Option`. -/
structure CloudProviderAccessRole where
  providerName : String
  iamAssumedRoleARN : String
  roleID : String
  atlasAWSAccountARN : String
  atlasAssumedRoleExternalID : String
  createdDate : String
  authorizedDate : String
  featureUsages : List (Option AtlasFeatureUsage)
deriving DecidableEq, Repr

/-- Desired item `mdbv1.CloudProviderIntegration` (also the shape of the
deprecated `CloudProviderAccessRole` spec entry and of
`CloudProviderIntegrationIdentifiable`). -/
structure CloudProviderIntegration where
  providerName : String
  iamAssumedRoleArn : String
deriving DecidableEq, Repr

/-- Lifecycle phase (`status.CloudProviderIntegrationStatus*` constants). -/
inductive CPIPhase where
  | new
  | created
  | authorized
  | failedToCreate
  | failedToAuthorize
  | deAuthorize
  | failedToDeAuthorize
deriving DecidableEq, Repr

/-- Persisted feature usage entry (`status.FeatureUsage`). -/
structure FeatureUsage where
  featureID : String
  featureType : String
deriving DecidableEq, Repr

/-- Per-item convergence record `status.CloudProviderIntegration`. -/
structure CPIStatus where
  providerName : String
  iamAssumedRoleArn : String
  status : CPIPhase
  errorMessage : String
  roleID : String
  atlasAWSAccountArn : String
  atlasAssumedRoleExternalID : String
  createdDate : String
  authorizedDate : String
  featureUsages : List FeatureUsage
deriving DecidableEq, Repr

/-- Modelled from the spec: `status.NewCloudProviderIntegration` (the `status`
package is not part of the sources at hand). Per the spec's data-model section,
a ConvergenceStatus entry is created from a DesiredItem's identity fields with
lifecycle phase `New` and everything else unset. -/
def NewCloudProviderIntegration (providerName iamAssumedRoleArn : String) : CPIStatus :=
  { providerName := providerName
    iamAssumedRoleArn := iamAssumedRoleArn
    status := .new
    errorMessage := ""
    roleID := ""
    atlasAWSAccountArn := ""
    atlasAssumedRoleExternalID := ""
    createdDate := ""
    authorizedDate := ""
    featureUsages := [] }

/-- `copyCloudProviderAccessData`: copy remote-assigned fields into the status;
phase becomes `Created`, or `Authorized` when an authorization timestamp is
present; feature usages are converted (nil entries skipped, non-string feature
ids impossible in the model) and only overwritten when non-empty. -/
def copyCloudProviderAccessData (cpiStatus : CPIStatus)
    (atlasCPA : CloudProviderAccessRole) : CPIStatus :=
  let s := { cpiStatus with
    atlasAWSAccountArn := atlasCPA.atlasAWSAccountARN
    atlasAssumedRoleExternalID := atlasCPA.atlasAssumedRoleExternalID
    roleID := atlasCPA.roleID
    createdDate := atlasCPA.createdDate
    authorizedDate := atlasCPA.authorizedDate
    status := if atlasCPA.authorizedDate ≠ "" then .authorized else .created }
  if atlasCPA.featureUsages.length > 0 then
    { s with featureUsages :=
        atlasCPA.featureUsages.filterMap fun f =>
          f.map fun feature =>
            { featureID := feature.featureID.getD ""
              featureType := feature.featureType } }
  else s

/-- `isMatch`: exact identity match between a status and a remote role. -/
def isMatch (cpaSpec : CPIStatus) (atlasCPA : CloudProviderAccessRole) : Bool :=
  atlasCPA.iamAssumedRoleARN ≠ "" && cpaSpec.iamAssumedRoleArn ≠ "" &&
    atlasCPA.providerName == cpaSpec.providerName &&
    atlasCPA.iamAssumedRoleARN == cpaSpec.iamAssumedRoleArn

/-- `initiateStatuses`: one fresh `New` status per desired item. -/
def initiateStatuses (cpiSpecs : List CloudProviderIntegration) : List CPIStatus :=
  cpiSpecs.map fun cpiSpec =>
    NewCloudProviderIntegration cpiSpec.providerName cpiSpec.iamAssumedRoleArn

/-- Lexicographic string order, in a kernel-evaluable form: `a ≤ b` as
character lists (equivalent to `String` order via `String.lt_iff_toList_lt`). -/
def strLe (a b : String) : Bool := !decide (b.toList < a.toList)

/-- Insert a remote role into a list sorted by role id. -/
def insertByRoleID (cpa : CloudProviderAccessRole) :
    List CloudProviderAccessRole → List CloudProviderAccessRole
  | [] => [cpa]
  | x :: xs =>
    if strLe cpa.roleID x.roleID then cpa :: x :: xs else x :: insertByRoleID cpa xs

/-- `sortAtlasCPAsByRoleID`: sort the remote role list by role id (Go uses
`sort.Slice` with `RoleID <`; embedded as insertion sort by `RoleID ≤`). -/
def sortAtlasCPAsByRoleID :
    List CloudProviderAccessRole → List CloudProviderAccessRole
  | [] => []
  | x :: xs => insertByRoleID x (sortAtlasCPAsByRoleID xs)

/-- First stage of `enrichStatuses`: each status absorbs, in list order, the
data of every remote role that matches it exactly (the last match wins). -/
def matchStage (cpiStatuses : List CPIStatus)
    (atlasCPAs : List CloudProviderAccessRole) : List CPIStatus :=
  cpiStatuses.map fun cpiStatus =>
    atlasCPAs.foldl
      (fun s cpa => if isMatch s cpa then copyCloudProviderAccessData s cpa else s)
      cpiStatus

/-- Second stage of `enrichStatuses`: statuses without both an ARN and a role
id claim the not-yet-authorized remote roles (empty ARN) one by one, in list
order; the loop stops when no such role is left.  Returns the updated statuses
and the unclaimed remainder. -/
def claimStage : List CPIStatus → List CloudProviderAccessRole →
    List CPIStatus × List CloudProviderAccessRole
  | [], noMatch => ([], noMatch)
  | s :: rest, noMatch =>
    if s.iamAssumedRoleArn ≠ "" && s.roleID ≠ "" then
      (s :: (claimStage rest noMatch).1, (claimStage rest noMatch).2)
    else
      match noMatch with
      | [] => (s :: rest, [])
      | cpa :: nms =>
        (copyCloudProviderAccessData s cpa :: (claimStage rest nms).1,
          (claimStage rest nms).2)

/-- Identifier used by the removal map of `enrichStatuses` and by
`CloudProviderIntegrationIdentifiable.Identifier` (`"%s.%s"` formatting). -/
def cpiKeyOf (providerName iamAssumedRoleArn : String) : String :=
  providerName ++ "." ++ iamAssumedRoleArn

/-- Membership test replacing the Go map of statuses keyed by
provider-dot-ARN: only statuses with a non-empty ARN are inserted. -/
def inStatusMap (cpiStatuses : List CPIStatus) (key : String) : Bool :=
  cpiStatuses.any fun s =>
    s.iamAssumedRoleArn ≠ "" && cpiKeyOf s.providerName s.iamAssumedRoleArn == key

/-- A synthesized remote-only removal entry: a fresh status filled with the
remote role's data and phase forced to `DeAuthorize`. -/
def deAuthorizeStatus (cpa : CloudProviderAccessRole) : CPIStatus :=
  { copyCloudProviderAccessData
      (NewCloudProviderIntegration cpa.providerName cpa.iamAssumedRoleARN) cpa
    with status := .deAuthorize }

/-- `enrichStatuses`: exact matching, claiming of unauthorized remote roles,
then synthesis of `DeAuthorize` entries for authorized remote roles whose key
is not declared and for the unclaimed unauthorized remainder. -/
def enrichStatuses (cpiStatuses : List CPIStatus)
    (atlasCPAs : List CloudProviderAccessRole) : List CPIStatus :=
  let matched := matchStage cpiStatuses atlasCPAs
  let noMatch := atlasCPAs.filter fun cpa => cpa.iamAssumedRoleARN == ""
  let claimed := (claimStage matched noMatch).1
  let leftover := (claimStage matched noMatch).2
  let removals := (atlasCPAs.filter fun cpa =>
      cpa.iamAssumedRoleARN ≠ "" &&
        !inStatusMap claimed (cpiKeyOf cpa.providerName cpa.iamAssumedRoleARN)).map
    deAuthorizeStatus
  claimed ++ removals ++ leftover.map deAuthorizeStatus

/-- Modelled from the spec: `set.Difference` of the operator's `internal/set`
package (not part of the sources at hand).  Per the spec's diff-engine
contract it returns the items of `left` whose identifier equals no identifier
of `right`; equality is identifier-string equality only. -/
def Difference {α : Type} (key : α → String) (left right : List α) : List α :=
  left.filter fun l => !(right.any fun r => key r == key l)

/-- Identifier of a desired/identifiable cloud-provider integration
(`CloudProviderIntegrationIdentifiable.Identifier`). -/
def cpiIdentifier (cpi : CloudProviderIntegration) : String :=
  cpiKeyOf cpi.providerName cpi.iamAssumedRoleArn

/-- The identifiable view of a remote role built by the ownership resolver. -/
def roleIdentifiable (r : CloudProviderAccessRole) : CloudProviderIntegration :=
  { providerName := r.providerName, iamAssumedRoleArn := r.iamAssumedRoleARN }

/-- Project spec: current desired configuration (deprecated access-role list
plus its replacement, as both are read by `getCloudProviderIntegrations`). -/
structure AtlasProjectSpec where
  cloudProviderAccessRoles : List CloudProviderIntegration
  cloudProviderIntegrations : List CloudProviderIntegration
deriving DecidableEq, Repr

/-- `getCloudProviderIntegrations`: the deprecated list wins when non-empty. -/
def getCloudProviderIntegrations (projectSpec : AtlasProjectSpec) :
    List CloudProviderIntegration :=
  if projectSpec.cloudProviderAccessRoles.length > 0 then
    projectSpec.cloudProviderAccessRoles
  else projectSpec.cloudProviderIntegrations

/-- The project resource as the engine reads it.  `lastApplied` embeds the
last-applied-configuration annotation together with the outcome of
`json.Unmarshal` on it: absent annotation, a parse failure carrying its error
message, or the parsed spec. -/
structure AtlasProject where
  id : String
  spec : AtlasProjectSpec
  statusCPIs : List CPIStatus
  lastApplied : Option (Except String AtlasProjectSpec)

/-- One mutating remote call (`CloudProviderAccess` service), recorded with
its arguments.  The read-only `ListRoles` is not a mutation and is not
recorded. -/
inductive AtlasCall where
  | create (projectID providerName : String)
  | authorize (projectID roleID providerName iamAssumedRoleArn : String)
  | deauthorize (providerName projectID roleID : String)
deriving DecidableEq, Repr

/-- The remote `CloudProviderAccess` client, embedded as state-passing
functions over an abstract remote state `σ`.  Each call returns its outcome
(`Except` for the Go `(value, error)` pair) and the successor state. -/
structure AtlasClient (σ : Type) where
  listRoles : σ → String → Except String (List CloudProviderAccessRole) × σ
  createRole : σ → String → String → Except String CloudProviderAccessRole × σ
  authorizeRole :
    σ → String → String → String → String → Except String CloudProviderAccessRole × σ
  deauthorizeRole : σ → String → String → String → Except String Unit × σ

/-- `createCloudProviderAccess`: on error, phase `FailedToCreate` and the
message is stored; on success the remote data is copied in. -/
def createCloudProviderAccess {σ : Type} (c : AtlasClient σ) (st : σ)
    (projectID : String) (cpiStatus : CPIStatus) : CPIStatus × σ :=
  match c.createRole st projectID cpiStatus.providerName with
  | (.error e, st') =>
    ({ cpiStatus with status := .failedToCreate, errorMessage := e }, st')
  | (.ok cpa, st') => (copyCloudProviderAccessData cpiStatus cpa, st')

/-- `authorizeCloudProviderAccess`: on error, phase `FailedToAuthorize` and
the message is stored; on success the remote data is copied in. -/
def authorizeCloudProviderAccess {σ : Type} (c : AtlasClient σ) (st : σ)
    (projectID : String) (cpiStatus : CPIStatus) : CPIStatus × σ :=
  match c.authorizeRole st projectID cpiStatus.roleID cpiStatus.providerName
      cpiStatus.iamAssumedRoleArn with
  | (.error e, st') =>
    ({ cpiStatus with status := .failedToAuthorize, errorMessage := e }, st')
  | (.ok cpa, st') => (copyCloudProviderAccessData cpiStatus cpa, st')

/-- `deleteCloudProviderAccess`: on error, phase `FailedToDeAuthorize` and the
message is stored; on success the status is untouched. -/
def deleteCloudProviderAccess {σ : Type} (c : AtlasClient σ) (st : σ)
    (projectID : String) (cpiStatus : CPIStatus) : CPIStatus × σ :=
  match c.deauthorizeRole st cpiStatus.providerName projectID cpiStatus.roleID with
  | (.error e, st') =>
    ({ cpiStatus with status := .failedToDeAuthorize, errorMessage := e }, st')
  | (.ok _, st') => (cpiStatus, st')

/-- One iteration of the per-item loop of `syncCloudProviderIntegration`:
returns the updated status, the entry appended to `cpiStatusesToUpdate` (none
for the deauthorize phases), the remote state, and the mutating calls made. -/
def processStatus {σ : Type} (c : AtlasClient σ) (projectID : String) (st : σ)
    (s : CPIStatus) : CPIStatus × Option CPIStatus × σ × List AtlasCall :=
  match s.status with
  | .new | .failedToCreate =>
    ((createCloudProviderAccess c st projectID s).1,
      some (createCloudProviderAccess c st projectID s).1,
      (createCloudProviderAccess c st projectID s).2,
      [.create projectID s.providerName])
  | .created | .failedToAuthorize =>
    if s.iamAssumedRoleArn ≠ "" then
      ((authorizeCloudProviderAccess c st projectID s).1,
        some (authorizeCloudProviderAccess c st projectID s).1,
        (authorizeCloudProviderAccess c st projectID s).2,
        [.authorize projectID s.roleID s.providerName s.iamAssumedRoleArn])
    else (s, some s, st, [])
  | .deAuthorize | .failedToDeAuthorize =>
    ((deleteCloudProviderAccess c st projectID s).1, none,
      (deleteCloudProviderAccess c st projectID s).2,
      [.deauthorize s.providerName projectID s.roleID])
  | .authorized => (s, some s, st, [])

/-- The per-item loop over the enriched statuses: returns all updated
statuses, the retained (`cpiStatusesToUpdate`) statuses, the remote state, and
the mutating calls in order. -/
def syncLoop {σ : Type} (c : AtlasClient σ) (projectID : String) :
    σ → List CPIStatus → List CPIStatus × List CPIStatus × σ × List AtlasCall
  | st, [] => ([], [], st, [])
  | st, s :: rest =>
    let step := processStatus c projectID st s
    let tail := syncLoop c projectID step.2.2.1 rest
    (step.1 :: tail.1, step.2.1.toList ++ tail.2.1, tail.2.2.1,
      step.2.2.2 ++ tail.2.2.2)

/-- Outcome of `syncCloudProviderIntegration`: the Go `(bool, error)` pair as
`Except`, the updated statuses (for inspection), the persisted
`cpiStatusesToUpdate` set, the remote state, and the mutating calls. -/
structure SyncOutcome (σ : Type) where
  result : Except String Bool
  updated : List CPIStatus
  persisted : List CPIStatus
  state : σ
  calls : List AtlasCall

/-- `syncCloudProviderIntegration`: list remote roles, sort by role id, enrich
the fresh statuses, run the per-item state machine, then aggregate: any stored
error message wins and yields the synchronization error; otherwise `true` iff
every retained status is `Authorized`. -/
def syncCloudProviderIntegration {σ : Type} (c : AtlasClient σ) (st : σ)
    (projectID : String) (cpaSpecs : List CloudProviderIntegration) :
    SyncOutcome σ :=
  match c.listRoles st projectID with
  | (.error e, st') =>
    { result := .error ("unable to fetch cloud provider access from Atlas: " ++ e)
      updated := [], persisted := [], state := st', calls := [] }
  | (.ok atlasCPAs, st') =>
    let awsRoles := sortAtlasCPAsByRoleID atlasCPAs
    let cpiStatuses := enrichStatuses (initiateStatuses cpaSpecs) awsRoles
    let run := syncLoop c projectID st' cpiStatuses
    let withError := run.1.any fun s => s.errorMessage ≠ ""
    { result :=
        if withError then .error "not all items were synchronized successfully"
        else .ok (run.2.1.all fun s => s.status == .authorized)
      updated := run.1, persisted := run.2.1, state := run.2.2.1,
      calls := run.2.2.2 }

/-- `canCloudProviderIntegrationReconcile` (the ownership resolver): permitted
immediately when unprotected; a malformed last-applied annotation is an error;
then the remote roles with a non-empty IAM assumed-role ARN are collected, and
the three emptiness checks run in order (filtered remote list, remote minus
last-applied, current minus remote). -/
def canCloudProviderIntegrationReconcile {σ : Type} (c : AtlasClient σ) (st : σ)
    (isProtected : Bool) (akoProject : AtlasProject) : Except String Bool × σ :=
  if !isProtected then (.ok true, st)
  else
    match akoProject.lastApplied with
    | some (.error e) => (.error e, st)
    | other =>
      let latestConfig : AtlasProjectSpec :=
        match other with
        | some (.ok cfg) => cfg
        | _ => { cloudProviderAccessRoles := [], cloudProviderIntegrations := [] }
      match c.listRoles st akoProject.id with
      | (.error e, st') => (.error e, st')
      | (.ok list, st') =>
        let atlasList : List CloudProviderIntegration :=
          (list.filter fun r => r.iamAssumedRoleARN ≠ "").map roleIdentifiable
        if atlasList.length = 0 then (.ok true, st')
        else
          let akoLastList := getCloudProviderIntegrations latestConfig
          if (Difference cpiIdentifier atlasList akoLastList).length = 0 then
            (.ok true, st')
          else
            let akoCurrentList := getCloudProviderIntegrations akoProject.spec
            (.ok ((Difference cpiIdentifier akoCurrentList atlasList).length = 0), st')

/-- Reason codes of `workflow.Terminate` / `workflow.InProgress` used here. -/
def InternalReason : String := "Internal"

/-- Deletion-protection terminal reason (`workflow.AtlasDeletionProtection`). -/
def AtlasDeletionProtection : String := "AtlasDeletionProtection"

/-- Reason `workflow.ProjectCloudIntegrationsIsNotReadyInAtlas`. -/
def CloudIntegrationsNotReady : String := "ProjectCloudIntegrationsIsNotReadyInAtlas"

/-- Fixed message of the deletion-protection terminal result. -/
def deletionProtectionMessage : String :=
  "unable to reconcile Cloud Provider Integrations due to deletion protection being enabled. see https://dochub.mongodb.org/core/ako-deletion-protection for further information"

/-- A reconciliation pass outcome (`workflow.Result`, restricted to the
constructors this engine produces). -/
inductive WorkflowResult where
  | ok
  | inProgress (reason message : String)
  | terminate (reason message : String)
deriving DecidableEq, Repr

/-- `ensureCloudProviderIntegration`: resolver gate, empty-work early exit,
then sync; the sync error becomes a `Terminate`, a false sync flag becomes
`InProgress`.  Returns the result, the final remote state, and the mutating
calls of the pass. -/
def ensureCloudProviderIntegration {σ : Type} (c : AtlasClient σ) (st : σ)
    (isProtected : Bool) (project : AtlasProject) :
    WorkflowResult × σ × List AtlasCall :=
  match canCloudProviderIntegrationReconcile c st isProtected project with
  | (.error e, st') =>
    (.terminate InternalReason
      ("unable to resolve ownership for deletion protection: " ++ e), st', [])
  | (.ok false, st') =>
    (.terminate AtlasDeletionProtection deletionProtectionMessage, st', [])
  | (.ok true, st') =>
    let roleSpecs := getCloudProviderIntegrations project.spec
    if roleSpecs.length = 0 && project.statusCPIs.length = 0 then (.ok, st', [])
    else
      let out := syncCloudProviderIntegration c st' project.id roleSpecs
      match out.result with
      | .error e => (.terminate CloudIntegrationsNotReady e, out.state, out.calls)
      | .ok false =>
        (.inProgress CloudIntegrationsNotReady "not all entries are authorized",
          out.state, out.calls)
      | .ok true => (.ok, out.state, out.calls)

/-- Desired/remote data-federation private endpoint (`mdbv1.DataFederationPE`). -/
structure DataFederationPE where
  provider : String
  peType : String
  endpointID : String
deriving DecidableEq, Repr

/-- Modelled from the spec: `DataFederationPE.Identifier` (defined in the API
package, not part of the sources at hand).  Per the spec's identity contract a
private endpoint's natural key is its endpoint identifier. -/
def dataFederationPEIdentifier (pe : DataFederationPE) : String :=
  pe.endpointID

/-- One mutating data-federation private-endpoint call. -/
inductive DFCall where
  | createPE (projectID : String) (endpoint : DataFederationPE)
  | deletePE (projectID endpointID : String)
deriving DecidableEq, Repr

/-- The data-federation client (`DataFederationServiceOp`), embedded like
`AtlasClient`.  `getAllPrivateEndpoints` mirrors the Go `(endpoints, _, err)`
triple: a possibly-nil endpoint list together with a possibly-nil error. -/
structure DFClient (σ : Type) where
  getAllPrivateEndpoints :
    σ → String → Option (List DataFederationPE) × Option String × σ
  createOnePrivateEndpoint :
    σ → String → DataFederationPE → Except String Unit × σ
  deleteOnePrivateEndpoint : σ → String → String → Except String Unit × σ

/-- `getAllDataFederationPEs`: a nil endpoint slice is replaced by the empty
list; the error is passed through untouched. -/
def getAllDataFederationPEs {σ : Type} (c : DFClient σ) (st : σ)
    (projectID : String) : List DataFederationPE × Option String × σ :=
  let r := c.getAllPrivateEndpoints st projectID
  (r.1.getD [], r.2.1, r.2.2)

/-- The create loop of `syncPrivateEndpointsWithAtlas`: first failing create
terminates the pass. -/
def createPELoop {σ : Type} (c : DFClient σ) (projectID : String) :
    σ → List DataFederationPE → Except String Unit × σ × List DFCall
  | st, [] => (.ok (), st, [])
  | st, e :: rest =>
    match c.createOnePrivateEndpoint st projectID e with
    | (.error msg, st') => (.error msg, st', [.createPE projectID e])
    | (.ok _, st') =>
      let tail := createPELoop c projectID st' rest
      (tail.1, tail.2.1, .createPE projectID e :: tail.2.2)

/-- The delete loop of `syncPrivateEndpointsWithAtlas`: first failing delete
terminates the pass. -/
def deletePELoop {σ : Type} (c : DFClient σ) (projectID : String) :
    σ → List DataFederationPE → Except String Unit × σ × List DFCall
  | st, [] => (.ok (), st, [])
  | st, e :: rest =>
    match c.deleteOnePrivateEndpoint st projectID e.endpointID with
    | (.error msg, st') => (.error msg, st', [.deletePE projectID e.endpointID])
    | (.ok _, st') =>
      let tail := deletePELoop c projectID st' rest
      (tail.1, tail.2.1, .deletePE projectID e.endpointID :: tail.2.2)

/-- `syncPrivateEndpointsWithAtlas`: create every declared endpoint missing
remotely, then delete every remote endpoint no longer declared; any call error
is an `Internal` terminal result. -/
def syncPrivateEndpointsWithAtlas {σ : Type} (c : DFClient σ) (st : σ)
    (projectID : String) (specPEs atlasPEs : List DataFederationPE) :
    WorkflowResult × σ × List DFCall :=
  let endpointsToCreate := Difference dataFederationPEIdentifier specPEs atlasPEs
  match createPELoop c projectID st endpointsToCreate with
  | (.error msg, st', calls) => (.terminate InternalReason msg, st', calls)
  | (.ok _, st', calls) =>
    let endpointsToDelete := Difference dataFederationPEIdentifier atlasPEs specPEs
    match deletePELoop c projectID st' endpointsToDelete with
    | (.error msg, st'', calls') =>
      (.terminate InternalReason msg, st'', calls ++ calls')
    | (.ok _, st'', calls') => (.ok, st'', calls ++ calls')

/-- `ensurePrivateEndpoints`: a listing failure is only logged; the sync runs
on whatever endpoint list was returned (empty when nil). -/
def ensurePrivateEndpoints {σ : Type} (c : DFClient σ) (st : σ)
    (projectID : String) (specPEs : List DataFederationPE) :
    WorkflowResult × σ × List DFCall :=
  let fetched := getAllDataFederationPEs c st projectID
  syncPrivateEndpointsWithAtlas c fetched.2.2 projectID specPEs fetched.1

/-! ### A deterministic model of the remote cloud-provider-access API

Modelled from the spec's external-interface contract (`listRoles`,
`createRole`, `authorizeRole`, `deauthorizeRole`): the remote side is the
current role list plus a fresh-id counter; create makes a new unauthorized
role, authorize stamps the ARN and an authorization timestamp onto the role
with the given id (failing when the id is unknown or the provider does not
match), deauthorize removes the role. -/

/-- Remote-side state for the deterministic client model. -/
structure RemoteState where
  roles : List CloudProviderAccessRole
  counter : Nat
deriving DecidableEq, Repr

/-- The fresh role returned by a modelled create call. -/
def freshRole (providerName : String) (n : Nat) : CloudProviderAccessRole :=
  { providerName := providerName
    iamAssumedRoleARN := ""
    roleID := "role-" ++ toString n
    atlasAWSAccountARN := "atlas-account-" ++ toString n
    atlasAssumedRoleExternalID := "external-" ++ toString n
    createdDate := "created-" ++ toString n
    authorizedDate := ""
    featureUsages := [] }

/-- The authorized version of a remote role. -/
def authorizedRole (r : CloudProviderAccessRole)
    (iamAssumedRoleArn : String) : CloudProviderAccessRole :=
  { r with iamAssumedRoleARN := iamAssumedRoleArn, authorizedDate := "authorized" }

/-- The deterministic model client over `RemoteState`. -/
def modelClient : AtlasClient RemoteState where
  listRoles st _ := (.ok st.roles, st)
  createRole st _ providerName :=
    (.ok (freshRole providerName st.counter),
      { roles := st.roles ++ [freshRole providerName st.counter]
        counter := st.counter + 1 })
  authorizeRole st _ roleID providerName iamAssumedRoleArn :=
    match st.roles.find? fun r => r.roleID == roleID with
    | none => (.error "role not found", st)
    | some r =>
      if r.providerName ≠ providerName then (.error "provider mismatch", st)
      else
        (.ok (authorizedRole r iamAssumedRoleArn),
          { st with roles := st.roles.map fun x =>
              if x.roleID == roleID then authorizedRole r iamAssumedRoleArn else x })
  deauthorizeRole st _ _ roleID :=
    (.ok (), { st with roles := st.roles.filter fun r => r.roleID ≠ roleID })

/-- One full convergence pass over the model client, as
`ensureCloudProviderIntegration` runs it: the sync on the current desired
items against the current remote state. -/
def convergencePass (projectID : String) (cpaSpecs : List CloudProviderIntegration)
    (st : RemoteState) : SyncOutcome RemoteState :=
  syncCloudProviderIntegration modelClient st projectID cpaSpecs

/-! ### The ownership algorithm as the specification words it -/

/-- The four-step ownership algorithm exactly as the specification states it:
permitted when unprotected; permitted when the fetched remote role list is
empty; permitted when every remote identifier was already in the last-applied
configuration; otherwise permitted iff every currently desired identifier is
already present remotely.  Identifiers are provider-dot-ARN strings.  (This is
the comparison definition for the refinement claim; the code's resolver is
`canCloudProviderIntegrationReconcile`.) -/
def ownershipFourStep (isProtected : Bool)
    (lastApplied current : List CloudProviderIntegration)
    (remote : List CloudProviderAccessRole) : Bool :=
  if !isProtected then true
  else
    let remoteIds := remote.map fun r => cpiKeyOf r.providerName r.iamAssumedRoleARN
    if remoteIds.length = 0 then true
    else if ∀ i ∈ remoteIds, i ∈ lastApplied.map cpiIdentifier then true
    else decide (∀ i ∈ current.map cpiIdentifier, i ∈ remoteIds)

/-- The last-applied spec the resolver works with: the parsed annotation when
present and well-formed, the zero value otherwise. -/
def lastAppliedSpec (p : AtlasProject) : AtlasProjectSpec :=
  match p.lastApplied with
  | some (.ok cfg) => cfg
  | _ => { cloudProviderAccessRoles := [], cloudProviderIntegrations := [] }

/-! ## Helper lemmas -/

theorem mem_Difference {α : Type} (key : α → String) (L R : List α) (x : α) :
    x ∈ Difference key L R ↔ x ∈ L ∧ ∀ r ∈ R, key r ≠ key x := by
  simp [Difference, List.mem_filter]

theorem Difference_length_zero {α : Type} (key : α → String) (L R : List α) :
    (Difference key L R).length = 0 ↔ ∀ l ∈ L, ∃ r ∈ R, key r = key l := by
  rw [List.length_eq_zero]
  simp [Difference, List.filter_eq_nil_iff]

/-! ## Claims -/

/-- **C8**: for all desired sets `D` and remote sets `R` exposing identifiers,
the diff engine computes `toCreate = D \ R` and `toDelete = R \ D` by
identifier equality, with membership independent of input ordering. -/
theorem C8_diff_engine {α : Type} (key : α → String) (D R D' R' : List α)
    (x : α) (hD : D.Perm D') (hR : R.Perm R') :
    (x ∈ Difference key D R ↔ x ∈ D ∧ ∀ r ∈ R, key r ≠ key x) ∧
    (x ∈ Difference key R D ↔ x ∈ R ∧ ∀ d ∈ D, key d ≠ key x) ∧
    (x ∈ Difference key D R ↔ x ∈ Difference key D' R') ∧
    (x ∈ Difference key R D ↔ x ∈ Difference key R' D') := by
  refine ⟨mem_Difference .., mem_Difference .., ?_, ?_⟩
  · rw [mem_Difference, mem_Difference, hD.mem_iff]
    exact and_congr_right fun _ => by
      constructor <;> exact fun h r hr => h r (by
        first
        | exact hR.mem_iff.mpr hr
        | exact hR.mem_iff.mp hr)
  · rw [mem_Difference, mem_Difference, hR.mem_iff]
    exact and_congr_right fun _ => by
      constructor <;> exact fun h d hd => h d (by
        first
        | exact hD.mem_iff.mpr hd
        | exact hD.mem_iff.mp hd)

/-- Witness for C8 at concrete endpoint lists. -/
theorem C8_diff_engine_witness :
    let pe1 : DataFederationPE := ⟨"AWS", "DATA_LAKE", "ep-1"⟩
    let pe2 : DataFederationPE := ⟨"AWS", "DATA_LAKE", "ep-2"⟩
    let pe3 : DataFederationPE := ⟨"AWS", "DATA_LAKE", "ep-3"⟩
    (pe1 ∈ Difference dataFederationPEIdentifier [pe1, pe2] [pe2, pe3] ↔
      pe1 ∈ [pe1, pe2] ∧
        ∀ r ∈ [pe2, pe3], dataFederationPEIdentifier r ≠ dataFederationPEIdentifier pe1) ∧
    (pe1 ∈ Difference dataFederationPEIdentifier [pe2, pe3] [pe1, pe2] ↔
      pe1 ∈ [pe2, pe3] ∧
        ∀ d ∈ [pe1, pe2], dataFederationPEIdentifier d ≠ dataFederationPEIdentifier pe1) ∧
    (pe1 ∈ Difference dataFederationPEIdentifier [pe1, pe2] [pe2, pe3] ↔
      pe1 ∈ Difference dataFederationPEIdentifier [pe2, pe1] [pe3, pe2]) ∧
    (pe1 ∈ Difference dataFederationPEIdentifier [pe2, pe3] [pe1, pe2] ↔
      pe1 ∈ Difference dataFederationPEIdentifier [pe3, pe2] [pe2, pe1]) :=
  C8_diff_engine dataFederationPEIdentifier [⟨"AWS", "DATA_LAKE", "ep-1"⟩,
    ⟨"AWS", "DATA_LAKE", "ep-2"⟩] [⟨"AWS", "DATA_LAKE", "ep-2"⟩,
    ⟨"AWS", "DATA_LAKE", "ep-3"⟩] [⟨"AWS", "DATA_LAKE", "ep-2"⟩,
    ⟨"AWS", "DATA_LAKE", "ep-1"⟩] [⟨"AWS", "DATA_LAKE", "ep-3"⟩,
    ⟨"AWS", "DATA_LAKE", "ep-2"⟩] ⟨"AWS", "DATA_LAKE", "ep-1"⟩
    (by decide) (by decide)

/-- A stateless client returning fixed responses, used to instantiate the
theorems at concrete inputs. -/
def constClient (roles : Except String (List CloudProviderAccessRole))
    (createR : Except String CloudProviderAccessRole)
    (authorizeR : Except String CloudProviderAccessRole)
    (deauthorizeR : Except String Unit) : AtlasClient Unit where
  listRoles st _ := (roles, st)
  createRole st _ _ := (createR, st)
  authorizeRole st _ _ _ _ := (authorizeR, st)
  deauthorizeRole st _ _ _ := (deauthorizeR, st)

/-- A concrete authorized remote role used in instantiations. -/
def awsRole (arn roleID : String) : CloudProviderAccessRole :=
  { providerName := "AWS", iamAssumedRoleARN := arn, roleID := roleID
    atlasAWSAccountARN := "acc", atlasAssumedRoleExternalID := "ext"
    createdDate := "2023-01-01", authorizedDate := "2023-01-02"
    featureUsages := [] }

/-- **C4**: whenever the ownership resolver denies reconciliation, the pass
returns a `Terminate` result naming deletion protection and no remote create,
authorize, or deauthorize/delete call is made in that pass. -/
theorem C4_deletion_protection_blocks_mutations {σ : Type} (c : AtlasClient σ)
    (st st' : σ) (isProtected : Bool) (p : AtlasProject)
    (h : canCloudProviderIntegrationReconcile c st isProtected p = (.ok false, st')) :
    ensureCloudProviderIntegration c st isProtected p =
      (.terminate AtlasDeletionProtection deletionProtectionMessage, st', []) := by
  unfold ensureCloudProviderIntegration
  rw [h]

/-- Witness for C4: deletion protection on, one remote role unknown to the
last-applied configuration, one desired role not present remotely. -/
theorem C4_deletion_protection_blocks_mutations_witness :
    ensureCloudProviderIntegration
      (constClient (.ok [awsRole "arn:aws:iam::1" "r1"]) (.error "unused")
        (.error "unused") (.error "unused")) () true
      { id := "p", spec := ⟨[], [⟨"AWS", "arn:aws:iam::2"⟩]⟩, statusCPIs := []
        lastApplied := none } =
      (.terminate AtlasDeletionProtection deletionProtectionMessage, (), []) :=
  C4_deletion_protection_blocks_mutations _ _ _ _ _ (by rfl)

/-- **C7 counterexample**: the claim says the resolver returns permitted on an
empty remote list for *arbitrary or malformed* last-applied snapshots; with a
malformed snapshot and an empty remote list the resolver instead fails before
ever fetching the remote list, so the pass terminates and nothing is
permitted. -/
theorem C7_counterexample :
    (constClient (.ok []) (.error "unused") (.error "unused")
          (.error "unused")).listRoles () "p" = (.ok [], ()) ∧
    canCloudProviderIntegrationReconcile
        (constClient (.ok []) (.error "unused") (.error "unused") (.error "unused"))
        () true
        { id := "p", spec := ⟨[], [⟨"AWS", "arn1"⟩]⟩, statusCPIs := []
          lastApplied := some (.error "unexpected end of JSON input") } =
      (.error "unexpected end of JSON input", ()) := by
  exact ⟨rfl, rfl⟩

/-- **C7 amended**: provided the last-applied snapshot is absent or
well-formed, if the remote item list is empty the ownership resolver returns
permitted, for every desired and last-applied configuration content. -/
theorem C7_empty_remote_list_permits {σ : Type} (c : AtlasClient σ) (st st' : σ)
    (isProtected : Bool) (p : AtlasProject)
    (hParse : p.lastApplied = none ∨ ∃ cfg, p.lastApplied = some (.ok cfg))
    (hList : c.listRoles st p.id = (.ok [], st')) :
    (canCloudProviderIntegrationReconcile c st isProtected p).1 = .ok true := by
  unfold canCloudProviderIntegrationReconcile
  cases isProtected with
  | false => rfl
  | true =>
    rcases hParse with h | ⟨cfg, h⟩ <;> simp [h, hList]

/-- Witness for C7 amended: empty remote list, well-formed last-applied
snapshot disagreeing with the current desired configuration. -/
theorem C7_empty_remote_list_permits_witness :
    (canCloudProviderIntegrationReconcile
        (constClient (.ok []) (.error "unused") (.error "unused") (.error "unused"))
        () true
        { id := "p", spec := ⟨[], [⟨"AWS", "arn1"⟩]⟩, statusCPIs := []
          lastApplied := some (.ok ⟨[], [⟨"AWS", "other"⟩]⟩) }).1 = .ok true :=
  C7_empty_remote_list_permits _ _ () _ _ (.inr ⟨_, rfl⟩) rfl

/-- **C9**: the ownership resolver considers only remote roles with a
non-empty IAM assumed-role ARN; if every remote role is unauthorized (empty
ARN) the filtered list is empty and reconciliation is permitted regardless of
drift from the last-applied or current desired configuration (provided the
last-applied snapshot is absent or well-formed). -/
theorem C9_empty_arn_roles_ignored {σ : Type} (c : AtlasClient σ) (st st' : σ)
    (isProtected : Bool) (p : AtlasProject)
    (roles : List CloudProviderAccessRole)
    (hParse : p.lastApplied = none ∨ ∃ cfg, p.lastApplied = some (.ok cfg))
    (hList : c.listRoles st p.id = (.ok roles, st'))
    (hAll : ∀ r ∈ roles, r.iamAssumedRoleARN = "") :
    (canCloudProviderIntegrationReconcile c st isProtected p).1 = .ok true := by
  unfold canCloudProviderIntegrationReconcile
  cases isProtected with
  | false => rfl
  | true =>
    rcases hParse with h | ⟨cfg, h⟩ <;> (simp [h, hList]; rw [if_pos hAll])

/-- Witness for C9: two unauthorized remote roles, drifted arbitrarily from
both configurations. -/
theorem C9_empty_arn_roles_ignored_witness :
    (canCloudProviderIntegrationReconcile
        (constClient
          (.ok [{ awsRole "" "r1" with authorizedDate := "" },
                { awsRole "" "r2" with authorizedDate := "" }])
          (.error "unused") (.error "unused") (.error "unused"))
        () true
        { id := "p", spec := ⟨[], [⟨"AWS", "arn-current"⟩]⟩, statusCPIs := []
          lastApplied := some (.ok ⟨[], [⟨"AWS", "arn-last"⟩]⟩) }).1 = .ok true :=
  C9_empty_arn_roles_ignored _ _ () _ _ _ (.inr ⟨_, rfl⟩) rfl (by decide)

theorem Difference_length_zero_ids {α : Type} (key : α → String) (L R : List α) :
    ((Difference key L R).length = 0) ↔ ∀ i ∈ L.map key, i ∈ R.map key := by
  rw [Difference_length_zero]
  constructor
  · intro h i hi
    obtain ⟨l, hl, rfl⟩ := List.mem_map.mp hi
    obtain ⟨r, hr, hkey⟩ := h l hl
    exact List.mem_map.mpr ⟨r, hr, hkey⟩
  · intro h l hl
    obtain ⟨r, hr, hkey⟩ := List.mem_map.mp (h (key l) (List.mem_map.mpr ⟨l, hl, rfl⟩))
    exact ⟨r, hr, hkey⟩

/-- **C1 counterexample**: the claim's four-step algorithm applies the
emptiness and difference checks to the fetched remote role list; the code
first discards roles with an empty IAM assumed-role ARN.  With one such role
present, one desired item absent remotely, and an empty last-applied
configuration, the code permits reconciliation while the four-step algorithm
on the unfiltered list denies it. -/
theorem C1_counterexample :
    canCloudProviderIntegrationReconcile
        (constClient (.ok [{ awsRole "" "r0" with authorizedDate := "" }])
          (.error "unused") (.error "unused") (.error "unused"))
        () true
        { id := "p", spec := ⟨[], [⟨"AWS", "arn1"⟩]⟩, statusCPIs := []
          lastApplied := none } = (.ok true, ()) ∧
    ownershipFourStep true [] [⟨"AWS", "arn1"⟩]
        [{ awsRole "" "r0" with authorizedDate := "" }] = false := by
  exact ⟨rfl, rfl⟩

/-- **C1 amended**: the ownership resolver returns permitted exactly per the
four-step algorithm applied to the remote role list *restricted to roles with
a non-empty IAM assumed-role ARN* (given a fetchable role list and an absent
or well-formed last-applied snapshot). -/
theorem C1_resolver_four_step_on_filtered {σ : Type} (c : AtlasClient σ)
    (st st' : σ) (isProtected : Bool) (p : AtlasProject)
    (roles : List CloudProviderAccessRole)
    (hParse : p.lastApplied = none ∨ ∃ cfg, p.lastApplied = some (.ok cfg))
    (hList : c.listRoles st p.id = (.ok roles, st')) :
    (canCloudProviderIntegrationReconcile c st isProtected p).1 =
      .ok (ownershipFourStep isProtected
        (getCloudProviderIntegrations (lastAppliedSpec p))
        (getCloudProviderIntegrations p.spec)
        (roles.filter fun r => r.iamAssumedRoleARN ≠ "")) := by
  have hIds : ∀ F : List CloudProviderAccessRole,
      (F.map roleIdentifiable).map cpiIdentifier =
        F.map fun r => cpiKeyOf r.providerName r.iamAssumedRoleARN := fun F => by
    rw [List.map_map]; rfl
  cases isProtected with
  | false => rfl
  | true =>
    unfold canCloudProviderIntegrationReconcile ownershipFourStep
    have e2 := Difference_length_zero_ids cpiIdentifier
      ((roles.filter fun r => r.iamAssumedRoleARN ≠ "").map roleIdentifiable)
      (getCloudProviderIntegrations (lastAppliedSpec p))
    have e3 := Difference_length_zero_ids cpiIdentifier
      (getCloudProviderIntegrations p.spec)
      ((roles.filter fun r => r.iamAssumedRoleARN ≠ "").map roleIdentifiable)
    rw [hIds] at e2
    rw [hIds] at e3
    rcases hParse with h | ⟨cfg, h⟩ <;>
    · rw [h]
      simp only [lastAppliedSpec, h] at e2 e3
      simp only [hList, lastAppliedSpec, h, List.length_map]
      simp only [e2, e3]
      simp only [apply_ite Prod.fst]
      simp only [← apply_ite Except.ok]

/-- Witness for C1 amended: protected project, one authorized remote role
known to the last-applied configuration. -/
theorem C1_resolver_four_step_on_filtered_witness :
    (canCloudProviderIntegrationReconcile
        (constClient (.ok [awsRole "arn:aws:iam::1" "r1"]) (.error "unused")
          (.error "unused") (.error "unused"))
        () true
        { id := "p", spec := ⟨[], [⟨"AWS", "arn:aws:iam::1"⟩]⟩, statusCPIs := []
          lastApplied := some (.ok ⟨[], [⟨"AWS", "arn:aws:iam::1"⟩]⟩) }).1 =
      .ok (ownershipFourStep true
        (getCloudProviderIntegrations (lastAppliedSpec
          { id := "p", spec := ⟨[], [⟨"AWS", "arn:aws:iam::1"⟩]⟩, statusCPIs := []
            lastApplied := some (.ok ⟨[], [⟨"AWS", "arn:aws:iam::1"⟩]⟩) }))
        (getCloudProviderIntegrations
          (⟨[], [⟨"AWS", "arn:aws:iam::1"⟩]⟩ : AtlasProjectSpec))
        ([awsRole "arn:aws:iam::1" "r1"].filter fun r =>
          r.iamAssumedRoleARN ≠ "")) :=
  C1_resolver_four_step_on_filtered _ _ () _ _ _ (.inr ⟨_, rfl⟩) rfl

/-- **C2 counterexample**: the claim says a failed deauthorize retains the
item in the persisted set for retry; in the code the deauthorize phases are
never appended to `cpiStatusesToUpdate`, so after a failing deauthorize the
persisted set is empty even though the phase and error message were set. -/
theorem C2_counterexample :
    (syncCloudProviderIntegration
        (constClient (.ok [awsRole "arn9" "r1"]) (.error "unused")
          (.error "unused") (.error "boom")) () "p" []).persisted = [] ∧
    (syncCloudProviderIntegration
        (constClient (.ok [awsRole "arn9" "r1"]) (.error "unused")
          (.error "unused") (.error "boom")) () "p" []).updated.map
        (fun s => (s.status, s.errorMessage)) = [(.failedToDeAuthorize, "boom")] ∧
    (syncCloudProviderIntegration
        (constClient (.ok [awsRole "arn9" "r1"]) (.error "unused")
          (.error "unused") (.error "boom")) () "p" []).result =
      .error "not all items were synchronized successfully" := by
  exact ⟨rfl, rfl, rfl⟩

/-- **C2 amended**: when the remote deauthorize fails for an item in phase
`DeAuthorize` or `FailedToDeAuthorize`, the item's phase is set to
`FailedToDeAuthorize` and its error message is stored (making the pass
terminate), but the item is dropped from the persisted set whether the call
fails or succeeds; it reappears on a later pass only by re-synthesis from the
remote list. -/
theorem C2_failed_deauthorize_not_persisted {σ : Type} (c : AtlasClient σ)
    (st : σ) (projectID : String) (s : CPIStatus)
    (h : s.status = .deAuthorize ∨ s.status = .failedToDeAuthorize) :
    (processStatus c projectID st s).2.1 = none ∧
    (∀ e st', c.deauthorizeRole st s.providerName projectID s.roleID =
        (.error e, st') →
      (processStatus c projectID st s).1 =
        { s with status := .failedToDeAuthorize, errorMessage := e }) ∧
    (∀ st', c.deauthorizeRole st s.providerName projectID s.roleID =
        (.ok (), st') →
      (processStatus c projectID st s).1 = s) := by
  have hp : processStatus c projectID st s =
      ((deleteCloudProviderAccess c st projectID s).1, none,
        (deleteCloudProviderAccess c st projectID s).2,
        [.deauthorize s.providerName projectID s.roleID]) := by
    rcases h with h | h <;> (unfold processStatus; rw [h])
  refine ⟨by rw [hp], fun e st' he => ?_, fun st' hok => ?_⟩
  · rw [hp]
    show (deleteCloudProviderAccess c st projectID s).1 = _
    unfold deleteCloudProviderAccess
    rw [he]
  · rw [hp]
    show (deleteCloudProviderAccess c st projectID s).1 = _
    unfold deleteCloudProviderAccess
    rw [hok]

/-- Witness for C2 amended: a concrete `DeAuthorize` item whose deauthorize
call fails with message "boom". -/
theorem C2_failed_deauthorize_not_persisted_witness :
    (processStatus
        (constClient (.ok []) (.error "unused") (.error "unused") (.error "boom"))
        "p" () (deAuthorizeStatus (awsRole "arn9" "r1"))).2.1 = none ∧
    (processStatus
        (constClient (.ok []) (.error "unused") (.error "unused") (.error "boom"))
        "p" () (deAuthorizeStatus (awsRole "arn9" "r1"))).1 =
      { deAuthorizeStatus (awsRole "arn9" "r1") with
        status := .failedToDeAuthorize, errorMessage := "boom" } :=
  ⟨(C2_failed_deauthorize_not_persisted _ _ _ _ (.inl rfl)).1,
    (C2_failed_deauthorize_not_persisted _ _ _ _ (.inl rfl)).2.1 "boom" () rfl⟩

/-- **C3**: per-item pass outcome aggregation.  When the gate permits, there
is work to do and the remote list is fetchable: any non-empty item error
message makes the pass `Terminate` with message "not all items were
synchronized successfully" (taking precedence); otherwise all retained items
`Authorized` gives `Ok`; otherwise `InProgress` with reason "not all entries
are authorized". -/
theorem C3_result_aggregation {σ : Type} (c : AtlasClient σ) (st st' st'' : σ)
    (isProtected : Bool) (p : AtlasProject)
    (roles : List CloudProviderAccessRole)
    (hGate : canCloudProviderIntegrationReconcile c st isProtected p =
      (.ok true, st'))
    (hWork : ¬((getCloudProviderIntegrations p.spec).length = 0 ∧
      p.statusCPIs.length = 0))
    (hList : c.listRoles st' p.id = (.ok roles, st'')) :
    ((∃ s ∈ (syncCloudProviderIntegration c st' p.id
        (getCloudProviderIntegrations p.spec)).updated, s.errorMessage ≠ "") →
      ensureCloudProviderIntegration c st isProtected p =
        (.terminate CloudIntegrationsNotReady
            "not all items were synchronized successfully",
          (syncCloudProviderIntegration c st' p.id
            (getCloudProviderIntegrations p.spec)).state,
          (syncCloudProviderIntegration c st' p.id
            (getCloudProviderIntegrations p.spec)).calls)) ∧
    ((∀ s ∈ (syncCloudProviderIntegration c st' p.id
        (getCloudProviderIntegrations p.spec)).updated, s.errorMessage = "") →
      (∀ s ∈ (syncCloudProviderIntegration c st' p.id
        (getCloudProviderIntegrations p.spec)).persisted, s.status = .authorized) →
      ensureCloudProviderIntegration c st isProtected p =
        (.ok,
          (syncCloudProviderIntegration c st' p.id
            (getCloudProviderIntegrations p.spec)).state,
          (syncCloudProviderIntegration c st' p.id
            (getCloudProviderIntegrations p.spec)).calls)) ∧
    ((∀ s ∈ (syncCloudProviderIntegration c st' p.id
        (getCloudProviderIntegrations p.spec)).updated, s.errorMessage = "") →
      (∃ s ∈ (syncCloudProviderIntegration c st' p.id
        (getCloudProviderIntegrations p.spec)).persisted, s.status ≠ .authorized) →
      ensureCloudProviderIntegration c st isProtected p =
        (.inProgress CloudIntegrationsNotReady "not all entries are authorized",
          (syncCloudProviderIntegration c st' p.id
            (getCloudProviderIntegrations p.spec)).state,
          (syncCloudProviderIntegration c st' p.id
            (getCloudProviderIntegrations p.spec)).calls)) := by
  have hcond : ¬((decide ((getCloudProviderIntegrations p.spec).length = 0) &&
      decide (p.statusCPIs.length = 0)) = true) := by
    simpa [Bool.and_eq_true] using hWork
  have hres : (syncCloudProviderIntegration c st' p.id
      (getCloudProviderIntegrations p.spec)).result =
      (if ((syncCloudProviderIntegration c st' p.id
            (getCloudProviderIntegrations p.spec)).updated.any fun s =>
          s.errorMessage ≠ "") then
        .error "not all items were synchronized successfully"
      else .ok ((syncCloudProviderIntegration c st' p.id
          (getCloudProviderIntegrations p.spec)).persisted.all fun s =>
        s.status == .authorized)) := by
    unfold syncCloudProviderIntegration
    simp only [hList]
  have hens : ensureCloudProviderIntegration c st isProtected p =
      (match (syncCloudProviderIntegration c st' p.id
          (getCloudProviderIntegrations p.spec)).result with
        | .error e =>
          (.terminate CloudIntegrationsNotReady e,
            (syncCloudProviderIntegration c st' p.id
              (getCloudProviderIntegrations p.spec)).state,
            (syncCloudProviderIntegration c st' p.id
              (getCloudProviderIntegrations p.spec)).calls)
        | .ok false =>
          (.inProgress CloudIntegrationsNotReady "not all entries are authorized",
            (syncCloudProviderIntegration c st' p.id
              (getCloudProviderIntegrations p.spec)).state,
            (syncCloudProviderIntegration c st' p.id
              (getCloudProviderIntegrations p.spec)).calls)
        | .ok true =>
          (.ok,
            (syncCloudProviderIntegration c st' p.id
              (getCloudProviderIntegrations p.spec)).state,
            (syncCloudProviderIntegration c st' p.id
              (getCloudProviderIntegrations p.spec)).calls)) := by
    unfold ensureCloudProviderIntegration
    rw [hGate]
    simp only [if_neg hcond]
  refine ⟨fun hErr => ?_, fun hNoErr hAuth => ?_, fun hNoErr hBelow => ?_⟩
  · have hAny : ((syncCloudProviderIntegration c st' p.id
        (getCloudProviderIntegrations p.spec)).updated.any fun s =>
          s.errorMessage ≠ "") = true := by
      obtain ⟨s, hs, hne⟩ := hErr
      exact List.any_eq_true.mpr ⟨s, hs, by simpa using hne⟩
    rw [hens, hres, if_pos hAny]
  · have hAny : ((syncCloudProviderIntegration c st' p.id
        (getCloudProviderIntegrations p.spec)).updated.any fun s =>
          s.errorMessage ≠ "") = false := by
      rw [Bool.eq_false_iff]
      intro hx
      obtain ⟨s, hs, hne⟩ := List.any_eq_true.mp hx
      exact (of_decide_eq_true hne) (hNoErr s hs)
    have hAll : ((syncCloudProviderIntegration c st' p.id
        (getCloudProviderIntegrations p.spec)).persisted.all fun s =>
          s.status == .authorized) = true :=
      List.all_eq_true.mpr fun s hs => beq_iff_eq.mpr (hAuth s hs)
    rw [hens, hres, hAny]
    simp only [Bool.false_eq_true, if_false, hAll]
  · have hAny : ((syncCloudProviderIntegration c st' p.id
        (getCloudProviderIntegrations p.spec)).updated.any fun s =>
          s.errorMessage ≠ "") = false := by
      rw [Bool.eq_false_iff]
      intro hx
      obtain ⟨s, hs, hne⟩ := List.any_eq_true.mp hx
      exact (of_decide_eq_true hne) (hNoErr s hs)
    have hAll : ((syncCloudProviderIntegration c st' p.id
        (getCloudProviderIntegrations p.spec)).persisted.all fun s =>
          s.status == .authorized) = false := by
      rw [Bool.eq_false_iff]
      intro hx
      obtain ⟨s, hs, hne⟩ := hBelow
      exact hne (beq_iff_eq.mp (List.all_eq_true.mp hx s hs))
    rw [hens, hres, hAny]
    simp only [Bool.false_eq_true, if_false, hAll]

/-- Witness for C3: one desired item whose remote create fails with "cfail";
the pass terminates with the aggregate synchronization message. -/
theorem C3_result_aggregation_witness :
    ensureCloudProviderIntegration
        (constClient (.ok []) (.error "cfail") (.error "unused") (.error "unused"))
        () false
        { id := "p", spec := ⟨[], [⟨"AWS", "arn1"⟩]⟩, statusCPIs := []
          lastApplied := none } =
      (.terminate CloudIntegrationsNotReady
          "not all items were synchronized successfully",
        (syncCloudProviderIntegration
          (constClient (.ok []) (.error "cfail") (.error "unused") (.error "unused"))
          () "p" (getCloudProviderIntegrations (⟨[], [⟨"AWS", "arn1"⟩]⟩ :
            AtlasProjectSpec))).state,
        (syncCloudProviderIntegration
          (constClient (.ok []) (.error "cfail") (.error "unused") (.error "unused"))
          () "p" (getCloudProviderIntegrations (⟨[], [⟨"AWS", "arn1"⟩]⟩ :
            AtlasProjectSpec))).calls) :=
  (C3_result_aggregation _ _ _ _ false _ _ rfl (by decide) rfl).1
    ⟨{ NewCloudProviderIntegration "AWS" "arn1" with
        status := .failedToCreate, errorMessage := "cfail" }, by decide, by decide⟩

theorem createPELoop_all_ok {σ : Type} (c : DFClient σ) (projectID : String)
    (hCreate : ∀ (st₂ : σ) (pe : DataFederationPE),
      (c.createOnePrivateEndpoint st₂ projectID pe).1 = .ok ()) :
    ∀ (st : σ) (pes : List DataFederationPE),
      (createPELoop c projectID st pes).1 = .ok () ∧
      (createPELoop c projectID st pes).2.2 = pes.map (.createPE projectID ·) := by
  intro st pes
  induction pes generalizing st with
  | nil => exact ⟨rfl, rfl⟩
  | cons e rest ih =>
    have hc := hCreate st e
    unfold createPELoop
    rcases hres : c.createOnePrivateEndpoint st projectID e with ⟨r, st'⟩
    rw [hres] at hc
    simp only at hc
    subst hc
    simpa using ih st'

/-- **C10**: when listing the remote private endpoints fails (nil list plus an
error), the sync proceeds on the empty remote list: every declared endpoint is
issued a create call, no delete call is issued, and — provided the creates
succeed — the pass result is `Ok`, so the list failure itself never produces a
`Terminate` result. -/
theorem C10_list_failure_creates_all {σ : Type} (c : DFClient σ) (st st' : σ)
    (projectID : String) (specPEs : List DataFederationPE) (e : String)
    (hList : c.getAllPrivateEndpoints st projectID = (none, some e, st'))
    (hCreate : ∀ (st₂ : σ) (pe : DataFederationPE),
      (c.createOnePrivateEndpoint st₂ projectID pe).1 = .ok ()) :
    (ensurePrivateEndpoints c st projectID specPEs).1 = .ok ∧
    (ensurePrivateEndpoints c st projectID specPEs).2.2 =
      specPEs.map (.createPE projectID ·) := by
  have hDiff : Difference dataFederationPEIdentifier specPEs [] = specPEs := by
    simp [Difference]
  have hDiff2 : Difference dataFederationPEIdentifier [] specPEs = [] := rfl
  have hloop := createPELoop_all_ok c projectID hCreate st' specPEs
  unfold ensurePrivateEndpoints getAllDataFederationPEs
    syncPrivateEndpointsWithAtlas
  rw [hList]
  simp only [Option.getD_none, hDiff, hDiff2]
  rcases hrun : createPELoop c projectID st' specPEs with ⟨r, st'', calls⟩
  rw [hrun] at hloop
  obtain ⟨h1, h2⟩ := hloop
  simp only at h1 h2
  subst h1
  simp only [deletePELoop]
  simpa using h2

/-- Witness for C10: two declared endpoints, failing list call, succeeding
creates. -/
theorem C10_list_failure_creates_all_witness :
    (ensurePrivateEndpoints
        (⟨fun st _ => (none, some "list failed", st),
          fun st _ _ => (.ok (), st),
          fun st _ _ => (.error "unused", st)⟩ : DFClient Unit)
        () "p" [⟨"AWS", "DATA_LAKE", "ep-1"⟩, ⟨"AWS", "DATA_LAKE", "ep-2"⟩]).1 =
      .ok ∧
    (ensurePrivateEndpoints
        (⟨fun st _ => (none, some "list failed", st),
          fun st _ _ => (.ok (), st),
          fun st _ _ => (.error "unused", st)⟩ : DFClient Unit)
        () "p" [⟨"AWS", "DATA_LAKE", "ep-1"⟩, ⟨"AWS", "DATA_LAKE", "ep-2"⟩]).2.2 =
      [⟨"AWS", "DATA_LAKE", "ep-1"⟩, ⟨"AWS", "DATA_LAKE", "ep-2"⟩].map
        (AtlasKube.DFCall.createPE "p" ·) :=
  C10_list_failure_creates_all _ _ _ _ _ "list failed" rfl (fun _ _ => rfl)

/-- A status still unmatched for the claiming loop: it lacks an ARN or a
remote role id. -/
def unmatchedP (s : CPIStatus) : Bool :=
  !(s.iamAssumedRoleArn ≠ "" && s.roleID ≠ "")

theorem claimStage_fst_length (sts : List CPIStatus)
    (nm : List CloudProviderAccessRole) :
    ((claimStage sts nm).1).length = sts.length := by
  induction sts generalizing nm with
  | nil => rfl
  | cons s rest ih =>
    unfold claimStage
    by_cases hm : (s.iamAssumedRoleArn ≠ "" && s.roleID ≠ "") = true
    · rw [if_pos hm]
      exact congrArg (· + 1) (ih nm)
    · rw [if_neg hm]
      cases nm with
      | nil => rfl
      | cons cpa nms => exact congrArg (· + 1) (ih nms)

theorem claimStage_pairing (sts : List CPIStatus)
    (nm : List CloudProviderAccessRole) (j : Nat) (s : CPIStatus)
    (h : sts[j]? = some s) :
    ((claimStage sts nm).1)[j]? = some
      (if unmatchedP s then
        match nm[((sts.take j).filter unmatchedP).length]? with
        | some cpa => copyCloudProviderAccessData s cpa
        | none => s
      else s) := by
  induction sts generalizing nm j with
  | nil => simp at h
  | cons s₀ rest ih =>
    unfold claimStage
    by_cases hm : (s₀.iamAssumedRoleArn ≠ "" && s₀.roleID ≠ "") = true
    · rw [if_pos hm]
      have hu : unmatchedP s₀ = false := by rw [unmatchedP, hm]; rfl
      cases j with
      | zero =>
        rw [List.getElem?_cons_zero] at h
        cases h
        rw [List.getElem?_cons_zero, hu]
        rfl
      | succ j' =>
        rw [List.getElem?_cons_succ] at h
        rw [List.getElem?_cons_succ]
        have hcount : (((s₀ :: rest).take (j' + 1)).filter unmatchedP).length =
            ((rest.take j').filter unmatchedP).length := by
          rw [List.take_succ_cons, List.filter_cons, hu]
          simp
        rw [hcount]
        exact ih nm j' h
    · rw [if_neg hm]
      have hu : unmatchedP s₀ = true := by
        rw [unmatchedP, Bool.eq_false_iff.mpr hm]
        rfl
      cases nm with
      | nil =>
        rw [h]
        by_cases hx : unmatchedP s = true
        · rw [if_pos hx]
          rw [List.getElem?_nil]
        · rw [if_neg hx]
      | cons cpa nms =>
        cases j with
        | zero =>
          rw [List.getElem?_cons_zero] at h
          cases h
          rw [List.getElem?_cons_zero, if_pos hu]
          simp
        | succ j' =>
          rw [List.getElem?_cons_succ] at h
          rw [List.getElem?_cons_succ]
          have hcount : (((s₀ :: rest).take (j' + 1)).filter unmatchedP).length =
              ((rest.take j').filter unmatchedP).length + 1 := by
            rw [List.take_succ_cons, List.filter_cons, hu]
            simp
          rw [hcount]
          rw [ih nms j' h, List.getElem?_cons_succ]

/-- **C6 counterexample**: the claim says still-unmatched desired items are
paired with empty-ARN remote items earliest-created first; the code pairs in
role-id order.  With two unauthorized remote roles whose creation order
opposes their role-id order, the single unmatched desired item is paired with
the later-created role (`roleID "a"`, created 2021) instead of the earliest
(`roleID "b"`, created 2020). -/
theorem C6_counterexample :
    ((enrichStatuses [NewCloudProviderIntegration "AWS" "arnX"]
        (sortAtlasCPAsByRoleID
          [⟨"AWS", "", "b", "", "", "2020-01-01", "", []⟩,
           ⟨"AWS", "", "a", "", "", "2021-01-01", "", []⟩])).map fun s =>
      (s.roleID, s.createdDate))[0]? = some ("a", "2021-01-01") ∧
    ("2020-01-01" : String) < "2021-01-01" := by
  constructor
  · decide
  · rw [String.lt_iff_toList_lt]
    decide

/-- **C6 amended**: every desired item still unmatched after the
exact-identifier pass (no ARN or no role id) is paired with the empty-ARN
remote items in stable order *sorted by remote role id* (smallest role id
first, not earliest-created first): the `j`-th status, when it is the `k`-th
unmatched one, receives the `k`-th empty-ARN remote role of the role-id-sorted
list, and is left untouched when that list is exhausted. -/
theorem C6_unmatched_pairing (cpiStatuses : List CPIStatus)
    (atlasCPAs : List CloudProviderAccessRole) (j : Nat) (s : CPIStatus)
    (h : (matchStage cpiStatuses (sortAtlasCPAsByRoleID atlasCPAs))[j]? = some s) :
    (enrichStatuses cpiStatuses (sortAtlasCPAsByRoleID atlasCPAs))[j]? = some
      (if unmatchedP s then
        match ((sortAtlasCPAsByRoleID atlasCPAs).filter fun cpa =>
            cpa.iamAssumedRoleARN == "")[
          (((matchStage cpiStatuses (sortAtlasCPAsByRoleID atlasCPAs)).take j).filter
            unmatchedP).length]? with
        | some cpa => copyCloudProviderAccessData s cpa
        | none => s
      else s) := by
  have hj : j < (matchStage cpiStatuses (sortAtlasCPAsByRoleID atlasCPAs)).length := by
    exact List.getElem?_eq_some_iff.mp h |>.1
  have hlen : j < ((claimStage (matchStage cpiStatuses (sortAtlasCPAsByRoleID atlasCPAs))
      ((sortAtlasCPAsByRoleID atlasCPAs).filter fun cpa =>
        cpa.iamAssumedRoleARN == "")).1).length := by
    rw [claimStage_fst_length]
    exact hj
  unfold enrichStatuses
  rw [List.append_assoc, List.getElem?_append_left hlen]
  exact claimStage_pairing _ _ j s h

/-- Witness for C6 amended: the unmatched desired item receives the smallest
role id among the empty-ARN remote roles. -/
theorem C6_unmatched_pairing_witness :
    (enrichStatuses [NewCloudProviderIntegration "AWS" "arnX"]
        (sortAtlasCPAsByRoleID
          [⟨"AWS", "", "b", "", "", "2020-01-01", "", []⟩,
           ⟨"AWS", "", "a", "", "", "2021-01-01", "", []⟩]))[0]? = some
      (if unmatchedP (NewCloudProviderIntegration "AWS" "arnX") then
        match ((sortAtlasCPAsByRoleID
            [⟨"AWS", "", "b", "", "", "2020-01-01", "", []⟩,
             ⟨"AWS", "", "a", "", "", "2021-01-01", "", []⟩]).filter fun cpa =>
            cpa.iamAssumedRoleARN == "")[
          ((([NewCloudProviderIntegration "AWS" "arnX"] :
              List CPIStatus).take 0).filter unmatchedP).length]? with
        | some cpa =>
          copyCloudProviderAccessData (NewCloudProviderIntegration "AWS" "arnX") cpa
        | none => NewCloudProviderIntegration "AWS" "arnX"
      else NewCloudProviderIntegration "AWS" "arnX") := by
  have h := C6_unmatched_pairing [NewCloudProviderIntegration "AWS" "arnX"]
    [⟨"AWS", "", "b", "", "", "2020-01-01", "", []⟩,
     ⟨"AWS", "", "a", "", "", "2021-01-01", "", []⟩] 0
    (NewCloudProviderIntegration "AWS" "arnX") rfl
  simpa using h

/-- **C5 counterexample**: desired `[{AWS, arn1}]` against an empty remote
state: pass 1 creates the role and persists one `Created` status; pass 2, run
on the remote state pass 1 left (no intervening remote-side change) and with
no remote-call error, authorizes it and persists one `Authorized` status — the
two persisted ConvergenceStatus sets differ. -/
theorem C5_counterexample :
    ((convergencePass "p" [⟨"AWS", "arn1"⟩] ⟨[], 0⟩).updated.map fun s =>
      s.errorMessage) = [""] ∧
    ((convergencePass "p" [⟨"AWS", "arn1"⟩]
        (convergencePass "p" [⟨"AWS", "arn1"⟩] ⟨[], 0⟩).state).updated.map fun s =>
      s.errorMessage) = [""] ∧
    ((convergencePass "p" [⟨"AWS", "arn1"⟩] ⟨[], 0⟩).persisted.map fun s =>
      s.status) = [.created] ∧
    ((convergencePass "p" [⟨"AWS", "arn1"⟩]
        (convergencePass "p" [⟨"AWS", "arn1"⟩] ⟨[], 0⟩).state).persisted.map fun s =>
      s.status) = [.authorized] ∧
    (convergencePass "p" [⟨"AWS", "arn1"⟩]
        (convergencePass "p" [⟨"AWS", "arn1"⟩] ⟨[], 0⟩).state).persisted ≠
      (convergencePass "p" [⟨"AWS", "arn1"⟩] ⟨[], 0⟩).persisted := by
  exact ⟨rfl, rfl, rfl, rfl, by decide⟩

/-! ### Order facts about the role-id comparator and the sort -/

theorem strLe_iff (a b : String) : strLe a b = true ↔ a.toList ≤ b.toList := by
  unfold strLe
  rw [← decide_not, decide_eq_true_eq]
  exact not_lt

theorem strLe_total (a b : String) : strLe a b = true ∨ strLe b a = true := by
  rw [strLe_iff, strLe_iff]
  exact le_total _ _

theorem strLe_trans (a b c : String) (h1 : strLe a b = true)
    (h2 : strLe b c = true) : strLe a c = true := by
  rw [strLe_iff] at h1 h2 ⊢
  exact le_trans h1 h2

theorem strLe_antisymm (a b : String) (h1 : strLe a b = true)
    (h2 : strLe b a = true) : a = b := by
  rw [strLe_iff] at h1 h2
  have : a.toList = b.toList := le_antisymm h1 h2
  have hd : a.data = b.data := this
  cases a
  cases b
  exact congrArg String.mk hd

/-- Ordering of remote roles by role id, as the sort uses it. -/
def roleLe (a b : CloudProviderAccessRole) : Prop := strLe a.roleID b.roleID = true

theorem insertByRoleID_perm (x : CloudProviderAccessRole)
    (l : List CloudProviderAccessRole) : (insertByRoleID x l).Perm (x :: l) := by
  induction l with
  | nil => exact .refl _
  | cons y ys ih =>
    unfold insertByRoleID
    by_cases h : strLe x.roleID y.roleID = true
    · rw [if_pos h]
    · rw [if_neg h]
      exact (ih.cons y).trans (List.Perm.swap x y ys)

theorem sortAtlasCPAsByRoleID_perm (l : List CloudProviderAccessRole) :
    (sortAtlasCPAsByRoleID l).Perm l := by
  induction l with
  | nil => exact .refl _
  | cons x xs ih =>
    unfold sortAtlasCPAsByRoleID
    exact (insertByRoleID_perm x (sortAtlasCPAsByRoleID xs)).trans (ih.cons x)

theorem pairwise_insertByRoleID (x : CloudProviderAccessRole)
    (l : List CloudProviderAccessRole) (hl : l.Pairwise roleLe) :
    (insertByRoleID x l).Pairwise roleLe := by
  induction l with
  | nil => simp [insertByRoleID, roleLe]
  | cons y ys ih =>
    rw [List.pairwise_cons] at hl
    unfold insertByRoleID
    by_cases h : strLe x.roleID y.roleID = true
    · rw [if_pos h]
      refine List.Pairwise.cons ?_ (List.Pairwise.cons hl.1 hl.2)
      intro z hz
      rw [List.mem_cons] at hz
      rcases hz with hz | hz
      · rw [hz]
        exact h
      · exact strLe_trans _ _ _ h (hl.1 z hz)
    · rw [if_neg h]
      have hyx : roleLe y x := by
        rcases strLe_total x.roleID y.roleID with ht | ht
        · exact absurd ht h
        · exact ht
      refine List.Pairwise.cons ?_ (ih hl.2)
      intro z hz
      have hz' := (insertByRoleID_perm x ys).mem_iff.mp hz
      rw [List.mem_cons] at hz'
      rcases hz' with hz' | hz'
      · rw [hz']
        exact hyx
      · exact hl.1 z hz'

theorem sortAtlasCPAsByRoleID_pairwise (l : List CloudProviderAccessRole) :
    (sortAtlasCPAsByRoleID l).Pairwise roleLe := by
  induction l with
  | nil => exact .nil
  | cons x xs ih =>
    unfold sortAtlasCPAsByRoleID
    exact pairwise_insertByRoleID x _ ih

/-- Two role lists that are permutations of each other, both sorted by role
id, with no duplicate role ids, are equal. -/
theorem eq_of_perm_pairwise_nodup :
    ∀ (l₁ l₂ : List CloudProviderAccessRole), l₁.Perm l₂ →
      l₁.Pairwise roleLe → l₂.Pairwise roleLe →
      (l₁.map fun r => r.roleID).Nodup → l₁ = l₂
  | [], l₂, hp, _, _, _ => (hp.nil_eq).symm ▸ rfl
  | x :: xs, l₂, hp, h1, h2, hn => by
    have hx2 : x ∈ l₂ := hp.mem_iff.mp (.head _)
    cases l₂ with
    | nil => exact absurd hp.symm (by simp)
    | cons y ys =>
      rw [List.pairwise_cons] at h1 h2
      have hxy : x = y := by
        rw [List.mem_cons] at hx2
        rcases hx2 with h | h
        · exact h
        · have hy1 : y ∈ x :: xs := hp.symm.mem_iff.mp (.head _)
          rw [List.mem_cons] at hy1
          rcases hy1 with h' | h'
          · exact h'.symm
          · have hle1 : roleLe x y := h1.1 y h'
            have hle2 : roleLe y x := h2.1 x h
            have hid : x.roleID = y.roleID :=
              strLe_antisymm _ _ hle1 hle2
            exact List.inj_on_of_nodup_map hn (.head _) (.tail _ h') hid
      subst hxy
      have hp' : xs.Perm ys := hp.cons_inv
      have := eq_of_perm_pairwise_nodup xs ys hp' h1.2 h2.2
        (by rw [List.map_cons] at hn; exact hn.of_cons)
      rw [this]

/-! ### Field lemmas for the copy operation -/

theorem copy_providerName (s : CPIStatus) (cpa : CloudProviderAccessRole) :
    (copyCloudProviderAccessData s cpa).providerName = s.providerName := by
  unfold copyCloudProviderAccessData
  by_cases hd : cpa.authorizedDate ≠ "" <;>
    by_cases hf : cpa.featureUsages.length > 0 <;> simp [hd, hf]

theorem copy_iamAssumedRoleArn (s : CPIStatus) (cpa : CloudProviderAccessRole) :
    (copyCloudProviderAccessData s cpa).iamAssumedRoleArn = s.iamAssumedRoleArn := by
  unfold copyCloudProviderAccessData
  by_cases hd : cpa.authorizedDate ≠ "" <;>
    by_cases hf : cpa.featureUsages.length > 0 <;> simp [hd, hf]

theorem copy_errorMessage (s : CPIStatus) (cpa : CloudProviderAccessRole) :
    (copyCloudProviderAccessData s cpa).errorMessage = s.errorMessage := by
  unfold copyCloudProviderAccessData
  by_cases hd : cpa.authorizedDate ≠ "" <;>
    by_cases hf : cpa.featureUsages.length > 0 <;> simp [hd, hf]

theorem copy_roleID (s : CPIStatus) (cpa : CloudProviderAccessRole) :
    (copyCloudProviderAccessData s cpa).roleID = cpa.roleID := by
  unfold copyCloudProviderAccessData
  by_cases hd : cpa.authorizedDate ≠ "" <;>
    by_cases hf : cpa.featureUsages.length > 0 <;> simp [hd, hf]

theorem copy_authorizedDate (s : CPIStatus) (cpa : CloudProviderAccessRole) :
    (copyCloudProviderAccessData s cpa).authorizedDate = cpa.authorizedDate := by
  unfold copyCloudProviderAccessData
  by_cases hd : cpa.authorizedDate ≠ "" <;>
    by_cases hf : cpa.featureUsages.length > 0 <;> simp [hd, hf]

theorem copy_status (s : CPIStatus) (cpa : CloudProviderAccessRole) :
    (copyCloudProviderAccessData s cpa).status =
      if cpa.authorizedDate ≠ "" then .authorized else .created := by
  unfold copyCloudProviderAccessData
  by_cases hd : cpa.authorizedDate ≠ "" <;>
    by_cases hf : cpa.featureUsages.length > 0 <;> simp [hd, hf]

theorem copy_compose (s : CPIStatus) (cpa1 cpa2 : CloudProviderAccessRole)
    (h : cpa1.featureUsages = cpa2.featureUsages) :
    copyCloudProviderAccessData (copyCloudProviderAccessData s cpa1) cpa2 =
      copyCloudProviderAccessData s cpa2 := by
  unfold copyCloudProviderAccessData
  rw [h]
  by_cases hd1 : cpa1.authorizedDate ≠ "" <;> by_cases hd2 : cpa2.authorizedDate ≠ "" <;>
    by_cases h2 : cpa2.featureUsages.length > 0 <;> simp [hd1, hd2, h2]

/-! ### The match fold -/

/-- The per-status fold of `matchStage`. -/
def matchFold (s : CPIStatus) (atlasCPAs : List CloudProviderAccessRole) : CPIStatus :=
  atlasCPAs.foldl
    (fun s cpa => if isMatch s cpa then copyCloudProviderAccessData s cpa else s) s

theorem matchStage_eq (sts : List CPIStatus)
    (cpas : List CloudProviderAccessRole) :
    matchStage sts cpas = sts.map fun s => matchFold s cpas := rfl

theorem isMatch_copy (s : CPIStatus) (cpa r : CloudProviderAccessRole) :
    isMatch (copyCloudProviderAccessData s cpa) r = isMatch s r := by
  unfold isMatch
  rw [copy_providerName, copy_iamAssumedRoleArn]

theorem matchFold_filter (s : CPIStatus) (l : List CloudProviderAccessRole) :
    matchFold s l =
      (l.filter fun r => isMatch s r).foldl copyCloudProviderAccessData s := by
  induction l generalizing s with
  | nil => rfl
  | cons r l ih =>
    unfold matchFold
    rw [List.foldl_cons, List.filter_cons]
    by_cases h : isMatch s r = true
    · rw [if_pos h, if_pos h]
      rw [show (List.foldl
          (fun s cpa => if isMatch s cpa then copyCloudProviderAccessData s cpa else s)
          (copyCloudProviderAccessData s r) l) =
          matchFold (copyCloudProviderAccessData s r) l from rfl]
      rw [ih]
      rw [List.foldl_cons]
      congr 1
      apply List.filter_congr
      intro x _
      rw [isMatch_copy]
    · rw [if_neg h, if_neg h]
      exact ih s

theorem foldl_copy_providerName (s : CPIStatus)
    (l : List CloudProviderAccessRole) :
    (l.foldl copyCloudProviderAccessData s).providerName = s.providerName := by
  induction l generalizing s with
  | nil => rfl
  | cons r l ih => rw [List.foldl_cons, ih, copy_providerName]

theorem foldl_copy_iamAssumedRoleArn (s : CPIStatus)
    (l : List CloudProviderAccessRole) :
    (l.foldl copyCloudProviderAccessData s).iamAssumedRoleArn =
      s.iamAssumedRoleArn := by
  induction l generalizing s with
  | nil => rfl
  | cons r l ih => rw [List.foldl_cons, ih, copy_iamAssumedRoleArn]

theorem foldl_copy_errorMessage (s : CPIStatus)
    (l : List CloudProviderAccessRole) :
    (l.foldl copyCloudProviderAccessData s).errorMessage = s.errorMessage := by
  induction l generalizing s with
  | nil => rfl
  | cons r l ih => rw [List.foldl_cons, ih, copy_errorMessage]

theorem matchFold_providerName (s : CPIStatus) (l : List CloudProviderAccessRole) :
    (matchFold s l).providerName = s.providerName := by
  rw [matchFold_filter, foldl_copy_providerName]

theorem matchFold_iamAssumedRoleArn (s : CPIStatus)
    (l : List CloudProviderAccessRole) :
    (matchFold s l).iamAssumedRoleArn = s.iamAssumedRoleArn := by
  rw [matchFold_filter, foldl_copy_iamAssumedRoleArn]

theorem matchFold_errorMessage (s : CPIStatus) (l : List CloudProviderAccessRole) :
    (matchFold s l).errorMessage = s.errorMessage := by
  rw [matchFold_filter, foldl_copy_errorMessage]

/-! ### Generic facts about the per-item loop -/

theorem syncLoop_cons {σ : Type} (c : AtlasClient σ) (pid : String) (st : σ)
    (x : CPIStatus) (xs : List CPIStatus) :
    syncLoop c pid st (x :: xs) =
      ((processStatus c pid st x).1 ::
          (syncLoop c pid (processStatus c pid st x).2.2.1 xs).1,
        (processStatus c pid st x).2.1.toList ++
          (syncLoop c pid (processStatus c pid st x).2.2.1 xs).2.1,
        (syncLoop c pid (processStatus c pid st x).2.2.1 xs).2.2.1,
        (processStatus c pid st x).2.2.2 ++
          (syncLoop c pid (processStatus c pid st x).2.2.1 xs).2.2.2) := rfl

theorem syncLoop_append {σ : Type} (c : AtlasClient σ) (pid : String) (st : σ)
    (xs ys : List CPIStatus) :
    syncLoop c pid st (xs ++ ys) =
      ((syncLoop c pid st xs).1 ++
          (syncLoop c pid (syncLoop c pid st xs).2.2.1 ys).1,
        (syncLoop c pid st xs).2.1 ++
          (syncLoop c pid (syncLoop c pid st xs).2.2.1 ys).2.1,
        (syncLoop c pid (syncLoop c pid st xs).2.2.1 ys).2.2.1,
        (syncLoop c pid st xs).2.2.2 ++
          (syncLoop c pid (syncLoop c pid st xs).2.2.1 ys).2.2.2) := by
  induction xs generalizing st with
  | nil => rfl
  | cons x xs ih =>
    rw [List.cons_append, syncLoop_cons, ih, syncLoop_cons]
    simp [List.append_assoc]

theorem syncLoop_all_authorized {σ : Type} (c : AtlasClient σ) (pid : String)
    (st : σ) (xs : List CPIStatus) (h : ∀ x ∈ xs, x.status = .authorized) :
    syncLoop c pid st xs = (xs, xs, st, []) := by
  induction xs generalizing st with
  | nil => rfl
  | cons x xs ih =>
    have hx : x.status = .authorized := h x (.head _)
    have hp : processStatus c pid st x = (x, some x, st, []) := by
      unfold processStatus
      rw [hx]
    rw [syncLoop_cons, hp, ih st fun y hy => h y (.tail _ hy)]
    rfl

/-! ### Lookup helpers -/

theorem find?_key_map (l : List CloudProviderAccessRole)
    (f : CloudProviderAccessRole → CloudProviderAccessRole)
    (hf : ∀ r, (f r).roleID = r.roleID) (k : String) :
    ((l.map f).find? fun r => r.roleID == k) =
      (l.find? fun r => r.roleID == k).map f := by
  induction l with
  | nil => rfl
  | cons r l ih =>
    rw [List.map_cons]
    by_cases h : (r.roleID == k) = true
    · rw [List.find?_cons_of_pos, List.find?_cons_of_pos] <;>
        simp [hf, h]
    · rw [List.find?_cons_of_neg, List.find?_cons_of_neg]
      · exact ih
      · simpa using h
      · simpa [hf] using h

theorem find?_unique (l : List CloudProviderAccessRole)
    (hnd : (l.map fun r => r.roleID).Nodup) (r : CloudProviderAccessRole)
    (hr : r ∈ l) : (l.find? fun x => x.roleID == r.roleID) = some r := by
  induction l with
  | nil => simp at hr
  | cons a l ih =>
    by_cases h : (a.roleID == r.roleID) = true
    · rw [@List.find?_cons_of_pos _ (fun x => x.roleID == r.roleID) a l h]
      have : a = r :=
        List.inj_on_of_nodup_map hnd (.head _) hr (by simpa using h)
      rw [this]
    · rw [@List.find?_cons_of_neg _ (fun x => x.roleID == r.roleID) a l h]
      rw [List.mem_cons] at hr
      rcases hr with hr | hr
      · exact absurd (by rw [hr]; simp) h
      · rw [List.map_cons] at hnd
        exact ih hnd.of_cons hr

/-! ### The effect of a converged pass on the model state -/

/-- The role returned by a modelled authorize call keeps every field except
the ARN and the authorization timestamp. -/
theorem authorizedRole_roleID (r : CloudProviderAccessRole) (arn : String) :
    (authorizedRole r arn).roleID = r.roleID := rfl

/-- The pointwise effect of pass-1's successful authorize calls on the remote
role list: the role targeted by a `Created` status receives that status's ARN
and an authorization timestamp. -/
def applyAuth (xs : List CPIStatus) (r : CloudProviderAccessRole) :
    CloudProviderAccessRole :=
  match xs.find? fun x => x.roleID == r.roleID && x.status == .created with
  | some x => authorizedRole r x.iamAssumedRoleArn
  | none => r

/-- The per-status outcome of the authorize walk: authorized statuses are
untouched, created statuses absorb the authorized version of their role. -/
def authOutcome (roles : List CloudProviderAccessRole) (x : CPIStatus) :
    CPIStatus :=
  if x.status = .authorized then x
  else
    match roles.find? fun r => r.roleID == x.roleID with
    | some m => copyCloudProviderAccessData x (authorizedRole m x.iamAssumedRoleArn)
    | none => x

theorem applyAuth_roleID (xs : List CPIStatus) (r : CloudProviderAccessRole) :
    (applyAuth xs r).roleID = r.roleID := by
  unfold applyAuth
  cases h : xs.find? fun x => x.roleID == r.roleID && x.status == .created <;> rfl

theorem applyAuth_cons_skip (x : CPIStatus) (xs : List CPIStatus)
    (r : CloudProviderAccessRole) (h : ¬x.status = .created) :
    applyAuth (x :: xs) r = applyAuth xs r := by
  unfold applyAuth
  rw [List.find?_cons_of_neg]
  simp [h]

theorem roleID_nodup_map_preserved (roles : List CloudProviderAccessRole)
    (f : CloudProviderAccessRole → CloudProviderAccessRole)
    (hf : ∀ r, (f r).roleID = r.roleID) :
    (roles.map f).map (fun r => r.roleID) = roles.map fun r => r.roleID := by
  rw [List.map_map]
  exact List.map_congr_left fun r _ => hf r

/-! ### Unfold helpers for the state machine over the model client -/

theorem processStatus_authorized {σ : Type} (c : AtlasClient σ) (pid : String)
    (st : σ) (x : CPIStatus) (h : x.status = .authorized) :
    processStatus c pid st x = (x, some x, st, []) := by
  unfold processStatus
  rw [h]

theorem processStatus_new {σ : Type} (c : AtlasClient σ) (pid : String)
    (st : σ) (x : CPIStatus) (h : x.status = .new) :
    processStatus c pid st x =
      ((createCloudProviderAccess c st pid x).1,
        some (createCloudProviderAccess c st pid x).1,
        (createCloudProviderAccess c st pid x).2, [.create pid x.providerName]) := by
  unfold processStatus
  rw [h]

theorem processStatus_created_noarn {σ : Type} (c : AtlasClient σ) (pid : String)
    (st : σ) (x : CPIStatus) (h : x.status = .created)
    (ha : x.iamAssumedRoleArn = "") :
    processStatus c pid st x = (x, some x, st, []) := by
  unfold processStatus
  rw [h]
  rw [if_neg (by simp [ha])]

theorem processStatus_created_arn {σ : Type} (c : AtlasClient σ) (pid : String)
    (st : σ) (x : CPIStatus) (h : x.status = .created)
    (ha : x.iamAssumedRoleArn ≠ "") :
    processStatus c pid st x =
      ((authorizeCloudProviderAccess c st pid x).1,
        some (authorizeCloudProviderAccess c st pid x).1,
        (authorizeCloudProviderAccess c st pid x).2,
        [.authorize pid x.roleID x.providerName x.iamAssumedRoleArn]) := by
  unfold processStatus
  rw [h]
  rw [if_pos ha]

theorem processStatus_deauth_phase {σ : Type} (c : AtlasClient σ) (pid : String)
    (st : σ) (x : CPIStatus)
    (h : x.status = .deAuthorize ∨ x.status = .failedToDeAuthorize) :
    processStatus c pid st x =
      ((deleteCloudProviderAccess c st pid x).1, none,
        (deleteCloudProviderAccess c st pid x).2,
        [.deauthorize x.providerName pid x.roleID]) := by
  rcases h with h | h <;> (unfold processStatus; rw [h])

theorem modelClient_deauthorize (st : RemoteState) (prov pid k : String) :
    modelClient.deauthorizeRole st prov pid k =
      (.ok (), ⟨st.roles.filter fun r => r.roleID ≠ k, st.counter⟩) := rfl

theorem modelClient_create (st : RemoteState) (pid prov : String) :
    modelClient.createRole st pid prov =
      (.ok (freshRole prov st.counter),
        ⟨st.roles ++ [freshRole prov st.counter], st.counter + 1⟩) := rfl

theorem modelClient_authorize (st : RemoteState) (pid k prov arn : String) :
    modelClient.authorizeRole st pid k prov arn =
      (match st.roles.find? fun r => r.roleID == k with
        | none => (.error "role not found", st)
        | some r =>
          if r.providerName ≠ prov then (.error "provider mismatch", st)
          else
            (.ok (authorizedRole r arn),
              { st with roles := st.roles.map fun x =>
                  if x.roleID == k then authorizedRole r arn else x })) := rfl

/-- Processing only deauthorize-phase items over the model drops them all from
the persisted set and removes their roles from the remote state. -/
theorem syncLoop_deauth_walk (pid : String) (ds : List CPIStatus)
    (st : RemoteState) (hph : ∀ d ∈ ds, d.status = .deAuthorize) :
    (syncLoop modelClient pid st ds).2.1 = [] ∧
    (syncLoop modelClient pid st ds).2.2.1 =
      ⟨st.roles.filter fun r => !(ds.any fun d => d.roleID == r.roleID),
        st.counter⟩ := by
  induction ds generalizing st with
  | nil =>
    refine ⟨rfl, ?_⟩
    show st = _
    cases st with
    | mk roles counter => simp
  | cons d ds ih =>
    have hstep := processStatus_deauth_phase modelClient pid st d
      (.inl (hph d (.head _)))
    have hdel : deleteCloudProviderAccess modelClient st pid d =
        (d, ⟨st.roles.filter fun r => r.roleID ≠ d.roleID, st.counter⟩) := by
      unfold deleteCloudProviderAccess
      rw [modelClient_deauthorize]
    rw [syncLoop_cons, hstep, hdel]
    obtain ⟨ih1, ih2⟩ := ih (⟨st.roles.filter fun r => r.roleID ≠ d.roleID,
      st.counter⟩) (fun x hx => hph x (.tail _ hx))
    refine ⟨by simpa using ih1, ?_⟩
    show (syncLoop modelClient pid _ ds).2.2.1 = _
    rw [ih2]
    have : (st.roles.filter fun r => r.roleID ≠ d.roleID).filter
        (fun r => !(ds.any fun x => x.roleID == r.roleID)) =
        st.roles.filter fun r => !((d :: ds).any fun x => x.roleID == r.roleID) := by
      rw [List.filter_filter]
      apply List.filter_congr
      intro r _
      by_cases h : d.roleID = r.roleID
      · simp [h]
      · simp [h, Ne.symm h, beq_eq_false_iff_ne.mpr h]
    rw [this]

/-- In-place update of the role targeted by a successful authorize call. -/
def replaceRole (k : String) (m : CloudProviderAccessRole) (arn : String)
    (r : CloudProviderAccessRole) : CloudProviderAccessRole :=
  if r.roleID == k then authorizedRole m arn else r

theorem modelClient_authorize_found (st : RemoteState) (pid k prov arn : String)
    (m : CloudProviderAccessRole)
    (hfind : (st.roles.find? fun r => r.roleID == k) = some m)
    (hprov : m.providerName = prov) :
    modelClient.authorizeRole st pid k prov arn =
      (.ok (authorizedRole m arn),
        ⟨st.roles.map (replaceRole k m arn), st.counter⟩) := by
  simp only [modelClient_authorize, hfind]
  rw [if_neg (by rw [hprov]; simp)]
  rfl

theorem modelClient_authorize_notfound (st : RemoteState)
    (pid k prov arn : String)
    (hfind : (st.roles.find? fun r => r.roleID == k) = none) :
    modelClient.authorizeRole st pid k prov arn = (.error "role not found", st) := by
  simp only [modelClient_authorize, hfind]

theorem modelClient_authorize_badprov (st : RemoteState)
    (pid k prov arn : String) (m : CloudProviderAccessRole)
    (hfind : (st.roles.find? fun r => r.roleID == k) = some m)
    (hprov : m.providerName ≠ prov) :
    modelClient.authorizeRole st pid k prov arn =
      (.error "provider mismatch", st) := by
  simp only [modelClient_authorize, hfind]
  rw [if_pos hprov]

theorem replaceRole_roleID (k : String) (m : CloudProviderAccessRole)
    (arn : String) (hm : m.roleID = k) (r : CloudProviderAccessRole) :
    (replaceRole k m arn r).roleID = r.roleID := by
  unfold replaceRole
  by_cases hr : (r.roleID == k) = true
  · rw [if_pos hr, authorizedRole_roleID, hm]
    exact (beq_iff_eq.mp hr).symm
  · rw [if_neg hr]

theorem replaceRole_miss (k : String) (m : CloudProviderAccessRole)
    (arn : String) (r : CloudProviderAccessRole) (h : r.roleID ≠ k) :
    replaceRole k m arn r = r := by
  unfold replaceRole
  rw [if_neg (by simpa using h)]

/-- The authorize walk: when every status entering the per-item loop is `New`,
`Created` or `Authorized`, the remote role ids are distinct, the created
statuses target distinct roles, and every persisted outcome is `Authorized`,
then the loop's outcomes and its effect on the remote state are exactly the
pointwise authorize effect — no creates and no deletes happen. -/
theorem syncLoop_authorized_walk (pid : String) :
    ∀ (xs : List CPIStatus) (st : RemoteState),
    (∀ x ∈ xs, x.status = .new ∨ x.status = .created ∨ x.status = .authorized) →
    ((st.roles.map fun r => r.roleID).Nodup) →
    (((xs.filter fun x => x.status == .created).map fun x => x.roleID).Nodup) →
    (∀ p ∈ (syncLoop modelClient pid st xs).2.1, p.status = .authorized) →
    (syncLoop modelClient pid st xs).2.1 = xs.map (authOutcome st.roles) ∧
    (syncLoop modelClient pid st xs).2.2.1 =
      ⟨st.roles.map (applyAuth xs), st.counter⟩ ∧
    (∀ x ∈ xs, x.status ≠ .new) ∧
    (∀ x ∈ xs, x.status = .created →
      x.iamAssumedRoleArn ≠ "" ∧
      ∃ m, (st.roles.find? fun r => r.roleID == x.roleID) = some m ∧
        m.providerName = x.providerName)
  | [], st, _, _, _, _ => by
    refine ⟨rfl, ?_, by simp, by simp⟩
    show st = _
    have h1 : st.roles.map (applyAuth []) = st.roles.map id :=
      List.map_congr_left fun r _ => rfl
    rw [h1, List.map_id]
  | x :: xs', st, hphase, hnd, hdt, hAuth => by
    rcases hphase x (.head _) with hx | hx | hx
    · -- New: the create call would leave the status at Created,
      -- contradicting the all-Authorized hypothesis.
      exfalso
      have hcr : createCloudProviderAccess modelClient st pid x =
          (copyCloudProviderAccessData x (freshRole x.providerName st.counter),
            ⟨st.roles ++ [freshRole x.providerName st.counter], st.counter + 1⟩) := by
        unfold createCloudProviderAccess
        rw [modelClient_create]
      have hh : (copyCloudProviderAccessData x
          (freshRole x.providerName st.counter)).status = .authorized := by
        apply hAuth
        rw [syncLoop_cons, processStatus_new modelClient pid st x hx, hcr]
        simp
      rw [copy_status] at hh
      simp [freshRole] at hh
    · -- Created
      by_cases ha : x.iamAssumedRoleArn = ""
      · exfalso
        have hh : x.status = .authorized := by
          apply hAuth
          rw [syncLoop_cons, processStatus_created_noarn modelClient pid st x hx ha]
          simp
        rw [hx] at hh
        exact absurd hh (by simp)
      · -- Created with an authorization target: the authorize call must
        -- have succeeded.
        cases hfind : st.roles.find? fun r => r.roleID == x.roleID with
        | none =>
          exfalso
          have hau : authorizeCloudProviderAccess modelClient st pid x =
              (({ x with
                  status := .failedToAuthorize,
                  errorMessage := "role not found" } : CPIStatus), st) := by
            unfold authorizeCloudProviderAccess
            rw [modelClient_authorize_notfound st pid x.roleID x.providerName
              x.iamAssumedRoleArn hfind]
          have hh : ({ x with
              status := .failedToAuthorize,
              errorMessage := "role not found" } : CPIStatus).status =
              .authorized := by
            apply hAuth
            rw [syncLoop_cons, processStatus_created_arn modelClient pid st x hx ha,
              hau]
            simp
          exact absurd hh (by simp)
        | some m =>
          by_cases hprov : m.providerName = x.providerName
          case neg =>
            exfalso
            have hau : authorizeCloudProviderAccess modelClient st pid x =
                (({ x with
                    status := .failedToAuthorize,
                    errorMessage := "provider mismatch" } : CPIStatus), st) := by
              unfold authorizeCloudProviderAccess
              rw [modelClient_authorize_badprov st pid x.roleID x.providerName
                x.iamAssumedRoleArn m hfind hprov]
            have hh : ({ x with
                status := .failedToAuthorize,
                errorMessage := "provider mismatch" } : CPIStatus).status =
                .authorized := by
              apply hAuth
              rw [syncLoop_cons, processStatus_created_arn modelClient pid st x hx ha,
                hau]
              simp
            exact absurd hh (by simp)
          case pos =>
            have hmk : m.roleID = x.roleID := by
              simpa using List.find?_some hfind
            have hau : authorizeCloudProviderAccess modelClient st pid x =
                (copyCloudProviderAccessData x
                    (authorizedRole m x.iamAssumedRoleArn),
                  ⟨st.roles.map (replaceRole x.roleID m x.iamAssumedRoleArn),
                    st.counter⟩) := by
              unfold authorizeCloudProviderAccess
              rw [modelClient_authorize_found st pid x.roleID x.providerName
                x.iamAssumedRoleArn m hfind hprov]
            -- distinctness bookkeeping
            have hfc : (x :: xs').filter (fun y => y.status == .created) =
                x :: xs'.filter fun y => y.status == .created := by
              rw [List.filter_cons, if_pos (by simp [hx])]
            rw [hfc, List.map_cons, List.nodup_cons] at hdt
            have hxnot := hdt.1
            have hdt' := hdt.2
            have hyne : ∀ y ∈ xs', y.status = .created → y.roleID ≠ x.roleID := by
              intro y hy hyc hcontra
              exact hxnot (by
                rw [← hcontra]
                exact List.mem_map_of_mem _ (List.mem_filter.mpr
                  ⟨hy, by simp [hyc]⟩))
            have hgid := replaceRole_roleID x.roleID m x.iamAssumedRoleArn hmk
            have hnd' : (((st.roles.map
                (replaceRole x.roleID m x.iamAssumedRoleArn)).map fun r =>
                r.roleID)).Nodup := by
              rw [roleID_nodup_map_preserved _ _ hgid]
              exact hnd
            have hfind_same : ∀ (k : String), k ≠ x.roleID →
                ((st.roles.map (replaceRole x.roleID m x.iamAssumedRoleArn)).find?
                    fun r => r.roleID == k) =
                  st.roles.find? fun r => r.roleID == k := by
              intro k hk
              rw [find?_key_map _ _ hgid]
              cases hfy : st.roles.find? fun r => r.roleID == k with
              | none => rfl
              | some my =>
                have hmy : my.roleID = k := by simpa using List.find?_some hfy
                show some (replaceRole x.roleID m x.iamAssumedRoleArn my) = some my
                rw [replaceRole_miss _ _ _ _ (by rw [hmy]; exact hk)]
            rw [syncLoop_cons, processStatus_created_arn modelClient pid st x hx ha,
              hau] at hAuth ⊢
            have hAuth' : ∀ p ∈ (syncLoop modelClient pid
                ⟨st.roles.map (replaceRole x.roleID m x.iamAssumedRoleArn),
                  st.counter⟩ xs').2.1, p.status = .authorized := by
              intro p hp
              apply hAuth
              simp only [Option.toList_some, List.singleton_append]
              exact .tail _ hp
            obtain ⟨ih1, ih2, ih3, ih4⟩ := syncLoop_authorized_walk pid xs'
              ⟨st.roles.map (replaceRole x.roleID m x.iamAssumedRoleArn),
                st.counter⟩
              (fun y hy => hphase y (.tail _ hy)) hnd' hdt' hAuth'
            refine ⟨?_, ?_, ?_, ?_⟩
            · -- kept statuses
              simp only [Option.toList_some, List.singleton_append]
              rw [List.map_cons]
              have hhead : authOutcome st.roles x =
                  copyCloudProviderAccessData x
                    (authorizedRole m x.iamAssumedRoleArn) := by
                unfold authOutcome
                rw [if_neg (by rw [hx]; simp), hfind]
              rw [hhead]
              congr 1
              rw [ih1]
              apply List.map_congr_left
              intro y hy
              rcases hphase y (.tail _ hy) with hy1 | hy1 | hy1
              · exact absurd hy1 (ih3 y hy)
              · unfold authOutcome
                rw [if_neg (by rw [hy1]; simp), if_neg (by rw [hy1]; simp)]
                rw [hfind_same y.roleID (hyne y hy hy1)]
              · rw [authOutcome, authOutcome, if_pos hy1, if_pos hy1]
            · -- final state
              rw [ih2, List.map_map]
              congr 1
              apply List.map_congr_left
              intro r hr
              show applyAuth xs' (replaceRole x.roleID m x.iamAssumedRoleArn r) =
                applyAuth (x :: xs') r
              by_cases hrk : r.roleID = x.roleID
              · have hmr : m = r := by
                  have h1 := find?_unique st.roles hnd r hr
                  rw [hrk] at h1
                  rw [hfind] at h1
                  exact (Option.some.injEq _ _).mp h1
                have hrep : replaceRole x.roleID m x.iamAssumedRoleArn r =
                    authorizedRole r x.iamAssumedRoleArn := by
                  unfold replaceRole
                  rw [if_pos (by simpa using hrk), hmr]
                rw [hrep]
                have h2 : applyAuth xs' (authorizedRole r x.iamAssumedRoleArn) =
                    authorizedRole r x.iamAssumedRoleArn := by
                  unfold applyAuth
                  rw [List.find?_eq_none.mpr]
                  intro y hy
                  simp only [authorizedRole_roleID, Bool.and_eq_true, beq_iff_eq,
                    not_and]
                  intro hyk hyc
                  exact absurd (hyk.trans hrk) (hyne y hy (by simpa using hyc))
                rw [h2]
                unfold applyAuth
                have hhead : ((fun y => y.roleID == r.roleID &&
                    y.status == CPIPhase.created) x) = true := by
                  simp [hx, hrk.symm]
                rw [@List.find?_cons_of_pos _
                  (fun y => y.roleID == r.roleID && y.status == CPIPhase.created)
                  x xs' hhead]
              · rw [replaceRole_miss _ _ _ _ hrk]
                unfold applyAuth
                have hhead : ¬((fun y => y.roleID == r.roleID &&
                    y.status == CPIPhase.created) x) = true := by
                  simp only [Bool.and_eq_true, beq_iff_eq, not_and]
                  intro hxk
                  exact absurd hxk.symm hrk
                rw [@List.find?_cons_of_neg _
                  (fun y => y.roleID == r.roleID && y.status == CPIPhase.created)
                  x xs' hhead]
            · intro y hy
              rw [List.mem_cons] at hy
              rcases hy with hy | hy
              · rw [hy, hx]
                simp
              · exact ih3 y hy
            · intro y hy hyc
              rw [List.mem_cons] at hy
              rcases hy with hy | hy
              · subst hy
                exact ⟨ha, m, hfind, hprov⟩
              · obtain ⟨ha', m', hfind', hprov'⟩ := ih4 y hy hyc
                refine ⟨ha', m', ?_, hprov'⟩
                rw [← hfind_same y.roleID (hyne y hy hyc)]
                exact hfind'
    · -- Authorized: untouched, no call.
      rw [syncLoop_cons, processStatus_authorized modelClient pid st x hx]
        at hAuth ⊢
      have hdt' : ((xs'.filter fun y => y.status == .created).map fun y =>
          y.roleID).Nodup := by
        have hfc : (x :: xs').filter (fun y => y.status == .created) =
            xs'.filter fun y => y.status == .created := by
          rw [List.filter_cons, if_neg (by simp [hx])]
        rw [hfc] at hdt
        exact hdt
      have hAuth' : ∀ p ∈ (syncLoop modelClient pid st xs').2.1,
          p.status = .authorized := by
        intro p hp
        apply hAuth
        simp only [Option.toList_some, List.singleton_append]
        exact .tail _ hp
      obtain ⟨ih1, ih2, ih3, ih4⟩ := syncLoop_authorized_walk pid xs' st
        (fun y hy => hphase y (.tail _ hy)) hnd hdt' hAuth'
      refine ⟨?_, ?_, ?_, ?_⟩
      · simp only [Option.toList_some, List.singleton_append]
        rw [List.map_cons, ih1]
        congr 1
        unfold authOutcome
        rw [if_pos hx]
      · rw [ih2]
        have hmape : st.roles.map (applyAuth xs') =
            st.roles.map (applyAuth (x :: xs')) :=
          List.map_congr_left fun r _ =>
            (applyAuth_cons_skip x xs' r (by rw [hx]; simp)).symm
        rw [hmape]
      · intro y hy
        rw [List.mem_cons] at hy
        rcases hy with hy | hy
        · rw [hy, hx]
          simp
        · exact ih3 y hy
      · intro y hy hyc
        rw [List.mem_cons] at hy
        rcases hy with hy | hy
        · exfalso
          rw [hy, hx] at hyc
          exact absurd hyc (by simp)
        · exact ih4 y hy hyc

/-! ### More structure of the claim stage and the enrich output -/

theorem claimStage_nil_noMatch (sts : List CPIStatus) :
    claimStage sts [] = (sts, []) := by
  induction sts with
  | nil => rfl
  | cons s rest ih =>
    unfold claimStage
    by_cases hm : (s.iamAssumedRoleArn ≠ "" && s.roleID ≠ "") = true
    · rw [if_pos hm, ih]
    · rw [if_neg hm]

theorem claimStage_snd (sts : List CPIStatus)
    (nm : List CloudProviderAccessRole) :
    (claimStage sts nm).2 = nm.drop ((sts.filter unmatchedP).length) := by
  induction sts generalizing nm with
  | nil => rfl
  | cons s rest ih =>
    unfold claimStage
    by_cases hm : (s.iamAssumedRoleArn ≠ "" && s.roleID ≠ "") = true
    · rw [if_pos hm]
      have hu : unmatchedP s = false := by rw [unmatchedP, hm]; rfl
      rw [List.filter_cons, hu]
      exact ih nm
    · rw [if_neg hm]
      have hu : unmatchedP s = true := by
        rw [unmatchedP, Bool.eq_false_iff.mpr hm]
        rfl
      cases nm with
      | nil => simp
      | cons r nms =>
        rw [List.filter_cons, hu]
        show (claimStage rest nms).2 = (r :: nms).drop _
        rw [ih nms]
        simp

theorem claim_complete (sts : List CPIStatus)
    (nm : List CloudProviderAccessRole) (r : CloudProviderAccessRole)
    (hr : r ∈ nm) :
    r ∈ (claimStage sts nm).2 ∨
      ∃ s₀ ∈ sts, unmatchedP s₀ = true ∧
        copyCloudProviderAccessData s₀ r ∈ (claimStage sts nm).1 := by
  induction sts generalizing nm with
  | nil => exact .inl hr
  | cons s rest ih =>
    unfold claimStage
    by_cases hm : (s.iamAssumedRoleArn ≠ "" && s.roleID ≠ "") = true
    · rw [if_pos hm]
      rcases ih nm hr with h | ⟨s₀, hs₀, hu, hmem⟩
      · exact .inl h
      · exact .inr ⟨s₀, .tail _ hs₀, hu, .tail _ hmem⟩
    · rw [if_neg hm]
      have hu : unmatchedP s = true := by
        rw [unmatchedP, Bool.eq_false_iff.mpr hm]
        rfl
      cases nm with
      | nil => simp at hr
      | cons r' nms =>
        rw [List.mem_cons] at hr
        rcases hr with hr | hr
        · subst hr
          exact .inr ⟨s, .head _, hu, .head _⟩
        · rcases ih nms hr with h | ⟨s₀, hs₀, hu', hmem⟩
          · exact .inl h
          · exact .inr ⟨s₀, .tail _ hs₀, hu', .tail _ hmem⟩

theorem deAuthorizeStatus_roleID (cpa : CloudProviderAccessRole) :
    (deAuthorizeStatus cpa).roleID = cpa.roleID := by
  unfold deAuthorizeStatus
  rw [show ({ copyCloudProviderAccessData
      (NewCloudProviderIntegration cpa.providerName cpa.iamAssumedRoleARN) cpa
      with status := CPIPhase.deAuthorize } : CPIStatus).roleID =
    (copyCloudProviderAccessData
      (NewCloudProviderIntegration cpa.providerName cpa.iamAssumedRoleARN)
      cpa).roleID from rfl]
  rw [copy_roleID]

theorem deAuthorizeStatus_status (cpa : CloudProviderAccessRole) :
    (deAuthorizeStatus cpa).status = .deAuthorize := rfl

/-! ### Fold-copy characterizations -/

theorem foldl_copy_concat (s : CPIStatus) (l : List CloudProviderAccessRole)
    (m : CloudProviderAccessRole) :
    (l ++ [m]).foldl copyCloudProviderAccessData s =
      copyCloudProviderAccessData (l.foldl copyCloudProviderAccessData s) m := by
  rw [List.foldl_append]
  rfl

theorem foldl_copy_roleID_last (s : CPIStatus)
    (l : List CloudProviderAccessRole) (h : l ≠ []) :
    (l.foldl copyCloudProviderAccessData s).roleID = (l.getLast h).roleID := by
  induction l using List.reverseRecOn with
  | nil => exact absurd rfl h
  | append_singleton l m _ =>
    rw [foldl_copy_concat, copy_roleID, List.getLast_append]
    simp

theorem foldl_copy_status_last (s : CPIStatus)
    (l : List CloudProviderAccessRole) (h : l ≠ []) :
    (l.foldl copyCloudProviderAccessData s).status =
      if (l.getLast h).authorizedDate ≠ "" then .authorized else .created := by
  induction l using List.reverseRecOn with
  | nil => exact absurd rfl h
  | append_singleton l m _ =>
    rw [foldl_copy_concat, copy_status, List.getLast_append]
    simp

theorem matchFold_empty (s : CPIStatus) (l : List CloudProviderAccessRole)
    (h : l.filter (fun r => isMatch s r) = []) : matchFold s l = s := by
  rw [matchFold_filter, h]
  rfl

theorem isMatch_mem_filter (s : CPIStatus) (r : CloudProviderAccessRole)
    (h : isMatch s r = true) :
    r.iamAssumedRoleARN ≠ "" ∧ s.iamAssumedRoleArn ≠ "" ∧
      r.providerName = s.providerName ∧ r.iamAssumedRoleARN = s.iamAssumedRoleArn := by
  unfold isMatch at h
  simp only [Bool.and_eq_true, beq_iff_eq, ne_eq, decide_not,
    Bool.not_eq_true', decide_eq_false_iff_not] at h
  exact ⟨h.1.1.1, h.1.1.2, h.1.2, h.2⟩

/-- The fresh status of one desired item. -/
def initCPI (cpi : CloudProviderIntegration) : CPIStatus :=
  NewCloudProviderIntegration cpi.providerName cpi.iamAssumedRoleArn

/-- The remote roles matching one desired item exactly. -/
def matchListOf (cpi : CloudProviderIntegration)
    (cpas : List CloudProviderAccessRole) : List CloudProviderAccessRole :=
  cpas.filter fun r => isMatch (initCPI cpi) r

/-- The statuses after the match and claim stages. -/
def claimedOf (specs : List CloudProviderIntegration)
    (cpas : List CloudProviderAccessRole) : List CPIStatus :=
  (claimStage (matchStage (initiateStatuses specs) cpas)
    (cpas.filter fun r => r.iamAssumedRoleARN == "")).1

/-- The position in the unauthorized-role list that the `i`-th status would
claim. -/
def claimIdx (specs : List CloudProviderIntegration)
    (cpas : List CloudProviderAccessRole) (i : Nat) : Nat :=
  (((matchStage (initiateStatuses specs) cpas).take i).filter unmatchedP).length

theorem initCPI_unmatched (cpi : CloudProviderIntegration) :
    unmatchedP (initCPI cpi) = true := by
  unfold unmatchedP initCPI NewCloudProviderIntegration
  simp

theorem matchStage_getElem? (specs : List CloudProviderIntegration)
    (cpas : List CloudProviderAccessRole) (i : Nat)
    (cpi : CloudProviderIntegration) (hi : specs[i]? = some cpi) :
    (matchStage (initiateStatuses specs) cpas)[i]? =
      some (matchFold (initCPI cpi) cpas) := by
  rw [matchStage_eq]
  unfold initiateStatuses
  rw [List.getElem?_map, List.getElem?_map, hi]
  rfl

/-- Elementwise characterization of the claim-stage output: the `i`-th status
either absorbed its exact matches (last match wins), claimed the next
unauthorized role, or was left fresh. -/
theorem charCL (specs : List CloudProviderIntegration)
    (cpas : List CloudProviderAccessRole)
    (hrid : ∀ r ∈ cpas, r.roleID ≠ "") (i : Nat)
    (cpi : CloudProviderIntegration) (hi : specs[i]? = some cpi) :
    ∃ c, (claimedOf specs cpas)[i]? = some c ∧
      c.providerName = cpi.providerName ∧
      c.iamAssumedRoleArn = cpi.iamAssumedRoleArn ∧
      c.errorMessage = "" ∧
      ((matchListOf cpi cpas ≠ [] ∧
        c = (matchListOf cpi cpas).foldl copyCloudProviderAccessData
          (initCPI cpi)) ∨
       (matchListOf cpi cpas = [] ∧ ∃ r,
        (cpas.filter fun x => x.iamAssumedRoleARN == "")[claimIdx specs cpas i]? =
          some r ∧ c = copyCloudProviderAccessData (initCPI cpi) r) ∨
       (matchListOf cpi cpas = [] ∧
        (cpas.filter fun x => x.iamAssumedRoleARN == "")[claimIdx specs cpas i]? =
          none ∧ c = initCPI cpi)) := by
  have hM := matchStage_getElem? specs cpas i cpi hi
  have hpair := claimStage_pairing (matchStage (initiateStatuses specs) cpas)
    (cpas.filter fun r => r.iamAssumedRoleARN == "") i
    (matchFold (initCPI cpi) cpas) hM
  by_cases hF : matchListOf cpi cpas = []
  · have hmi : matchFold (initCPI cpi) cpas = initCPI cpi :=
      matchFold_empty _ _ hF
    rw [hmi] at hpair
    rw [initCPI_unmatched, if_pos rfl] at hpair
    cases hr : (cpas.filter fun x =>
        x.iamAssumedRoleARN == "")[claimIdx specs cpas i]? with
    | some r =>
      have hr' : (cpas.filter fun x => x.iamAssumedRoleARN == "")[
          (((matchStage (initiateStatuses specs) cpas).take i).filter
            unmatchedP).length]? = some r := hr
      rw [hr'] at hpair
      refine ⟨copyCloudProviderAccessData (initCPI cpi) r, hpair, ?_, ?_, ?_, ?_⟩
      · rw [copy_providerName]; rfl
      · rw [copy_iamAssumedRoleArn]; rfl
      · rw [copy_errorMessage]; rfl
      · exact .inr (.inl ⟨hF, r, rfl, rfl⟩)
    | none =>
      have hr' : (cpas.filter fun x => x.iamAssumedRoleARN == "")[
          (((matchStage (initiateStatuses specs) cpas).take i).filter
            unmatchedP).length]? = none := hr
      rw [hr'] at hpair
      exact ⟨initCPI cpi, hpair, rfl, rfl, rfl, .inr (.inr ⟨hF, rfl, rfl⟩)⟩
  · have hfold : matchFold (initCPI cpi) cpas =
        (matchListOf cpi cpas).foldl copyCloudProviderAccessData (initCPI cpi) :=
      matchFold_filter _ _
    have harn : (initCPI cpi).iamAssumedRoleArn ≠ "" := by
      obtain ⟨r, hrm⟩ := List.exists_mem_of_ne_nil _ hF
      have := List.mem_filter.mp hrm
      exact (isMatch_mem_filter _ _ this.2).2.1
    have hrole : (matchFold (initCPI cpi) cpas).roleID ≠ "" := by
      rw [hfold, foldl_copy_roleID_last _ _ hF]
      exact hrid _ (List.mem_of_mem_filter (List.getLast_mem hF))
    have hunm : unmatchedP (matchFold (initCPI cpi) cpas) = false := by
      unfold unmatchedP
      rw [matchFold_iamAssumedRoleArn]
      simp [harn, hrole]
    rw [hunm] at hpair
    rw [if_neg (by simp)] at hpair
    refine ⟨matchFold (initCPI cpi) cpas, hpair, ?_, ?_, ?_, .inl ⟨hF, hfold⟩⟩
    · rw [matchFold_providerName]; rfl
    · rw [matchFold_iamAssumedRoleArn]; rfl
    · rw [matchFold_errorMessage]; rfl

theorem initCPI_status (cpi : CloudProviderIntegration) :
    (initCPI cpi).status = .new := rfl

theorem claimedOf_length (specs : List CloudProviderIntegration)
    (cpas : List CloudProviderAccessRole) :
    (claimedOf specs cpas).length = specs.length := by
  unfold claimedOf
  rw [claimStage_fst_length, matchStage_eq, List.length_map]
  unfold initiateStatuses
  rw [List.length_map]

theorem countTake_lt (M : List CPIStatus) (i j : Nat) (hij : i < j)
    (hi : i < M.length) (hu : unmatchedP (M[i]) = true) :
    ((M.take i).filter unmatchedP).length <
      ((M.take j).filter unmatchedP).length := by
  have h1 : M.take j = M.take (i + 1) ++ (M.drop (i + 1)).take (j - (i + 1)) := by
    rw [← List.take_add]
    congr 1
    omega
  have h2 : M.take (i + 1) = M.take i ++ (M[i]?).toList := List.take_succ
  rw [h1, h2, List.filter_append, List.filter_append, List.length_append,
    List.length_append, List.getElem?_eq_getElem hi, Option.toList_some,
    List.filter_cons, hu]
  simp only [if_true, List.filter_nil, List.length_cons, List.length_nil]
  omega

/-- The roles targeted by the `Created` statuses after match-and-claim are
pairwise distinct: exact matches of distinct desired identifiers are distinct
roles, claimed unauthorized roles are consumed at distinct positions, and an
exact match (non-empty ARN) is never a claimable role (empty ARN). -/
theorem claimedOf_created_nodup (specs : List CloudProviderIntegration)
    (cpas : List CloudProviderAccessRole)
    (hrid : ∀ r ∈ cpas, r.roleID ≠ "")
    (hnd : (cpas.map fun r => r.roleID).Nodup)
    (hspec : (specs.map fun c => (c.providerName, c.iamAssumedRoleArn)).Nodup) :
    (((claimedOf specs cpas).filter fun x => x.status == .created).map
      fun x => x.roleID).Nodup := by
  have hndNM : ((cpas.filter fun x => x.iamAssumedRoleARN == "").map
      fun r => r.roleID).Nodup :=
    hnd.sublist ((List.filter_sublist cpas).map _)
  have key : (claimedOf specs cpas).Pairwise fun a b =>
      a.status = .created → b.status = .created → a.roleID ≠ b.roleID := by
    rw [List.pairwise_iff_getElem]
    intro i j hi hj hij
    have hilen : i < specs.length := by rwa [claimedOf_length] at hi
    have hjlen : j < specs.length := by rwa [claimedOf_length] at hj
    obtain ⟨ci, hci, hcip, hcia, _, hcase_i⟩ := charCL specs cpas hrid i specs[i]
      (List.getElem?_eq_getElem hilen)
    obtain ⟨cj, hcj, hcjp, hcja, _, hcase_j⟩ := charCL specs cpas hrid j specs[j]
      (List.getElem?_eq_getElem hjlen)
    have hci' : (claimedOf specs cpas)[i] = ci := by
      rw [List.getElem?_eq_getElem hi] at hci
      exact Option.some.inj hci
    have hcj' : (claimedOf specs cpas)[j] = cj := by
      rw [List.getElem?_eq_getElem hj] at hcj
      exact Option.some.inj hcj
    rw [hci', hcj']
    intro hsci hscj heq
    have hpairne : (specs[i].providerName, specs[i].iamAssumedRoleArn) ≠
        (specs[j].providerName, specs[j].iamAssumedRoleArn) := by
      intro hp
      have hib : i < (specs.map fun c =>
          (c.providerName, c.iamAssumedRoleArn)).length := by simpa using hilen
      have hjb : j < (specs.map fun c =>
          (c.providerName, c.iamAssumedRoleArn)).length := by simpa using hjlen
      have h1 : (specs.map fun c => (c.providerName, c.iamAssumedRoleArn))[i] =
          (specs.map fun c => (c.providerName, c.iamAssumedRoleArn))[j] := by
        rw [List.getElem_map, List.getElem_map]
        exact hp
      have := (hspec.getElem_inj_iff).mp h1
      omega
    -- extract, for each side, either the matched last role or the claimed role
    rcases hcase_i with ⟨hFi, hmi⟩ | ⟨hFi, ri, hri, hmi⟩ | ⟨_, _, hmi⟩
    · -- i matched
      have hroli : ci.roleID = ((matchListOf specs[i] cpas).getLast hFi).roleID := by
        rw [hmi]
        exact foldl_copy_roleID_last _ _ hFi
      have hmemi := List.getLast_mem hFi
      have hmemi' := List.mem_filter.mp hmemi
      obtain ⟨hane_i, _, hprov_i, harn_i⟩ := isMatch_mem_filter _ _ hmemi'.2
      rcases hcase_j with ⟨hFj, hmj⟩ | ⟨hFj, rj, hrj, hmj⟩ | ⟨_, _, hmj⟩
      · -- j matched: same role id means same role, hence equal identifiers
        have hrolj : cj.roleID =
            ((matchListOf specs[j] cpas).getLast hFj).roleID := by
          rw [hmj]
          exact foldl_copy_roleID_last _ _ hFj
        have hmemj := List.getLast_mem hFj
        have hmemj' := List.mem_filter.mp hmemj
        obtain ⟨hane_j, _, hprov_j, harn_j⟩ := isMatch_mem_filter _ _ hmemj'.2
        have hsame : (matchListOf specs[i] cpas).getLast hFi =
            (matchListOf specs[j] cpas).getLast hFj := by
          apply List.inj_on_of_nodup_map hnd hmemi'.1 hmemj'.1
          rw [← hroli, ← hrolj, heq]
        apply hpairne
        show ((initCPI specs[i]).providerName,
            (initCPI specs[i]).iamAssumedRoleArn) =
          ((initCPI specs[j]).providerName, (initCPI specs[j]).iamAssumedRoleArn)
        rw [← hprov_i, ← harn_i, hsame, hprov_j, harn_j]
      · -- j claimed: an exact match has a non-empty ARN, a claimed role not
        have hrj_mem := List.getElem?_mem hrj
        have hrj_mem' := List.mem_filter.mp hrj_mem
        have hrj_arn : rj.iamAssumedRoleARN = "" := by simpa using hrj_mem'.2
        have hrolj : cj.roleID = rj.roleID := by rw [hmj, copy_roleID]
        have hsame : (matchListOf specs[i] cpas).getLast hFi = rj := by
          apply List.inj_on_of_nodup_map hnd hmemi'.1 hrj_mem'.1
          rw [← hroli, ← hrolj, heq]
        rw [← hsame] at hrj_arn
        exact hane_i hrj_arn
      · -- j fresh: not Created
        rw [hmj, initCPI_status] at hscj
        exact absurd hscj (by simp)
    · -- i claimed
      have hri_mem := List.getElem?_mem hri
      have hri_mem' := List.mem_filter.mp hri_mem
      have hri_arn : ri.iamAssumedRoleARN = "" := by simpa using hri_mem'.2
      have hroli : ci.roleID = ri.roleID := by rw [hmi, copy_roleID]
      rcases hcase_j with ⟨hFj, hmj⟩ | ⟨hFj, rj, hrj, hmj⟩ | ⟨_, _, hmj⟩
      · have hrolj : cj.roleID =
            ((matchListOf specs[j] cpas).getLast hFj).roleID := by
          rw [hmj]
          exact foldl_copy_roleID_last _ _ hFj
        have hmemj := List.getLast_mem hFj
        have hmemj' := List.mem_filter.mp hmemj
        obtain ⟨hane_j, _, _, _⟩ := isMatch_mem_filter _ _ hmemj'.2
        have hsame : ri = (matchListOf specs[j] cpas).getLast hFj := by
          apply List.inj_on_of_nodup_map hnd hri_mem'.1 hmemj'.1
          rw [← hroli, ← hrolj, heq]
        rw [hsame] at hri_arn
        exact hane_j hri_arn
      · -- both claimed: distinct claim positions give distinct roles
        have hrolj : cj.roleID = rj.roleID := by rw [hmj, copy_roleID]
        have hMi : (matchStage (initiateStatuses specs) cpas)[i]? =
            some (initCPI specs[i]) := by
          rw [matchStage_getElem? specs cpas i specs[i]
            (List.getElem?_eq_getElem hilen)]
          rw [matchFold_empty _ _ hFi]
        have hMlen : i < (matchStage (initiateStatuses specs) cpas).length :=
          (List.getElem?_eq_some_iff.mp hMi).1
        have hMival : (matchStage (initiateStatuses specs) cpas)[i] =
            initCPI specs[i] := by
          rw [List.getElem?_eq_getElem hMlen] at hMi
          exact Option.some.inj hMi
        have hklt : claimIdx specs cpas i < claimIdx specs cpas j := by
          unfold claimIdx
          have humi : unmatchedP ((matchStage (initiateStatuses specs)
              cpas)[i]) = true := by
            rw [hMival]
            exact initCPI_unmatched _
          exact countTake_lt _ i j hij hMlen humi
        have hki := List.getElem?_eq_some_iff.mp hri
        have hkj := List.getElem?_eq_some_iff.mp hrj
        obtain ⟨hkilen, hkieq⟩ := hki
        obtain ⟨hkjlen, hkjeq⟩ := hkj
        have hkb1 : claimIdx specs cpas i < ((cpas.filter fun x =>
            x.iamAssumedRoleARN == "").map fun r => r.roleID).length := by
          simpa using hkilen
        have hkb2 : claimIdx specs cpas j < ((cpas.filter fun x =>
            x.iamAssumedRoleARN == "").map fun r => r.roleID).length := by
          simpa using hkjlen
        have hkey : ((cpas.filter fun x =>
            x.iamAssumedRoleARN == "").map fun r => r.roleID)[
            claimIdx specs cpas i] =
            ((cpas.filter fun x =>
            x.iamAssumedRoleARN == "").map fun r => r.roleID)[
            claimIdx specs cpas j] := by
          rw [List.getElem_map, List.getElem_map, hkieq, hkjeq]
          rw [← hroli, ← hrolj, heq]
        have := (hndNM.getElem_inj_iff).mp hkey
        omega
      · rw [hmj, initCPI_status] at hscj
        exact absurd hscj (by simp)
    · -- i fresh: not Created
      rw [hmi, initCPI_status] at hsci
      exact absurd hsci (by simp)
  have h1 : ((claimedOf specs cpas).filter fun x =>
      x.status == .created).Pairwise fun a b => a.roleID ≠ b.roleID := by
    refine (key.sublist (List.filter_sublist _)).imp_of_mem ?_
    intro a b ha hb hr
    exact hr (by simpa using (List.mem_filter.mp ha).2)
      (by simpa using (List.mem_filter.mp hb).2)
  exact List.pairwise_map.mpr h1

theorem convergencePass_components (pid : String)
    (specs : List CloudProviderIntegration) (st : RemoteState) :
    (convergencePass pid specs st).persisted =
      (syncLoop modelClient pid st (enrichStatuses (initiateStatuses specs)
        (sortAtlasCPAsByRoleID st.roles))).2.1 ∧
    (convergencePass pid specs st).updated =
      (syncLoop modelClient pid st (enrichStatuses (initiateStatuses specs)
        (sortAtlasCPAsByRoleID st.roles))).1 ∧
    (convergencePass pid specs st).state =
      (syncLoop modelClient pid st (enrichStatuses (initiateStatuses specs)
        (sortAtlasCPAsByRoleID st.roles))).2.2.1 ∧
    (convergencePass pid specs st).calls =
      (syncLoop modelClient pid st (enrichStatuses (initiateStatuses specs)
        (sortAtlasCPAsByRoleID st.roles))).2.2.2 ∧
    (convergencePass pid specs st).result =
      (if (syncLoop modelClient pid st (enrichStatuses (initiateStatuses specs)
            (sortAtlasCPAsByRoleID st.roles))).1.any (fun s =>
          s.errorMessage ≠ "") then
        .error "not all items were synchronized successfully"
      else .ok ((syncLoop modelClient pid st (enrichStatuses
          (initiateStatuses specs)
          (sortAtlasCPAsByRoleID st.roles))).2.1.all fun s =>
        s.status == .authorized)) :=
  ⟨rfl, rfl, rfl, rfl, rfl⟩

theorem matchStage_mem_errorMessage (specs : List CloudProviderIntegration)
    (cpas : List CloudProviderAccessRole) (s : CPIStatus)
    (hs : s ∈ matchStage (initiateStatuses specs) cpas) :
    s.errorMessage = "" := by
  rw [matchStage_eq] at hs
  obtain ⟨t, ht, rfl⟩ := List.mem_map.mp hs
  rw [matchFold_errorMessage]
  unfold initiateStatuses at ht
  obtain ⟨cpi, _, rfl⟩ := List.mem_map.mp ht
  rfl

/-- A converged pass: when every remote role is authorized, every enriched
status is `Authorized`, and every remote role's identifier is declared, the
pass keeps the statuses and the remote state untouched and issues no call. -/
theorem converged_pass (pid : String) (specs : List CloudProviderIntegration)
    (roles2 : List CloudProviderAccessRole) (n : Nat)
    (hi : ∀ r ∈ roles2, r.iamAssumedRoleARN ≠ "")
    (hii : ∀ s ∈ matchStage (initiateStatuses specs)
      (sortAtlasCPAsByRoleID roles2), s.status = .authorized)
    (hiii : ∀ r ∈ roles2, inStatusMap (matchStage (initiateStatuses specs)
      (sortAtlasCPAsByRoleID roles2))
      (cpiKeyOf r.providerName r.iamAssumedRoleARN) = true) :
    (convergencePass pid specs ⟨roles2, n⟩).persisted =
      matchStage (initiateStatuses specs) (sortAtlasCPAsByRoleID roles2) ∧
    (convergencePass pid specs ⟨roles2, n⟩).state = ⟨roles2, n⟩ ∧
    (convergencePass pid specs ⟨roles2, n⟩).calls = [] ∧
    (convergencePass pid specs ⟨roles2, n⟩).result = .ok true := by
  have hsortmem : ∀ r ∈ sortAtlasCPAsByRoleID roles2, r ∈ roles2 := fun r hr =>
    (sortAtlasCPAsByRoleID_perm roles2).mem_iff.mp hr
  have hNM : (sortAtlasCPAsByRoleID roles2).filter
      (fun r => r.iamAssumedRoleARN == "") = [] := by
    apply List.filter_eq_nil_iff.mpr
    intro r hr
    simpa using hi r (hsortmem r hr)
  have hRM : (sortAtlasCPAsByRoleID roles2).filter (fun cpa =>
      cpa.iamAssumedRoleARN ≠ "" &&
        !inStatusMap (matchStage (initiateStatuses specs)
          (sortAtlasCPAsByRoleID roles2))
          (cpiKeyOf cpa.providerName cpa.iamAssumedRoleARN)) = [] := by
    apply List.filter_eq_nil_iff.mpr
    intro r hr
    rw [hiii r (hsortmem r hr)]
    simp
  have hE : enrichStatuses (initiateStatuses specs)
      (sortAtlasCPAsByRoleID roles2) =
      matchStage (initiateStatuses specs) (sortAtlasCPAsByRoleID roles2) := by
    unfold enrichStatuses
    dsimp only
    rw [hNM, claimStage_nil_noMatch]
    simp only [hRM]
    simp
  obtain ⟨hc1, hc2, hc3, hc4, hc5⟩ := convergencePass_components pid specs
    ⟨roles2, n⟩
  have hrun := syncLoop_all_authorized modelClient pid
    (⟨roles2, n⟩ : RemoteState)
    (enrichStatuses (initiateStatuses specs) (sortAtlasCPAsByRoleID roles2))
    (by rw [hE]; exact hii)
  rw [hrun] at hc1 hc2 hc3 hc4 hc5
  refine ⟨by rw [hc1, hE], by rw [hc3], by rw [hc4], ?_⟩
  rw [hc5]
  rw [if_neg ?hw]
  case hw =>
    simp only [List.any_eq_true, not_exists, not_and]
    intro s hs
    rw [hE] at hs
    simp [matchStage_mem_errorMessage specs (sortAtlasCPAsByRoleID roles2) s hs]
  congr 1
  rw [List.all_eq_true]
  intro s hs
  rw [hE] at hs
  simp [hii s hs]

theorem find?_eq_some_of_unique {α : Type} (l : List α) (p : α → Bool) (a : α)
    (ha : a ∈ l) (hpa : p a = true)
    (huniq : ∀ b ∈ l, p b = true → b = a) : l.find? p = some a := by
  induction l with
  | nil => simp at ha
  | cons b l ih =>
    by_cases hb : p b = true
    · rw [List.find?_cons_of_pos _ hb]
      rw [huniq b (.head _) hb]
    · rw [List.find?_cons_of_neg _ hb]
      rw [List.mem_cons] at ha
      rcases ha with ha | ha
      · rw [ha] at hpa
        exact absurd hpa hb
      · exact ih ha fun b' hb' hp => huniq b' (.tail _ hb') hp

theorem filter_eq_singleton_of_unique {α : Type} (l : List α) (p : α → Bool)
    (a : α) (hl : l.Nodup) (ha : a ∈ l) (hpa : p a = true)
    (huniq : ∀ b ∈ l, p b = true → b = a) : l.filter p = [a] := by
  induction l with
  | nil => simp at ha
  | cons b l ih =>
    rw [List.nodup_cons] at hl
    rw [List.mem_cons] at ha
    rcases ha with ha | ha
    · subst ha
      rw [List.filter_cons, if_pos hpa]
      rw [List.filter_eq_nil_iff.mpr]
      intro b hb hp
      exact absurd (huniq b (.tail _ hb) hp ▸ hb) hl.1
    · have hb : p b = false := by
        rw [Bool.eq_false_iff]
        intro hp
        rw [huniq b (.head _) hp] at hl
        exact hl.1 ha
      rw [List.filter_cons, hb]
      simp only [Bool.false_eq_true, if_false]
      exact ih hl.2 ha fun b' hb' hp => huniq b' (.tail _ hb') hp

/-! ### The pieces of one full pass over the model client -/

/-- The statuses the per-item loop runs over in spec order. -/
def pass1CL (specs : List CloudProviderIntegration) (st : RemoteState) :
    List CPIStatus :=
  claimedOf specs (sortAtlasCPAsByRoleID st.roles)

/-- The unauthorized remote roles left unclaimed. -/
def pass1LF (specs : List CloudProviderIntegration) (st : RemoteState) :
    List CloudProviderAccessRole :=
  (claimStage (matchStage (initiateStatuses specs) (sortAtlasCPAsByRoleID st.roles))
    ((sortAtlasCPAsByRoleID st.roles).filter fun r =>
      r.iamAssumedRoleARN == "")).2

/-- The authorized remote roles whose identifier is not declared. -/
def pass1RMf (specs : List CloudProviderIntegration) (st : RemoteState) :
    List CloudProviderAccessRole :=
  (sortAtlasCPAsByRoleID st.roles).filter fun cpa =>
    cpa.iamAssumedRoleARN ≠ "" &&
      !inStatusMap (pass1CL specs st)
        (cpiKeyOf cpa.providerName cpa.iamAssumedRoleARN)

/-- The synthesized deauthorize entries of the pass. -/
def pass1DS (specs : List CloudProviderIntegration) (st : RemoteState) :
    List CPIStatus :=
  (pass1RMf specs st).map deAuthorizeStatus ++
    (pass1LF specs st).map deAuthorizeStatus

/-- Roles not targeted by a deauthorize entry. -/
def survives (specs : List CloudProviderIntegration) (st : RemoteState)
    (r : CloudProviderAccessRole) : Bool :=
  !((pass1DS specs st).any fun d => d.roleID == r.roleID)

/-- The remote role list after the pass. -/
def pass1T (specs : List CloudProviderIntegration) (st : RemoteState) :
    List CloudProviderAccessRole :=
  (st.roles.map (applyAuth (pass1CL specs st))).filter (survives specs st)

/-- The persisted statuses of the pass. -/
def pass1P (specs : List CloudProviderIntegration) (st : RemoteState) :
    List CPIStatus :=
  (pass1CL specs st).map (authOutcome st.roles)

theorem enrich_decomposition (specs : List CloudProviderIntegration)
    (st : RemoteState) :
    enrichStatuses (initiateStatuses specs) (sortAtlasCPAsByRoleID st.roles) =
      pass1CL specs st ++ pass1DS specs st := by
  unfold enrichStatuses pass1DS pass1RMf pass1LF pass1CL claimedOf
  dsimp only
  rw [List.append_assoc]

theorem survives_roleID (specs : List CloudProviderIntegration)
    (st : RemoteState) (r r' : CloudProviderAccessRole)
    (h : r.roleID = r'.roleID) :
    survives specs st r = survives specs st r' := by
  unfold survives
  rw [h]

theorem pass1DS_deauth (specs : List CloudProviderIntegration)
    (st : RemoteState) : ∀ d ∈ pass1DS specs st, d.status = .deAuthorize := by
  intro d hd
  rw [pass1DS, List.mem_append] at hd
  rcases hd with hd | hd <;>
  · obtain ⟨r, _, rfl⟩ := List.mem_map.mp hd
    exact deAuthorizeStatus_status r

theorem not_survives_of_mem_RMf (specs : List CloudProviderIntegration)
    (st : RemoteState) (r : CloudProviderAccessRole)
    (hr : r ∈ pass1RMf specs st) : survives specs st r = false := by
  unfold survives
  rw [Bool.not_eq_false']
  rw [List.any_eq_true]
  exact ⟨deAuthorizeStatus r, by
    rw [pass1DS, List.mem_append]
    exact .inl (List.mem_map_of_mem _ hr), by
    rw [deAuthorizeStatus_roleID]; simp⟩

theorem not_survives_of_mem_LF (specs : List CloudProviderIntegration)
    (st : RemoteState) (r : CloudProviderAccessRole)
    (hr : r ∈ pass1LF specs st) : survives specs st r = false := by
  unfold survives
  rw [Bool.not_eq_false']
  rw [List.any_eq_true]
  exact ⟨deAuthorizeStatus r, by
    rw [pass1DS, List.mem_append]
    exact .inr (List.mem_map_of_mem _ hr), by
    rw [deAuthorizeStatus_roleID]; simp⟩

theorem initCPI_providerName (cpi : CloudProviderIntegration) :
    (initCPI cpi).providerName = cpi.providerName := rfl

theorem initCPI_iamAssumedRoleArn (cpi : CloudProviderIntegration) :
    (initCPI cpi).iamAssumedRoleArn = cpi.iamAssumedRoleArn := rfl

theorem authorizedRole_providerName (r : CloudProviderAccessRole)
    (arn : String) : (authorizedRole r arn).providerName = r.providerName := rfl

theorem authorizedRole_arn (r : CloudProviderAccessRole) (arn : String) :
    (authorizedRole r arn).iamAssumedRoleARN = arn := rfl

theorem authorizedRole_featureUsages (r : CloudProviderAccessRole)
    (arn : String) :
    (authorizedRole r arn).featureUsages = r.featureUsages := rfl

theorem authOutcome_providerName (roles : List CloudProviderAccessRole)
    (x : CPIStatus) : (authOutcome roles x).providerName = x.providerName := by
  unfold authOutcome
  by_cases h : x.status = .authorized
  · rw [if_pos h]
  · rw [if_neg h]
    cases roles.find? fun r => r.roleID == x.roleID with
    | none => rfl
    | some m => rw [copy_providerName]

theorem authOutcome_iamAssumedRoleArn (roles : List CloudProviderAccessRole)
    (x : CPIStatus) :
    (authOutcome roles x).iamAssumedRoleArn = x.iamAssumedRoleArn := by
  unfold authOutcome
  by_cases h : x.status = .authorized
  · rw [if_pos h]
  · rw [if_neg h]
    cases roles.find? fun r => r.roleID == x.roleID with
    | none => rfl
    | some m => rw [copy_iamAssumedRoleArn]

/-- Membership of one status in the match-and-claim output, with the desired
item it came from. -/
theorem CL_mem_pair (specs : List CloudProviderIntegration)
    (cpas : List CloudProviderAccessRole)
    (hrid : ∀ r ∈ cpas, r.roleID ≠ "")
    (x : CPIStatus) (hx : x ∈ claimedOf specs cpas) :
    ∃ i, ∃ hi : i < specs.length, (claimedOf specs cpas)[i]? = some x ∧
      x.providerName = (specs[i]).providerName ∧
      x.iamAssumedRoleArn = (specs[i]).iamAssumedRoleArn := by
  obtain ⟨i, hilen, heq⟩ := List.mem_iff_getElem.mp hx
  have hi : i < specs.length := by rwa [claimedOf_length] at hilen
  obtain ⟨c, hc, hcp, hca, _, _⟩ := charCL specs cpas hrid i (specs[i])
    (List.getElem?_eq_getElem hi)
  have hxc : x = c := by
    rw [List.getElem?_eq_getElem hilen, heq] at hc
    exact Option.some.inj hc
  exact ⟨i, hi, by rw [List.getElem?_eq_getElem hilen, heq],
    by rw [hxc]; exact hcp, by rw [hxc]; exact hca⟩

/-- Distinct desired items have distinct provider-ARN pairs. -/
theorem specs_pair_inj (specs : List CloudProviderIntegration)
    (hspec : (specs.map fun c => (c.providerName, c.iamAssumedRoleArn)).Nodup)
    (i j : Nat) (hi : i < specs.length) (hj : j < specs.length)
    (hp : (specs[i]).providerName = (specs[j]).providerName)
    (ha : (specs[i]).iamAssumedRoleArn = (specs[j]).iamAssumedRoleArn) :
    i = j := by
  have hib : i < (specs.map fun c =>
      (c.providerName, c.iamAssumedRoleArn)).length := by simpa using hi
  have hjb : j < (specs.map fun c =>
      (c.providerName, c.iamAssumedRoleArn)).length := by simpa using hj
  have hkey : ((specs.map fun c => (c.providerName, c.iamAssumedRoleArn))[i]) =
      ((specs.map fun c => (c.providerName, c.iamAssumedRoleArn))[j]) := by
    rw [List.getElem_map, List.getElem_map]
    exact Prod.ext hp ha
  exact (hspec.getElem_inj_iff).mp hkey

/-- The phases possibly reached by the match-and-claim stage. -/
theorem CL_phases (specs : List CloudProviderIntegration)
    (cpas : List CloudProviderAccessRole)
    (hrid : ∀ r ∈ cpas, r.roleID ≠ "") :
    ∀ x ∈ claimedOf specs cpas,
      x.status = .new ∨ x.status = .created ∨ x.status = .authorized := by
  intro x hx
  obtain ⟨i, hilen, heq⟩ := List.mem_iff_getElem.mp hx
  have hi : i < specs.length := by rwa [claimedOf_length] at hilen
  obtain ⟨c, hc, _, _, _, hcase⟩ := charCL specs cpas hrid i (specs[i])
    (List.getElem?_eq_getElem hi)
  have hxc : x = c := by
    rw [List.getElem?_eq_getElem hilen, heq] at hc
    exact Option.some.inj hc
  rw [hxc]
  rcases hcase with ⟨hne, hfold⟩ | ⟨_, r, _, hcopy⟩ | ⟨_, _, hinit⟩
  · rw [hfold, foldl_copy_status_last _ _ hne]
    by_cases hd : ((matchListOf (specs[i]) cpas).getLast hne).authorizedDate ≠ ""
    · rw [if_pos hd]
      exact .inr (.inr rfl)
    · rw [if_neg hd]
      exact .inr (.inl rfl)
  · rw [hcopy, copy_status]
    by_cases hd : r.authorizedDate ≠ ""
    · rw [if_pos hd]
      exact .inr (.inr rfl)
    · rw [if_neg hd]
      exact .inr (.inl rfl)
  · rw [hinit, initCPI_status]
    exact .inl rfl

/-- Running one pass whose persisted statuses are all `Authorized`: the
persisted set is the per-item authorize outcome of the match-and-claim
statuses, and the remote state keeps the surviving roles with their
authorizations applied. -/
theorem pass1_run (pid : String) (specs : List CloudProviderIntegration)
    (st : RemoteState)
    (hrid : ∀ r ∈ st.roles, r.roleID ≠ "")
    (hnd : (st.roles.map fun r => r.roleID).Nodup)
    (hspec : (specs.map fun c => (c.providerName, c.iamAssumedRoleArn)).Nodup)
    (hAuth : ∀ p ∈ (convergencePass pid specs st).persisted,
      p.status = .authorized) :
    (convergencePass pid specs st).persisted = pass1P specs st ∧
    (convergencePass pid specs st).state = ⟨pass1T specs st, st.counter⟩ ∧
    (∀ x ∈ pass1CL specs st, x.status ≠ .new) ∧
    (∀ x ∈ pass1CL specs st, x.status = .created →
      x.iamAssumedRoleArn ≠ "" ∧
      ∃ m, (st.roles.find? fun r => r.roleID == x.roleID) = some m ∧
        m.providerName = x.providerName) := by
  have hsrt_rid : ∀ r ∈ sortAtlasCPAsByRoleID st.roles, r.roleID ≠ "" :=
    fun r hr => hrid r ((sortAtlasCPAsByRoleID_perm st.roles).mem_iff.mp hr)
  have hndS : ((sortAtlasCPAsByRoleID st.roles).map fun r => r.roleID).Nodup :=
    (((sortAtlasCPAsByRoleID_perm st.roles).map fun r => r.roleID).nodup_iff).mpr
      hnd
  have hE := enrich_decomposition specs st
  obtain ⟨hc1, _, hc3, _, _⟩ := convergencePass_components pid specs st
  rw [hE, syncLoop_append] at hc1 hc3
  -- the trailing deauthorize batch
  have hdw := syncLoop_deauth_walk pid (pass1DS specs st)
    (syncLoop modelClient pid st (pass1CL specs st)).2.2.1
    (pass1DS_deauth specs st)
  rw [hdw.1, List.append_nil] at hc1
  rw [hdw.2] at hc3
  -- the leading match-and-claim batch, all authorized
  have hAuth1 : ∀ p ∈ (syncLoop modelClient pid st (pass1CL specs st)).2.1,
      p.status = .authorized := by
    intro p hp
    apply hAuth
    rw [hc1]
    exact hp
  have hphase : ∀ x ∈ pass1CL specs st,
      x.status = .new ∨ x.status = .created ∨ x.status = .authorized :=
    CL_phases specs (sortAtlasCPAsByRoleID st.roles) hsrt_rid
  have hdt := claimedOf_created_nodup specs (sortAtlasCPAsByRoleID st.roles)
    hsrt_rid hndS hspec
  obtain ⟨hw1, hw2, hw3, hw4⟩ := syncLoop_authorized_walk pid
    (pass1CL specs st) st hphase hnd hdt hAuth1
  rw [hw1] at hc1
  rw [hw2] at hc3
  refine ⟨hc1, ?_, hw3, hw4⟩
  rw [hc3]
  rfl

theorem DS_roleID_source (specs : List CloudProviderIntegration)
    (st : RemoteState) (d : CPIStatus) (hd : d ∈ pass1DS specs st) :
    ∃ d₀, (d₀ ∈ pass1RMf specs st ∨ d₀ ∈ pass1LF specs st) ∧
      d.roleID = d₀.roleID := by
  rw [pass1DS, List.mem_append] at hd
  rcases hd with hd | hd <;>
  · obtain ⟨r, hr, rfl⟩ := List.mem_map.mp hd
    exact ⟨r, by simp [hr], deAuthorizeStatus_roleID r⟩

theorem RMf_subset (specs : List CloudProviderIntegration) (st : RemoteState)
    (r : CloudProviderAccessRole) (hr : r ∈ pass1RMf specs st) :
    r ∈ sortAtlasCPAsByRoleID st.roles :=
  List.mem_of_mem_filter hr

theorem LF_subset (specs : List CloudProviderIntegration) (st : RemoteState)
    (r : CloudProviderAccessRole) (hr : r ∈ pass1LF specs st) :
    r ∈ (sortAtlasCPAsByRoleID st.roles).filter fun x =>
      x.iamAssumedRoleARN == "" := by
  rw [pass1LF, claimStage_snd] at hr
  exact List.mem_of_mem_drop hr

theorem survives_of_not_mem (specs : List CloudProviderIntegration)
    (st : RemoteState)
    (hndS : ((sortAtlasCPAsByRoleID st.roles).map fun r => r.roleID).Nodup)
    (r : CloudProviderAccessRole) (hr : r ∈ sortAtlasCPAsByRoleID st.roles)
    (h1 : r ∉ pass1RMf specs st) (h2 : r ∉ pass1LF specs st) :
    survives specs st r = true := by
  unfold survives
  rw [Bool.not_eq_true']
  rw [List.any_eq_false]
  intro d hd
  simp only [beq_iff_eq]
  intro hcontra
  obtain ⟨d₀, hd₀, hkey⟩ := DS_roleID_source specs st d hd
  have hd₀S : d₀ ∈ sortAtlasCPAsByRoleID st.roles := by
    rcases hd₀ with h | h
    · exact RMf_subset specs st d₀ h
    · exact List.mem_of_mem_filter (LF_subset specs st d₀ h)
  have : d₀ = r :=
    List.inj_on_of_nodup_map hndS hd₀S hr (by rw [← hkey, hcontra])
  subst this
  rcases hd₀ with h | h
  · exact h1 h
  · exact h2 h

theorem survives_of_matched_key (specs : List CloudProviderIntegration)
    (st : RemoteState)
    (hndS : ((sortAtlasCPAsByRoleID st.roles).map fun r => r.roleID).Nodup)
    (r : CloudProviderAccessRole) (hr : r ∈ sortAtlasCPAsByRoleID st.roles)
    (ha : r.iamAssumedRoleARN ≠ "")
    (hk : inStatusMap (pass1CL specs st)
      (cpiKeyOf r.providerName r.iamAssumedRoleARN) = true) :
    survives specs st r = true := by
  apply survives_of_not_mem specs st hndS r hr
  · intro hmem
    have := (List.mem_filter.mp hmem).2
    rw [hk] at this
    simp [ha] at this
  · intro hmem
    have := (List.mem_filter.mp (LF_subset specs st r hmem)).2
    simp only [beq_iff_eq] at this
    exact ha this

/-- A role claimed by some desired item is never in the unclaimed leftover. -/
theorem claimed_not_leftover (specs : List CloudProviderIntegration)
    (st : RemoteState)
    (hndS : ((sortAtlasCPAsByRoleID st.roles).map fun r => r.roleID).Nodup)
    (i : Nat) (hi : i < specs.length) (r₀ : CloudProviderAccessRole)
    (hclaim : ((sortAtlasCPAsByRoleID st.roles).filter fun x =>
        x.iamAssumedRoleARN == "")[
      claimIdx specs (sortAtlasCPAsByRoleID st.roles) i]? = some r₀)
    (hF0 : matchListOf (specs[i]) (sortAtlasCPAsByRoleID st.roles) = []) :
    r₀ ∉ pass1LF specs st := by
  intro hmem
  have hndNM : (((sortAtlasCPAsByRoleID st.roles).filter fun x =>
      x.iamAssumedRoleARN == "").map fun r => r.roleID).Nodup :=
    hndS.sublist ((List.filter_sublist _).map _)
  have hMlen : (matchStage (initiateStatuses specs)
      (sortAtlasCPAsByRoleID st.roles)).length = specs.length := by
    rw [matchStage_eq, List.length_map]
    unfold initiateStatuses
    rw [List.length_map]
  have hMi : (matchStage (initiateStatuses specs)
      (sortAtlasCPAsByRoleID st.roles))[i]? =
      some (matchFold (initCPI (specs[i])) (sortAtlasCPAsByRoleID st.roles)) :=
    matchStage_getElem? specs _ i _ (List.getElem?_eq_getElem hi)
  have hMilen : i < (matchStage (initiateStatuses specs)
      (sortAtlasCPAsByRoleID st.roles)).length := by
    rw [hMlen]; exact hi
  have hMival : (matchStage (initiateStatuses specs)
      (sortAtlasCPAsByRoleID st.roles))[i] =
      matchFold (initCPI (specs[i])) (sortAtlasCPAsByRoleID st.roles) := by
    rw [List.getElem?_eq_getElem hMilen] at hMi
    exact Option.some.inj hMi
  have hu : unmatchedP ((matchStage (initiateStatuses specs)
      (sortAtlasCPAsByRoleID st.roles))[i]) = true := by
    rw [hMival, matchFold_empty _ _ hF0]
    exact initCPI_unmatched _
  have hlt := countTake_lt (matchStage (initiateStatuses specs)
    (sortAtlasCPAsByRoleID st.roles)) i
    ((matchStage (initiateStatuses specs)
      (sortAtlasCPAsByRoleID st.roles)).length)
    hMilen hMilen hu
  rw [List.take_length _] at hlt
  rw [pass1LF, claimStage_snd] at hmem
  obtain ⟨t, ht, heq⟩ := List.mem_iff_getElem.mp hmem
  rw [List.getElem_drop ..] at heq
  obtain ⟨hclen, hcval⟩ := List.getElem?_eq_some_iff.mp hclaim
  have hkb1 : claimIdx specs (sortAtlasCPAsByRoleID st.roles) i <
      ((((sortAtlasCPAsByRoleID st.roles)).filter fun x =>
        x.iamAssumedRoleARN == "").map fun r => r.roleID).length := by
    simpa using hclen
  have hkb2 : ((matchStage (initiateStatuses specs)
      (sortAtlasCPAsByRoleID st.roles)).filter unmatchedP).length + t <
      ((((sortAtlasCPAsByRoleID st.roles)).filter fun x =>
        x.iamAssumedRoleARN == "").map fun r => r.roleID).length := by
    simp only [List.length_map]
    simp only [List.length_drop] at ht
    omega
  have hkey : (((sortAtlasCPAsByRoleID st.roles).filter fun x =>
      x.iamAssumedRoleARN == "").map fun r => r.roleID)[
      claimIdx specs (sortAtlasCPAsByRoleID st.roles) i] =
      (((sortAtlasCPAsByRoleID st.roles).filter fun x =>
      x.iamAssumedRoleARN == "").map fun r => r.roleID)[
      ((matchStage (initiateStatuses specs)
        (sortAtlasCPAsByRoleID st.roles)).filter unmatchedP).length + t] := by
    rw [List.getElem_map, List.getElem_map, hcval, heq]
  have := (hndNM.getElem_inj_iff).mp hkey
  unfold claimIdx at this
  omega

/-- A `Created` status is the unique status found by a role-id-keyed search
for its own role id. -/
theorem find?_created_key (specs : List CloudProviderIntegration)
    (cpas : List CloudProviderAccessRole)
    (hrid : ∀ r ∈ cpas, r.roleID ≠ "")
    (hndC : (cpas.map fun r => r.roleID).Nodup)
    (hspec : (specs.map fun c => (c.providerName, c.iamAssumedRoleArn)).Nodup)
    (c : CPIStatus) (hc : c ∈ claimedOf specs cpas) (hcc : c.status = .created)
    (k : String) (hk : k = c.roleID) :
    ((claimedOf specs cpas).find? fun y =>
      y.roleID == k && y.status == .created) = some c := by
  apply find?_eq_some_of_unique _ _ c hc (by simp [hk, hcc])
  intro y hy hp
  simp only [Bool.and_eq_true, beq_iff_eq] at hp
  have hyin : y ∈ (claimedOf specs cpas).filter fun x =>
      x.status == .created :=
    List.mem_filter.mpr ⟨hy, by simp [hp.2]⟩
  have hcin : c ∈ (claimedOf specs cpas).filter fun x =>
      x.status == .created :=
    List.mem_filter.mpr ⟨hc, by simp [hcc]⟩
  exact List.inj_on_of_nodup_map
    (claimedOf_created_nodup specs cpas hrid hndC hspec) hyin hcin
    (by rw [hp.1, hk])

/-- A `Created` status whose target role exactly matches the `i`-th desired
item must be the `i`-th status itself. -/
theorem created_with_matching_role (specs : List CloudProviderIntegration)
    (cpas : List CloudProviderAccessRole)
    (hrid : ∀ r ∈ cpas, r.roleID ≠ "")
    (hndC : (cpas.map fun r => r.roleID).Nodup)
    (hspec : (specs.map fun c => (c.providerName, c.iamAssumedRoleArn)).Nodup)
    (x : CPIStatus) (hx : x ∈ claimedOf specs cpas) (hcx : x.status = .created)
    (r : CloudProviderAccessRole) (hr : r ∈ cpas) (hxr : x.roleID = r.roleID)
    (i : Nat) (hi : i < specs.length)
    (hrm : isMatch (initCPI (specs[i])) r = true) :
    (claimedOf specs cpas)[i]? = some x := by
  obtain ⟨j, hj, hxj, hxp, hxa⟩ := CL_mem_pair specs cpas hrid x hx
  obtain ⟨c', hc', hcp', hca', _, hcase⟩ := charCL specs cpas hrid j
    (specs[j]) (List.getElem?_eq_getElem hj)
  have hxc : c' = x := by
    rw [hxj] at hc'
    exact (Option.some.inj hc').symm
  subst hxc
  rcases hcase with ⟨hne, hfold⟩ | ⟨hF0j, r0, hr0, hcopy⟩ | ⟨_, _, hinit⟩
  · -- matched at j: the last exact match of item j is the role r itself
    have hlast_mem : (matchListOf (specs[j]) cpas).getLast hne ∈
        matchListOf (specs[j]) cpas := List.getLast_mem hne
    have hlast_cpas : (matchListOf (specs[j]) cpas).getLast hne ∈ cpas :=
      List.mem_of_mem_filter hlast_mem
    have hlid : c'.roleID =
        ((matchListOf (specs[j]) cpas).getLast hne).roleID := by
      rw [hfold, foldl_copy_roleID_last _ _ hne]
    have hlr : (matchListOf (specs[j]) cpas).getLast hne = r :=
      List.inj_on_of_nodup_map hndC hlast_cpas hr (by rw [← hlid, hxr])
    have hrFj : r ∈ matchListOf (specs[j]) cpas := hlr ▸ hlast_mem
    have hmj : isMatch (initCPI (specs[j])) r = true :=
      (List.mem_filter.mp hrFj).2
    obtain ⟨_, _, hp_j, ha_j⟩ := isMatch_mem_filter _ _ hmj
    obtain ⟨_, _, hp_i, ha_i⟩ := isMatch_mem_filter _ _ hrm
    have hij : i = j := by
      apply specs_pair_inj specs hspec i j hi hj
      · rw [← initCPI_providerName, ← hp_i, hp_j, initCPI_providerName]
      · rw [← initCPI_iamAssumedRoleArn, ← ha_i, ha_j,
          initCPI_iamAssumedRoleArn]
    rw [hij]
    exact hxj
  · -- claimed at j: the claimed role has an empty ARN, contradicting the
    -- exact match
    have hr0NM := List.getElem?_mem hr0
    have hr0c : r0 ∈ cpas := List.mem_of_mem_filter hr0NM
    have hr0a : r0.iamAssumedRoleARN = "" := by
      simpa using (List.mem_filter.mp hr0NM).2
    have hx0 : c'.roleID = r0.roleID := by rw [hcopy, copy_roleID]
    have hr0r : r0 = r :=
      List.inj_on_of_nodup_map hndC hr0c hr (by rw [← hx0, hxr])
    have hra : r.iamAssumedRoleARN = "" := hr0r ▸ hr0a
    exact absurd hra (isMatch_mem_filter _ _ hrm).1
  · -- fresh at j: phase New, contradicting Created
    rw [hinit, initCPI_status] at hcx
    simp at hcx

/-- After a fully authorized pass, every surviving remote role has a
non-empty ARN: roles authorized by the pass received the status's ARN, roles
already authorized keep theirs, and unauthorized roles were either claimed
(hence authorized) or deauthorized away. -/
theorem pass1T_arn (specs : List CloudProviderIntegration) (st : RemoteState)
    (hrid : ∀ r ∈ st.roles, r.roleID ≠ "")
    (hnd : (st.roles.map fun r => r.roleID).Nodup)
    (hda : ∀ r ∈ st.roles, r.authorizedDate ≠ "" → r.iamAssumedRoleARN ≠ "")
    (hcf : ∀ x ∈ pass1CL specs st, x.status = .created →
      x.iamAssumedRoleArn ≠ "" ∧
      ∃ m, (st.roles.find? fun r => r.roleID == x.roleID) = some m ∧
        m.providerName = x.providerName) :
    ∀ r' ∈ pass1T specs st, r'.iamAssumedRoleARN ≠ "" := by
  intro r' hr'
  rw [pass1T, List.mem_filter] at hr'
  obtain ⟨hmem, hSv⟩ := hr'
  obtain ⟨r, hrr, rfl⟩ := List.mem_map.mp hmem
  cases hf : (pass1CL specs st).find? fun y =>
      y.roleID == r.roleID && y.status == .created with
  | some x =>
    have hgr : applyAuth (pass1CL specs st) r =
        authorizedRole r x.iamAssumedRoleArn := by
      unfold applyAuth
      rw [hf]
    rw [hgr, authorizedRole_arn]
    have hxmem : x ∈ pass1CL specs st := List.mem_of_find?_eq_some hf
    have hpred := List.find?_some hf
    simp only [Bool.and_eq_true, beq_iff_eq] at hpred
    exact (hcf x hxmem hpred.2).1
  | none =>
    have hgr : applyAuth (pass1CL specs st) r = r := by
      unfold applyAuth
      rw [hf]
    rw [hgr] at hSv ⊢
    intro hra
    have hrS : r ∈ sortAtlasCPAsByRoleID st.roles :=
      (sortAtlasCPAsByRoleID_perm st.roles).mem_iff.mpr hrr
    have hrNM : r ∈ (sortAtlasCPAsByRoleID st.roles).filter fun x =>
        x.iamAssumedRoleARN == "" :=
      List.mem_filter.mpr ⟨hrS, by simp [hra]⟩
    rcases claim_complete (matchStage (initiateStatuses specs)
        (sortAtlasCPAsByRoleID st.roles)) _ r hrNM with hLF |
        ⟨s₀, hs₀, hu, hmemCL⟩
    · have hns := not_survives_of_mem_LF specs st r hLF
      rw [hns] at hSv
      exact Bool.false_ne_true hSv
    · have hxCL : copyCloudProviderAccessData s₀ r ∈ pass1CL specs st := hmemCL
      have hxst : (copyCloudProviderAccessData s₀ r).status = .created := by
        rw [copy_status, if_neg]
        intro hdne
        exact (hda r hrr hdne) hra
      refine (List.find?_eq_none.mp hf _ hxCL) ?_
      simp [copy_roleID, hxst]

/-- Sorting the post-pass remote state gives the survivors of the sorted
pre-pass state with their authorizations applied, in place. -/
theorem sorted_pass1T (specs : List CloudProviderIntegration)
    (st : RemoteState) (hnd : (st.roles.map fun r => r.roleID).Nodup) :
    sortAtlasCPAsByRoleID (pass1T specs st) =
      ((sortAtlasCPAsByRoleID st.roles).map
        (applyAuth (pass1CL specs st))).filter (survives specs st) := by
  have hkeysT : ((pass1T specs st).map fun r => r.roleID).Nodup := by
    have hnd2 : ((st.roles.map (applyAuth (pass1CL specs st))).map fun r =>
        r.roleID).Nodup := by
      rw [roleID_nodup_map_preserved _ _ (applyAuth_roleID (pass1CL specs st))]
      exact hnd
    have hsub : List.Sublist
        (((st.roles.map (applyAuth (pass1CL specs st))).filter
          (survives specs st)).map fun r => r.roleID)
        ((st.roles.map (applyAuth (pass1CL specs st))).map fun r =>
          r.roleID) :=
      (List.filter_sublist _).map _
    exact hnd2.sublist hsub
  apply eq_of_perm_pairwise_nodup
  · have h1 : (sortAtlasCPAsByRoleID (pass1T specs st)).Perm
        (pass1T specs st) := sortAtlasCPAsByRoleID_perm _
    have h2 : (((sortAtlasCPAsByRoleID st.roles).map
        (applyAuth (pass1CL specs st))).filter (survives specs st)).Perm
        (pass1T specs st) := by
      unfold pass1T
      exact ((sortAtlasCPAsByRoleID_perm st.roles).map
        (applyAuth (pass1CL specs st))).filter (survives specs st)
    exact h1.trans h2.symm
  · exact sortAtlasCPAsByRoleID_pairwise _
  · have hS := sortAtlasCPAsByRoleID_pairwise st.roles
    have hmap : (((sortAtlasCPAsByRoleID st.roles)).map
        (applyAuth (pass1CL specs st))).Pairwise roleLe := by
      rw [List.pairwise_map]
      apply hS.imp
      intro a b hab
      unfold roleLe
      rw [applyAuth_roleID, applyAuth_roleID]
      exact hab
    exact hmap.sublist (List.filter_sublist _)
  · exact (((sortAtlasCPAsByRoleID_perm (pass1T specs st)).map
      fun r => r.roleID).nodup_iff).mpr hkeysT

theorem inStatusMap_pass1P (specs : List CloudProviderIntegration)
    (st : RemoteState) (k : String)
    (h : inStatusMap (pass1CL specs st) k = true) :
    inStatusMap (pass1P specs st) k = true := by
  rw [inStatusMap, List.any_eq_true] at h
  obtain ⟨x, hx, hpx⟩ := h
  rw [pass1P, inStatusMap, List.any_eq_true]
  refine ⟨authOutcome st.roles x, List.mem_map_of_mem _ hx, ?_⟩
  simp only [authOutcome_providerName, authOutcome_iamAssumedRoleArn]
  exact hpx

/-- Every surviving remote role's identifier appears in the persisted status
set of the pass. -/
theorem pass1T_inStatusMap (specs : List CloudProviderIntegration)
    (st : RemoteState)
    (hrid : ∀ r ∈ st.roles, r.roleID ≠ "")
    (hnd : (st.roles.map fun r => r.roleID).Nodup)
    (hda : ∀ r ∈ st.roles, r.authorizedDate ≠ "" → r.iamAssumedRoleARN ≠ "")
    (hcf : ∀ x ∈ pass1CL specs st, x.status = .created →
      x.iamAssumedRoleArn ≠ "" ∧
      ∃ m, (st.roles.find? fun r => r.roleID == x.roleID) = some m ∧
        m.providerName = x.providerName) :
    ∀ r' ∈ pass1T specs st,
      inStatusMap (pass1P specs st)
        (cpiKeyOf r'.providerName r'.iamAssumedRoleARN) = true := by
  intro r' hr'
  have harn := pass1T_arn specs st hrid hnd hda hcf r' hr'
  rw [pass1T, List.mem_filter] at hr'
  obtain ⟨hmem, hSv⟩ := hr'
  obtain ⟨r, hrr, rfl⟩ := List.mem_map.mp hmem
  cases hf : (pass1CL specs st).find? fun y =>
      y.roleID == r.roleID && y.status == .created with
  | some x =>
    have hgr : applyAuth (pass1CL specs st) r =
        authorizedRole r x.iamAssumedRoleArn := by
      unfold applyAuth
      rw [hf]
    have hxmem : x ∈ pass1CL specs st := List.mem_of_find?_eq_some hf
    have hpred := List.find?_some hf
    simp only [Bool.and_eq_true, beq_iff_eq] at hpred
    obtain ⟨hxa, m, hm, hmp⟩ := hcf x hxmem hpred.2
    have hfr : (st.roles.find? fun y => y.roleID == x.roleID) = some r := by
      rw [hpred.1]
      exact find?_unique st.roles hnd r hrr
    have hmr : m = r := by
      rw [hfr] at hm
      exact (Option.some.inj hm).symm
    rw [hgr, authorizedRole_providerName, authorizedRole_arn]
    apply inStatusMap_pass1P
    rw [inStatusMap, List.any_eq_true]
    refine ⟨x, hxmem, ?_⟩
    have hrp : r.providerName = x.providerName := by
      rw [← hmr]
      exact hmp
    simp [hxa, hrp, cpiKeyOf]
  | none =>
    have hgr : applyAuth (pass1CL specs st) r = r := by
      unfold applyAuth
      rw [hf]
    rw [hgr] at hSv harn ⊢
    have hrS : r ∈ sortAtlasCPAsByRoleID st.roles :=
      (sortAtlasCPAsByRoleID_perm st.roles).mem_iff.mpr hrr
    have hnotRM : r ∉ pass1RMf specs st := by
      intro hcon
      have hns := not_survives_of_mem_RMf specs st r hcon
      rw [hns] at hSv
      exact Bool.false_ne_true hSv
    have hins : inStatusMap (pass1CL specs st)
        (cpiKeyOf r.providerName r.iamAssumedRoleARN) = true := by
      by_contra hcon
      rw [Bool.not_eq_true] at hcon
      exact hnotRM (List.mem_filter.mpr ⟨hrS, by simp [harn, hcon]⟩)
    exact inStatusMap_pass1P specs st _ hins

/-- The heart of the idempotence argument: matching the `i`-th desired item
against the post-pass remote roles (survivors with authorizations applied)
reproduces exactly the authorize outcome of the `i`-th match-and-claim
status. -/
theorem pass2_matchFold (specs : List CloudProviderIntegration)
    (st : RemoteState)
    (hrid : ∀ r ∈ st.roles, r.roleID ≠ "")
    (hnd : (st.roles.map fun r => r.roleID).Nodup)
    (hda : ∀ r ∈ st.roles, r.authorizedDate ≠ "" → r.iamAssumedRoleARN ≠ "")
    (hspec : (specs.map fun c => (c.providerName, c.iamAssumedRoleArn)).Nodup)
    (hnonew : ∀ x ∈ pass1CL specs st, x.status ≠ .new)
    (hcf : ∀ x ∈ pass1CL specs st, x.status = .created →
      x.iamAssumedRoleArn ≠ "" ∧
      ∃ m, (st.roles.find? fun r => r.roleID == x.roleID) = some m ∧
        m.providerName = x.providerName)
    (i : Nat) (hi : i < specs.length) (c : CPIStatus)
    (hc : (pass1CL specs st)[i]? = some c) :
    matchFold (initCPI (specs[i]))
      (((sortAtlasCPAsByRoleID st.roles).map
        (applyAuth (pass1CL specs st))).filter (survives specs st)) =
      authOutcome st.roles c := by
  have hsrt_rid : ∀ r ∈ sortAtlasCPAsByRoleID st.roles, r.roleID ≠ "" :=
    fun r hr => hrid r ((sortAtlasCPAsByRoleID_perm st.roles).mem_iff.mp hr)
  have hndS : ((sortAtlasCPAsByRoleID st.roles).map fun r => r.roleID).Nodup :=
    (((sortAtlasCPAsByRoleID_perm st.roles).map fun r => r.roleID).nodup_iff).mpr
      hnd
  have hcmem : c ∈ pass1CL specs st := List.getElem?_mem hc
  have hc2 : (claimedOf specs (sortAtlasCPAsByRoleID st.roles))[i]? = some c :=
    hc
  obtain ⟨c', hc', hcp, hca, hce, hcase⟩ := charCL specs
    (sortAtlasCPAsByRoleID st.roles) hsrt_rid i (specs[i])
    (List.getElem?_eq_getElem hi)
  have hcc : c' = c := by
    rw [hc2] at hc'
    exact (Option.some.inj hc').symm
  subst hcc
  -- a created status reached through a surviving authorized role must be the
  -- i-th status
  have hbmain : ∀ r ∈ sortAtlasCPAsByRoleID st.roles, ∀ x : CPIStatus,
      ((pass1CL specs st).find? fun y =>
        y.roleID == r.roleID && y.status == .created) = some x →
      isMatch (initCPI (specs[i]))
        (authorizedRole r x.iamAssumedRoleArn) = true →
      x = c' ∧ x.status = .created ∧ x.roleID = r.roleID := by
    intro r hr x hf hm
    have hxmem : x ∈ pass1CL specs st := List.mem_of_find?_eq_some hf
    have hpred := List.find?_some hf
    simp only [Bool.and_eq_true, beq_iff_eq] at hpred
    obtain ⟨hxa, m, hmfind, hmp⟩ := hcf x hxmem hpred.2
    have hrroles : r ∈ st.roles :=
      (sortAtlasCPAsByRoleID_perm st.roles).mem_iff.mp hr
    have hfr : (st.roles.find? fun y => y.roleID == x.roleID) = some r := by
      rw [hpred.1]
      exact find?_unique st.roles hnd r hrroles
    have hmr : m = r := by
      rw [hfr] at hmfind
      exact (Option.some.inj hmfind).symm
    obtain ⟨hane, _, hpp, haa⟩ := isMatch_mem_filter _ _ hm
    rw [authorizedRole_providerName] at hpp
    rw [authorizedRole_arn] at haa
    rw [authorizedRole_arn] at hane
    have hxp : x.providerName = (specs[i]).providerName := by
      rw [← hmp, hmr, ← initCPI_providerName]
      exact hpp
    have hxarn : x.iamAssumedRoleArn = (specs[i]).iamAssumedRoleArn := by
      rw [← initCPI_iamAssumedRoleArn]
      exact haa
    obtain ⟨j, hj, hxj, hjp, hja⟩ := CL_mem_pair specs
      (sortAtlasCPAsByRoleID st.roles) hsrt_rid x hxmem
    have hij : i = j := by
      apply specs_pair_inj specs hspec i j hi hj
      · rw [← hxp]
        exact hjp
      · rw [← hxarn]
        exact hja
    subst hij
    rw [hc2] at hxj
    exact ⟨(Option.some.inj hxj).symm, hpred.2, hpred.1⟩
  have hFidef : (sortAtlasCPAsByRoleID st.roles).filter
      (fun a => isMatch (initCPI (specs[i])) a) =
      matchListOf (specs[i]) (sortAtlasCPAsByRoleID st.roles) := rfl
  rw [matchFold_filter, List.filter_filter, List.filter_map]
  rcases hcase with ⟨hne, hfold⟩ | ⟨hF0, r₀, hr₀, hcopy⟩ | ⟨hF0, hr₀none, hinit⟩
  · -- exact matches exist: the status absorbed them; the last one decides
    -- the phase
    have hlast_mem : (matchListOf (specs[i])
        (sortAtlasCPAsByRoleID st.roles)).getLast hne ∈
        matchListOf (specs[i]) (sortAtlasCPAsByRoleID st.roles) :=
      List.getLast_mem hne
    have hlast_srt : (matchListOf (specs[i])
        (sortAtlasCPAsByRoleID st.roles)).getLast hne ∈
        sortAtlasCPAsByRoleID st.roles := List.mem_of_mem_filter hlast_mem
    have hlmatch : isMatch (initCPI (specs[i]))
        ((matchListOf (specs[i])
          (sortAtlasCPAsByRoleID st.roles)).getLast hne) = true :=
      (List.mem_filter.mp hlast_mem).2
    obtain ⟨hlarn, _, hlp, hla⟩ := isMatch_mem_filter _ _ hlmatch
    have hcrid : c'.roleID = ((matchListOf (specs[i])
        (sortAtlasCPAsByRoleID st.roles)).getLast hne).roleID := by
      rw [hfold, foldl_copy_roleID_last _ _ hne]
    by_cases hdate : ((matchListOf (specs[i])
        (sortAtlasCPAsByRoleID st.roles)).getLast hne).authorizedDate ≠ ""
    · -- already authorized: nothing changed
      have hcauth : c'.status = .authorized := by
        rw [hfold, foldl_copy_status_last _ _ hne, if_pos hdate]
      have hR : authOutcome st.roles c' = c' := by
        unfold authOutcome
        rw [if_pos hcauth]
      rw [hR]
      have hcarn : c'.iamAssumedRoleArn ≠ "" := by
        rw [hca, ← initCPI_iamAssumedRoleArn, ← hla]
        exact hlarn
      have hpt : ∀ r ∈ sortAtlasCPAsByRoleID st.roles,
          ((fun a => isMatch (initCPI (specs[i])) a &&
            survives specs st a) ∘ applyAuth (pass1CL specs st)) r =
          isMatch (initCPI (specs[i])) r := by
        intro r hr
        show (isMatch (initCPI (specs[i]))
            (applyAuth (pass1CL specs st) r) &&
          survives specs st (applyAuth (pass1CL specs st) r)) =
          isMatch (initCPI (specs[i])) r
        cases hf : (pass1CL specs st).find? fun y =>
            y.roleID == r.roleID && y.status == .created with
        | none =>
          have hgr : applyAuth (pass1CL specs st) r = r := by
            unfold applyAuth
            rw [hf]
          rw [hgr]
          by_cases hmr : isMatch (initCPI (specs[i])) r = true
          · obtain ⟨harnr, _, hpr, har⟩ := isMatch_mem_filter _ _ hmr
            have hSv : survives specs st r = true := by
              apply survives_of_matched_key specs st hndS r hr harnr
              rw [inStatusMap, List.any_eq_true]
              refine ⟨c', hcmem, ?_⟩
              have h1 : c'.providerName = r.providerName := by
                rw [hcp, ← initCPI_providerName, ← hpr]
              have h2 : c'.iamAssumedRoleArn = r.iamAssumedRoleARN := by
                rw [hca, ← initCPI_iamAssumedRoleArn, ← har]
              simp [hcarn, h1, h2, harnr]
            simp [hmr, hSv]
          · have hmf : isMatch (initCPI (specs[i])) r = false :=
              Bool.eq_false_iff.mpr hmr
            rw [hmf]
            simp
        | some x =>
          have hgr : applyAuth (pass1CL specs st) r =
              authorizedRole r x.iamAssumedRoleArn := by
            unfold applyAuth
            rw [hf]
          rw [hgr]
          have hleft : isMatch (initCPI (specs[i]))
              (authorizedRole r x.iamAssumedRoleArn) = false := by
            by_contra hcon
            rw [Bool.not_eq_false] at hcon
            obtain ⟨hxc, hxcreated, _⟩ := hbmain r hr x hf hcon
            rw [hxc, hcauth] at hxcreated
            simp at hxcreated
          have hright : isMatch (initCPI (specs[i])) r = false := by
            by_contra hcon
            rw [Bool.not_eq_false] at hcon
            have hxmem : x ∈ pass1CL specs st := List.mem_of_find?_eq_some hf
            have hpred := List.find?_some hf
            simp only [Bool.and_eq_true, beq_iff_eq] at hpred
            have hxi := created_with_matching_role specs
              (sortAtlasCPAsByRoleID st.roles) hsrt_rid hndS hspec x hxmem
              hpred.2 r hr hpred.1 i hi hcon
            rw [hc2] at hxi
            have hxc : c' = x := Option.some.inj hxi
            have h3 : c'.status = .created := by
              rw [hxc]
              exact hpred.2
            rw [hcauth] at h3
            simp at h3
          rw [hleft, hright]
          simp
      rw [List.filter_congr hpt, hFidef]
      have hmapg : (matchListOf (specs[i])
          (sortAtlasCPAsByRoleID st.roles)).map
          (applyAuth (pass1CL specs st)) =
          matchListOf (specs[i]) (sortAtlasCPAsByRoleID st.roles) := by
        have hid : ∀ r ∈ matchListOf (specs[i])
            (sortAtlasCPAsByRoleID st.roles),
            applyAuth (pass1CL specs st) r = r := by
          intro r hrFi
          have hr : r ∈ sortAtlasCPAsByRoleID st.roles :=
            List.mem_of_mem_filter hrFi
          have hmr : isMatch (initCPI (specs[i])) r = true :=
            (List.mem_filter.mp hrFi).2
          cases hf : (pass1CL specs st).find? fun y =>
              y.roleID == r.roleID && y.status == .created with
          | none =>
            unfold applyAuth
            rw [hf]
          | some x =>
            exfalso
            have hxmem : x ∈ pass1CL specs st := List.mem_of_find?_eq_some hf
            have hpred := List.find?_some hf
            simp only [Bool.and_eq_true, beq_iff_eq] at hpred
            have hxi := created_with_matching_role specs
              (sortAtlasCPAsByRoleID st.roles) hsrt_rid hndS hspec x hxmem
              hpred.2 r hr hpred.1 i hi hmr
            rw [hc2] at hxi
            have hxc : c' = x := Option.some.inj hxi
            have h3 : c'.status = .created := by
              rw [hxc]
              exact hpred.2
            rw [hcauth] at h3
            simp at h3
        rw [List.map_congr_left hid, List.map_id' ..]
      rw [hmapg, ← hfold]
    · -- the last match was unauthorized: the pass authorized it
      have hcstat : c'.status = .created := by
        rw [hfold, foldl_copy_status_last _ _ hne, if_neg hdate]
      obtain ⟨hcarn, m, hmfind, hmp⟩ := hcf c' hcmem hcstat
      have hlast_roles : ((matchListOf (specs[i])
          (sortAtlasCPAsByRoleID st.roles)).getLast hne) ∈ st.roles :=
        (sortAtlasCPAsByRoleID_perm st.roles).mem_iff.mp hlast_srt
      have hfr : (st.roles.find? fun y => y.roleID == c'.roleID) =
          some ((matchListOf (specs[i])
            (sortAtlasCPAsByRoleID st.roles)).getLast hne) := by
        rw [hcrid]
        exact find?_unique st.roles hnd _ hlast_roles
      have hR : authOutcome st.roles c' =
          copyCloudProviderAccessData c'
            (authorizedRole ((matchListOf (specs[i])
              (sortAtlasCPAsByRoleID st.roles)).getLast hne)
              c'.iamAssumedRoleArn) := by
        unfold authOutcome
        rw [if_neg (by rw [hcstat]; simp), hfr]
      rw [hR]
      have hfindc : ∀ k : String, k = c'.roleID →
          ((pass1CL specs st).find? fun y =>
            y.roleID == k && y.status == .created) = some c' :=
        fun k hk => find?_created_key specs (sortAtlasCPAsByRoleID st.roles)
          hsrt_rid hndS hspec c' hcmem hcstat k hk
      have hpt : ∀ r ∈ sortAtlasCPAsByRoleID st.roles,
          ((fun a => isMatch (initCPI (specs[i])) a &&
            survives specs st a) ∘ applyAuth (pass1CL specs st)) r =
          isMatch (initCPI (specs[i])) r := by
        intro r hr
        show (isMatch (initCPI (specs[i]))
            (applyAuth (pass1CL specs st) r) &&
          survives specs st (applyAuth (pass1CL specs st) r)) =
          isMatch (initCPI (specs[i])) r
        cases hf : (pass1CL specs st).find? fun y =>
            y.roleID == r.roleID && y.status == .created with
        | none =>
          have hgr : applyAuth (pass1CL specs st) r = r := by
            unfold applyAuth
            rw [hf]
          rw [hgr]
          by_cases hmr : isMatch (initCPI (specs[i])) r = true
          · obtain ⟨harnr, _, hpr, har⟩ := isMatch_mem_filter _ _ hmr
            have hSv : survives specs st r = true := by
              apply survives_of_matched_key specs st hndS r hr harnr
              rw [inStatusMap, List.any_eq_true]
              refine ⟨c', hcmem, ?_⟩
              have h1 : c'.providerName = r.providerName := by
                rw [hcp, ← initCPI_providerName, ← hpr]
              have h2 : c'.iamAssumedRoleArn = r.iamAssumedRoleARN := by
                rw [hca, ← initCPI_iamAssumedRoleArn, ← har]
              simp [hcarn, h1, h2, harnr]
            simp [hmr, hSv]
          · have hmf : isMatch (initCPI (specs[i])) r = false :=
              Bool.eq_false_iff.mpr hmr
            rw [hmf]
            simp
        | some x =>
          have hgr : applyAuth (pass1CL specs st) r =
              authorizedRole r x.iamAssumedRoleArn := by
            unfold applyAuth
            rw [hf]
          rw [hgr]
          by_cases hcon : isMatch (initCPI (specs[i]))
              (authorizedRole r x.iamAssumedRoleArn) = true
          · obtain ⟨hxc, hxcr, hxrid⟩ := hbmain r hr x hf hcon
            have hrlast : r = (matchListOf (specs[i])
                (sortAtlasCPAsByRoleID st.roles)).getLast hne := by
              apply List.inj_on_of_nodup_map hndS hr hlast_srt
              rw [← hxrid, hxc, hcrid]
            have hmr : isMatch (initCPI (specs[i])) r = true := by
              rw [hrlast]
              exact hlmatch
            have hSvr : survives specs st
                (authorizedRole r x.iamAssumedRoleArn) = true := by
              rw [survives_roleID specs st _ r (authorizedRole_roleID _ _)]
              obtain ⟨harnr, _, hpr, har⟩ := isMatch_mem_filter _ _ hmr
              apply survives_of_matched_key specs st hndS r hr harnr
              rw [inStatusMap, List.any_eq_true]
              refine ⟨c', hcmem, ?_⟩
              have h1 : c'.providerName = r.providerName := by
                rw [hcp, ← initCPI_providerName, ← hpr]
              have h2 : c'.iamAssumedRoleArn = r.iamAssumedRoleARN := by
                rw [hca, ← initCPI_iamAssumedRoleArn, ← har]
              simp [hcarn, h1, h2, harnr]
            rw [hcon, hSvr, hmr]
            rfl
          · have hright : isMatch (initCPI (specs[i])) r = false := by
              by_contra hcon2
              rw [Bool.not_eq_false] at hcon2
              have hxmem : x ∈ pass1CL specs st :=
                List.mem_of_find?_eq_some hf
              have hpred := List.find?_some hf
              simp only [Bool.and_eq_true, beq_iff_eq] at hpred
              have hxi := created_with_matching_role specs
                (sortAtlasCPAsByRoleID st.roles) hsrt_rid hndS hspec x hxmem
                hpred.2 r hr hpred.1 i hi hcon2
              rw [hc2] at hxi
              have hxc : c' = x := Option.some.inj hxi
              have hrlast : r = (matchListOf (specs[i])
                  (sortAtlasCPAsByRoleID st.roles)).getLast hne := by
                apply List.inj_on_of_nodup_map hndS hr hlast_srt
                rw [← hpred.1, ← hxc, hcrid]
              apply hcon
              rw [hrlast, ← hxc]
              have h1 : ((matchListOf (specs[i])
                  (sortAtlasCPAsByRoleID st.roles)).getLast hne).providerName =
                  (initCPI (specs[i])).providerName := hlp
              have h2 : (initCPI (specs[i])).iamAssumedRoleArn =
                  c'.iamAssumedRoleArn := by
                rw [hca, initCPI_iamAssumedRoleArn]
              simp [isMatch, authorizedRole_arn, authorizedRole_providerName,
                h1, h2, hcarn]
            have hleft : isMatch (initCPI (specs[i]))
                (authorizedRole r x.iamAssumedRoleArn) = false :=
              Bool.eq_false_iff.mpr hcon
            rw [hleft, hright]
            simp
      rw [List.filter_congr hpt, hFidef]
      have hndFi : ((matchListOf (specs[i])
          (sortAtlasCPAsByRoleID st.roles)).map fun r => r.roleID).Nodup :=
        hndS.sublist ((List.filter_sublist _).map _)
      have hFi_split : (matchListOf (specs[i])
          (sortAtlasCPAsByRoleID st.roles)).dropLast ++
          [(matchListOf (specs[i])
            (sortAtlasCPAsByRoleID st.roles)).getLast hne] =
          matchListOf (specs[i]) (sortAtlasCPAsByRoleID st.roles) :=
        List.dropLast_append_getLast hne
      have hndFi' : (((matchListOf (specs[i])
          (sortAtlasCPAsByRoleID st.roles)).dropLast.map fun r => r.roleID) ++
          [((matchListOf (specs[i])
            (sortAtlasCPAsByRoleID st.roles)).getLast hne).roleID]).Nodup := by
        have := hndFi
        rw [← hFi_split, List.map_append] at this
        simpa using this
      have hdrop_key : ∀ r ∈ (matchListOf (specs[i])
          (sortAtlasCPAsByRoleID st.roles)).dropLast,
          r.roleID ≠ ((matchListOf (specs[i])
            (sortAtlasCPAsByRoleID st.roles)).getLast hne).roleID := by
        intro r hrd hcontra
        exact (List.nodup_append.mp hndFi').2.2
          (List.mem_map_of_mem _ hrd) (by simp [hcontra])
      have hmapg : (matchListOf (specs[i])
          (sortAtlasCPAsByRoleID st.roles)).map
          (applyAuth (pass1CL specs st)) =
          (matchListOf (specs[i])
            (sortAtlasCPAsByRoleID st.roles)).dropLast ++
          [authorizedRole ((matchListOf (specs[i])
            (sortAtlasCPAsByRoleID st.roles)).getLast hne)
            c'.iamAssumedRoleArn] := by
        have hstep : (matchListOf (specs[i])
            (sortAtlasCPAsByRoleID st.roles)).map
            (applyAuth (pass1CL specs st)) =
            ((matchListOf (specs[i])
              (sortAtlasCPAsByRoleID st.roles)).dropLast ++
              [(matchListOf (specs[i])
                (sortAtlasCPAsByRoleID st.roles)).getLast hne]).map
              (applyAuth (pass1CL specs st)) :=
          (congrArg _ hFi_split).symm
        rw [hstep, List.map_append]
        congr 1
        · have hid : ∀ r ∈ (matchListOf (specs[i])
              (sortAtlasCPAsByRoleID st.roles)).dropLast,
              applyAuth (pass1CL specs st) r = r := by
            intro r hrd
            have hrFi : r ∈ matchListOf (specs[i])
                (sortAtlasCPAsByRoleID st.roles) :=
              hFi_split ▸ List.mem_append_left _ hrd
            have hr : r ∈ sortAtlasCPAsByRoleID st.roles :=
              List.mem_of_mem_filter hrFi
            have hmr : isMatch (initCPI (specs[i])) r = true :=
              (List.mem_filter.mp hrFi).2
            cases hf : (pass1CL specs st).find? fun y =>
                y.roleID == r.roleID && y.status == .created with
            | none =>
              unfold applyAuth
              rw [hf]
            | some x =>
              exfalso
              have hxmem : x ∈ pass1CL specs st :=
                List.mem_of_find?_eq_some hf
              have hpred := List.find?_some hf
              simp only [Bool.and_eq_true, beq_iff_eq] at hpred
              have hxi := created_with_matching_role specs
                (sortAtlasCPAsByRoleID st.roles) hsrt_rid hndS hspec x hxmem
                hpred.2 r hr hpred.1 i hi hmr
              rw [hc2] at hxi
              have hxc : c' = x := Option.some.inj hxi
              apply hdrop_key r hrd
              rw [← hpred.1, ← hxc, hcrid]
          · rw [List.map_congr_left hid, List.map_id' ..]
        · have hglast : applyAuth (pass1CL specs st)
              ((matchListOf (specs[i])
                (sortAtlasCPAsByRoleID st.roles)).getLast hne) =
              authorizedRole ((matchListOf (specs[i])
                (sortAtlasCPAsByRoleID st.roles)).getLast hne)
                c'.iamAssumedRoleArn := by
            unfold applyAuth
            rw [hfindc _ hcrid.symm]
          simp [hglast]
      rw [hmapg, foldl_copy_concat]
      have hcsplit : c' = copyCloudProviderAccessData
          ((matchListOf (specs[i])
            (sortAtlasCPAsByRoleID st.roles)).dropLast.foldl
            copyCloudProviderAccessData (initCPI (specs[i])))
          ((matchListOf (specs[i])
            (sortAtlasCPAsByRoleID st.roles)).getLast hne) := by
        have hstep2 : List.foldl copyCloudProviderAccessData
            (initCPI (specs[i]))
            (matchListOf (specs[i]) (sortAtlasCPAsByRoleID st.roles)) =
            List.foldl copyCloudProviderAccessData (initCPI (specs[i]))
            ((matchListOf (specs[i])
              (sortAtlasCPAsByRoleID st.roles)).dropLast ++
              [(matchListOf (specs[i])
                (sortAtlasCPAsByRoleID st.roles)).getLast hne]) :=
          (congrArg _ hFi_split).symm
        rw [hfold, hstep2, foldl_copy_concat]
      nth_rewrite 2 [hcsplit]
      rw [copy_compose _ _ _ (authorizedRole_featureUsages _ _).symm]
  · -- no exact match: the status claimed an unauthorized role, which the
    -- pass then authorized
    have hr₀NM := List.getElem?_mem hr₀
    have hr₀S : r₀ ∈ sortAtlasCPAsByRoleID st.roles :=
      List.mem_of_mem_filter hr₀NM
    have hr₀roles : r₀ ∈ st.roles :=
      (sortAtlasCPAsByRoleID_perm st.roles).mem_iff.mp hr₀S
    have hr₀a : r₀.iamAssumedRoleARN = "" := by
      simpa using (List.mem_filter.mp hr₀NM).2
    have hr₀d : r₀.authorizedDate = "" := by
      by_contra hcon
      exact (hda r₀ hr₀roles hcon) hr₀a
    have hcstat : c'.status = .created := by
      rw [hcopy, copy_status, if_neg (by simp [hr₀d])]
    have hcrid : c'.roleID = r₀.roleID := by
      rw [hcopy, copy_roleID]
    obtain ⟨hcarn, m, hmfind, hmp⟩ := hcf c' hcmem hcstat
    have hfr : (st.roles.find? fun y => y.roleID == c'.roleID) = some r₀ := by
      rw [hcrid]
      exact find?_unique st.roles hnd r₀ hr₀roles
    have hmr : m = r₀ := by
      rw [hfr] at hmfind
      exact (Option.some.inj hmfind).symm
    have hr₀p : r₀.providerName = c'.providerName := by
      rw [← hmr]
      exact hmp
    have hR : authOutcome st.roles c' =
        copyCloudProviderAccessData c'
          (authorizedRole r₀ c'.iamAssumedRoleArn) := by
      unfold authOutcome
      rw [if_neg (by rw [hcstat]; simp), hfr]
    rw [hR]
    have hfindc : ((pass1CL specs st).find? fun y =>
        y.roleID == r₀.roleID && y.status == .created) = some c' :=
      find?_created_key specs (sortAtlasCPAsByRoleID st.roles) hsrt_rid
        hndS hspec c' hcmem hcstat r₀.roleID hcrid.symm
    have hgr : applyAuth (pass1CL specs st) r₀ =
        authorizedRole r₀ c'.iamAssumedRoleArn := by
      unfold applyAuth
      rw [hfindc]
    have hm1 : isMatch (initCPI (specs[i]))
        (authorizedRole r₀ c'.iamAssumedRoleArn) = true := by
      have h1 : (initCPI (specs[i])).providerName = r₀.providerName := by
        rw [initCPI_providerName, ← hcp, ← hr₀p]
      have h2 : (initCPI (specs[i])).iamAssumedRoleArn =
          c'.iamAssumedRoleArn := by
        rw [initCPI_iamAssumedRoleArn, ← hca]
      simp [isMatch, authorizedRole_arn, authorizedRole_providerName, h1, h2,
        hcarn]
    have hSv1 : survives specs st
        (authorizedRole r₀ c'.iamAssumedRoleArn) = true := by
      rw [survives_roleID specs st _ r₀ (authorizedRole_roleID _ _)]
      apply survives_of_not_mem specs st hndS r₀ hr₀S
      · intro hcon
        have := (List.mem_filter.mp hcon).2
        simp [hr₀a] at this
      · exact claimed_not_leftover specs st hndS i hi r₀ hr₀ hF0
    have hfilter : (sortAtlasCPAsByRoleID st.roles).filter
        ((fun a => isMatch (initCPI (specs[i])) a &&
          survives specs st a) ∘ applyAuth (pass1CL specs st)) = [r₀] := by
      apply filter_eq_singleton_of_unique _ _ r₀ hndS.of_map hr₀S
      · show (isMatch (initCPI (specs[i]))
            (applyAuth (pass1CL specs st) r₀) &&
          survives specs st (applyAuth (pass1CL specs st) r₀)) = true
        rw [hgr, hm1, hSv1]
        rfl
      · intro b hb hpb
        have hpb' : (isMatch (initCPI (specs[i]))
            (applyAuth (pass1CL specs st) b) &&
          survives specs st (applyAuth (pass1CL specs st) b)) = true := hpb
        rw [Bool.and_eq_true] at hpb'
        cases hf : (pass1CL specs st).find? fun y =>
            y.roleID == b.roleID && y.status == .created with
        | none =>
          exfalso
          have hgb : applyAuth (pass1CL specs st) b = b := by
            unfold applyAuth
            rw [hf]
          rw [hgb] at hpb'
          have hbFi : b ∈ matchListOf (specs[i])
              (sortAtlasCPAsByRoleID st.roles) :=
            List.mem_filter.mpr ⟨hb, hpb'.1⟩
          rw [hF0] at hbFi
          simp at hbFi
        | some x =>
          have hgb : applyAuth (pass1CL specs st) b =
              authorizedRole b x.iamAssumedRoleArn := by
            unfold applyAuth
            rw [hf]
          rw [hgb] at hpb'
          obtain ⟨hxc, _, hxrid⟩ := hbmain b hb x hf hpb'.1
          apply List.inj_on_of_nodup_map hndS hb hr₀S
          rw [← hxrid, hxc, hcrid]
    rw [hfilter]
    simp only [List.map_cons, List.map_nil, List.foldl_cons, List.foldl_nil]
    rw [hgr]
    nth_rewrite 2 [hcopy]
    rw [copy_compose _ _ _ (authorizedRole_featureUsages _ _).symm]
  · -- fresh: phase New, impossible after a fully authorized pass
    exfalso
    have : c'.status = .new := by
      rw [hinit, initCPI_status]
    exact hnonew c' hcmem this

/-- The match stage of the second pass reproduces the persisted set of the
first pass, item by item. -/
theorem pass2_matchStage (specs : List CloudProviderIntegration)
    (st : RemoteState)
    (hrid : ∀ r ∈ st.roles, r.roleID ≠ "")
    (hnd : (st.roles.map fun r => r.roleID).Nodup)
    (hda : ∀ r ∈ st.roles, r.authorizedDate ≠ "" → r.iamAssumedRoleARN ≠ "")
    (hspec : (specs.map fun c => (c.providerName, c.iamAssumedRoleArn)).Nodup)
    (hnonew : ∀ x ∈ pass1CL specs st, x.status ≠ .new)
    (hcf : ∀ x ∈ pass1CL specs st, x.status = .created →
      x.iamAssumedRoleArn ≠ "" ∧
      ∃ m, (st.roles.find? fun r => r.roleID == x.roleID) = some m ∧
        m.providerName = x.providerName) :
    matchStage (initiateStatuses specs)
      (sortAtlasCPAsByRoleID (pass1T specs st)) = pass1P specs st := by
  rw [sorted_pass1T specs st hnd]
  apply List.ext_getElem?
  intro j
  by_cases hj : j < specs.length
  · have hlen : j < (pass1CL specs st).length := by
      have hL : (pass1CL specs st).length = specs.length :=
        claimedOf_length specs (sortAtlasCPAsByRoleID st.roles)
      rw [hL]
      exact hj
    have h1 := matchStage_getElem? specs
      (((sortAtlasCPAsByRoleID st.roles).map
        (applyAuth (pass1CL specs st))).filter (survives specs st)) j
      (specs[j]) (List.getElem?_eq_getElem hj)
    have h2 : (pass1P specs st)[j]? =
        some (authOutcome st.roles ((pass1CL specs st)[j])) := by
      unfold pass1P
      rw [List.getElem?_map, List.getElem?_eq_getElem hlen]
      rfl
    rw [h1, h2, pass2_matchFold specs st hrid hnd hda hspec hnonew hcf j hj _
      (List.getElem?_eq_getElem hlen)]
  · have hj' : specs.length ≤ j := Nat.le_of_not_lt hj
    have hL1 : (matchStage (initiateStatuses specs)
        (((sortAtlasCPAsByRoleID st.roles).map
          (applyAuth (pass1CL specs st))).filter
          (survives specs st))).length = specs.length := by
      rw [matchStage_eq, List.length_map]
      unfold initiateStatuses
      rw [List.length_map]
    have hL2 : (pass1P specs st).length = specs.length := by
      unfold pass1P
      rw [List.length_map]
      exact claimedOf_length specs (sortAtlasCPAsByRoleID st.roles)
    rw [List.getElem?_eq_none (by rw [hL1]; exact hj'),
      List.getElem?_eq_none (by rw [hL2]; exact hj')]

/-- **C5** (amended): on well-formed inputs (remote role ids non-empty and
pairwise distinct, an authorization timestamp only on roles with an ARN, and
pairwise-distinct desired provider-ARN pairs), if a pass leaves every
persisted item `Authorized`, then a second pass over the remote state the
first pass left persists exactly the same ConvergenceStatus set, leaves the
remote state untouched, issues no remote mutation call, and reports overall
success — the `Created`-then-`Authorized` progression of a fresh item (see
`C5_counterexample`) is the only source of cross-pass drift. -/
theorem C5_converged_idempotent (pid : String)
    (specs : List CloudProviderIntegration) (st : RemoteState)
    (hrid : ∀ r ∈ st.roles, r.roleID ≠ "")
    (hnd : (st.roles.map fun r => r.roleID).Nodup)
    (hda : ∀ r ∈ st.roles, r.authorizedDate ≠ "" → r.iamAssumedRoleARN ≠ "")
    (hspec : (specs.map fun c => (c.providerName, c.iamAssumedRoleArn)).Nodup)
    (hAuth : ∀ p ∈ (convergencePass pid specs st).persisted,
      p.status = .authorized) :
    (convergencePass pid specs
      (convergencePass pid specs st).state).persisted =
      (convergencePass pid specs st).persisted ∧
    (convergencePass pid specs (convergencePass pid specs st).state).state =
      (convergencePass pid specs st).state ∧
    (convergencePass pid specs (convergencePass pid specs st).state).calls =
      [] ∧
    (convergencePass pid specs (convergencePass pid specs st).state).result =
      .ok true := by
  obtain ⟨hP, hT, hnonew, hcf⟩ := pass1_run pid specs st hrid hnd hspec hAuth
  have hAuthP : ∀ p ∈ pass1P specs st, p.status = .authorized := by
    rw [← hP]
    exact hAuth
  have hM2 := pass2_matchStage specs st hrid hnd hda hspec hnonew hcf
  have harn := pass1T_arn specs st hrid hnd hda hcf
  have hins := pass1T_inStatusMap specs st hrid hnd hda hcf
  obtain ⟨k1, k2, k3, k4⟩ := converged_pass pid specs (pass1T specs st)
    st.counter harn
    (by rw [hM2]; exact hAuthP)
    (fun r hr => by rw [hM2]; exact hins r hr)
  rw [hT]
  refine ⟨?_, k2, k3, k4⟩
  rw [k1, hM2, hP]

/-- Witness for C5 amended: desired `[{AWS, arn1}]` against the remote state
that the first pass (from empty) produced; the all-`Authorized` hypothesis
holds there, and the next pass persists the identical set with no calls. -/
theorem C5_converged_idempotent_witness :
    (∀ p ∈ (convergencePass "p" [⟨"AWS", "arn1"⟩]
        (convergencePass "p" [⟨"AWS", "arn1"⟩] ⟨[], 0⟩).state).persisted,
      p.status = .authorized) ∧
    (convergencePass "p" [⟨"AWS", "arn1"⟩]
      (convergencePass "p" [⟨"AWS", "arn1"⟩]
        (convergencePass "p" [⟨"AWS", "arn1"⟩] ⟨[], 0⟩).state).state).calls =
      [] ∧
    (convergencePass "p" [⟨"AWS", "arn1"⟩]
      (convergencePass "p" [⟨"AWS", "arn1"⟩]
        (convergencePass "p" [⟨"AWS", "arn1"⟩]
          ⟨[], 0⟩).state).state).persisted =
      (convergencePass "p" [⟨"AWS", "arn1"⟩]
        (convergencePass "p" [⟨"AWS", "arn1"⟩] ⟨[], 0⟩).state).persisted := by
  have h := C5_converged_idempotent "p" [⟨"AWS", "arn1"⟩]
    (convergencePass "p" [⟨"AWS", "arn1"⟩] ⟨[], 0⟩).state
    (by decide) (by decide) (by decide) (by decide) (by decide)
  exact ⟨by decide, h.2.2.1, h.1⟩

end AtlasKube
